import Mathlib

/-!
# vecmem: the memory resources

A shallow embedding of `core/src/memory/binary_page_memory_resource_impl.cpp`
(the binary-page, or buddy, resource) and, further down, of
`core/src/memory/contiguous_memory_resource.cpp` (the contiguous, or bump,
resource), of `core/src/memory/instrumenting_memory_resource.cpp` (the
instrumenting resource, whose calls are described by the list of the actions
they perform) and of the constructors of
`core/include/vecmem/containers/impl/jagged_vector_buffer.ipp` (the jagged
buffer, whose constructors take the addresses the resources return as
arguments).  For the buddy resource:

* `std::size_t` values are natural numbers; where the source's unsigned
  arithmetic can wrap, the wrap is written out as `% 2 ^ 64`.
* Addresses are natural numbers.  The byte array a superpage owns is
  represented by its base address `m_memory`.
* The `page_state[]` array of a superpage is a length `m_num_pages` together
  with the map from index to state.  Reads go through `get_state`, which
  checks the length as the source does; writes outside the array are
  undefined behaviour in the source and fail here with `failure.undefined`.
* A `page_ref` is the position of its superpage in `m_superpages` together
  with the page index.
* The upstream resource is a function from the number of bytes requested to
  the address returned, or `none` when the upstream throws.
* Loops are recursive functions with a fuel argument.  The fuel of `round_up`
  is the bound of its `for` loop; the other loops end by their own condition
  before the fuel is used up (`clzl_loop_eq`, `first_page_loop_fuel`,
  `find_free_page_fuel`, `get_addr_loop_eq`), and `split_loop` and `unsplit`
  fail with `failure.fuel` rather than return a value the source would not.
-/

namespace vecmem

/-! ## Constants, states, superpages -/

/-- Modelled from the spec: the build-time constant `min_page_size` (log2 of
the smallest page) is declared in the header of the class, which is not among
the sources; the spec fixes it to 8. -/
def min_page_size : Nat := 8

/-- Modelled from the spec: the build-time constant `new_page_size` (log2 of
the size of a freshly created superpage) is declared in the header of the
class, which is not among the sources; the spec fixes it to 20. -/
def new_page_size : Nat := 20

/-- Modelled from the spec: the four-valued enumeration `page_state`, declared
in the header of the class. -/
inductive page_state where
  | NON_EXTANT
  | VACANT
  | OCCUPIED
  | SPLIT
  deriving DecidableEq, Repr

/-- The ways in which an operation can fail to return normally. -/
inductive failure where
  /-- The exception `std::bad_alloc` leaves the operation. -/
  | bad_alloc
  /-- The source has undefined behaviour: a write outside a state array, or
  the dereference of an empty `std::optional`. -/
  | undefined
  /-- A loop of the embedding ran out of fuel. -/
  | fuel
  deriving DecidableEq, Repr

deriving instance DecidableEq for Except

/-- A superpage: `m_size` (log2 of its byte size), `m_num_pages`, the state
array `m_pages` and the base address of `m_memory`. -/
structure superpage where
  m_size : Nat
  m_num_pages : Nat
  m_pages : Nat → page_state
  m_memory : Nat

/-- A reference to a page: position of the superpage in `m_superpages` and
index of the page in that superpage. -/
structure page_ref where
  m_superpage : Nat
  m_page : Nat
  deriving DecidableEq, Repr

/-! ## Helpers of the anonymous namespace -/

/-- The loop of `round_up`: `fuel` iterations remain, `i` is the loop
variable; when the loop is exhausted the function returns 0. -/
def round_up_loop (size : Nat) : Nat → Nat → Nat
  | 0, _ => 0
  | fuel + 1, i =>
    if (1 <<< i) % 2 ^ 64 ≥ size then i else round_up_loop size fuel (i + 1)

/-- `round_up(size)`: `for (i = 0; i < 32; i++) if ((1UL << i) >= size) return i;`
followed by `return 0`. -/
def round_up (size : Nat) : Nat := round_up_loop size 32 0

/-- The loop of the portable branch of `clzl`:
`for (b = 0; !((i << b) & (1UL << 63)); ++b);`, the shift being a 64-bit one. -/
def clzl_loop (i : Nat) : Nat → Nat → Nat
  | 0, b => b
  | fuel + 1, b =>
    if ((i <<< b) % 2 ^ 64).testBit 63 then b else clzl_loop i fuel (b + 1)

/-- `clzl(i)`: the number of leading zero bits of the 64-bit word `i`.  For
a non-zero `i` the three branches of the source agree (`_lzcnt_u64`,
`__builtin_clzl`, the portable loop); the portable loop is the one embedded. -/
def clzl (i : Nat) : Nat := clzl_loop i 64 0

/-! ## `page_ref` -/

/-- `page_ref::get_size`:
`(min_page_size - ((8 * sizeof(std::size_t) - 1) - clzl(m_page + 1))) + min_page_size`
in 64-bit unsigned arithmetic. -/
def get_size (m_page : Nat) : Nat :=
  ((min_page_size + 2 ^ 64 - ((8 * 8 - 1) - clzl (m_page + 1))) % 2 ^ 64
    + min_page_size) % 2 ^ 64

/-- `page_ref::exists`. -/
def page_exists (sp : superpage) (m_page : Nat) : Bool :=
  decide (m_page < sp.m_num_pages)

/-- `page_ref::get_state`. -/
def get_state (sp : superpage) (m_page : Nat) : page_state :=
  if page_exists sp m_page then sp.m_pages m_page else page_state.NON_EXTANT

/-- The assignment `m_superpage.get().m_pages[m_page] = s`. -/
def write_state (sp : superpage) (m_page : Nat) (s : page_state) :
    Except failure superpage :=
  if m_page < sp.m_num_pages then
    .ok { sp with m_pages := fun j => if j = m_page then s else sp.m_pages j }
  else
    .error failure.undefined

/-- `page_ref::change_state_vacant_to_occupied`. -/
def change_state_vacant_to_occupied (sp : superpage) (m_page : Nat) :
    Except failure superpage :=
  write_state sp m_page page_state.OCCUPIED

/-- `page_ref::change_state_occupied_to_vacant`. -/
def change_state_occupied_to_vacant (sp : superpage) (m_page : Nat) :
    Except failure superpage :=
  write_state sp m_page page_state.VACANT

/-- `page_ref::change_state_non_extant_to_vacant`. -/
def change_state_non_extant_to_vacant (sp : superpage) (m_page : Nat) :
    Except failure superpage :=
  write_state sp m_page page_state.VACANT

/-- `page_ref::change_state_vacant_to_non_extant`. -/
def change_state_vacant_to_non_extant (sp : superpage) (m_page : Nat) :
    Except failure superpage :=
  write_state sp m_page page_state.NON_EXTANT

/-- `page_ref::change_state_vacant_to_split`. -/
def change_state_vacant_to_split (sp : superpage) (m_page : Nat) :
    Except failure superpage :=
  write_state sp m_page page_state.SPLIT

/-- `page_ref::change_state_split_to_vacant`. -/
def change_state_split_to_vacant (sp : superpage) (m_page : Nat) :
    Except failure superpage :=
  write_state sp m_page page_state.VACANT

/-- `page_ref::left_child` (index only). -/
def left_child (m_page : Nat) : Nat := 2 * m_page + 1

/-- `page_ref::right_child` (index only). -/
def right_child (m_page : Nat) : Nat := 2 * m_page + 2

/-- The loop of `page_ref::get_addr`:
`while (lmn.left_child().m_page < m_page) lmn = lmn.left_child();`. -/
def get_addr_loop (m_page : Nat) : Nat → Nat → Nat
  | 0, lmn => lmn
  | fuel + 1, lmn =>
    if left_child lmn < m_page then get_addr_loop m_page fuel (left_child lmn)
    else lmn

/-- `page_ref::get_addr`: the address of
`m_memory[(m_page - lmn.m_page) * (1UL << get_size())]`. -/
def get_addr (sp : superpage) (m_page : Nat) : Nat :=
  sp.m_memory +
    ((m_page - get_addr_loop m_page 64 0) * (1 <<< get_size m_page)) % 2 ^ 64

/-- `page_ref::unsplit`, with the recursion depth bounded by `fuel`. -/
def unsplit : Nat → superpage → Nat → Except failure superpage
  | 0, _, _ => .error failure.fuel
  | fuel + 1, sp, m_page => do
    let sp1 ←
      if get_state sp (left_child m_page) = page_state.SPLIT then
        unsplit fuel sp (left_child m_page)
      else .ok sp
    let sp2 ←
      if get_state sp1 (right_child m_page) = page_state.SPLIT then
        unsplit fuel sp1 (right_child m_page)
      else .ok sp1
    let sp3 ← change_state_split_to_vacant sp2 m_page
    let sp4 ← change_state_vacant_to_non_extant sp3 (left_child m_page)
    change_state_vacant_to_non_extant sp4 (right_child m_page)

/-- `page_ref::split`. -/
def split (sp : superpage) (m_page : Nat) : Except failure superpage := do
  let sp1 ← change_state_vacant_to_split sp m_page
  let sp2 ← change_state_non_extant_to_vacant sp1 (left_child m_page)
  change_state_non_extant_to_vacant sp2 (right_child m_page)

/-! ## `superpage` and `allocate_upstream` -/

/-- The constructor `superpage::superpage(size, resource)`, `mem` being the
address the upstream returned for the `1UL << size` bytes.  The shift that
computes `m_num_pages` does not overflow for the sizes `do_allocate` passes,
which are at most 31. -/
def superpage.create (size mem : Nat) : superpage where
  m_size := size
  m_num_pages := (2 <<< (size - min_page_size)) - 1
  m_pages := fun i => if i = 0 then page_state.VACANT else page_state.NON_EXTANT
  m_memory := mem

/-- `superpage::total_pages`. -/
def superpage.total_pages (sp : superpage) : Nat := sp.m_num_pages

/-- `allocate_upstream(size)`: appends a superpage of order
`max(size, new_page_size)`; the exception of the upstream passes through. -/
def allocate_upstream (upstream : Nat → Option Nat) (sps : List superpage)
    (size : Nat) : Except failure (List superpage) :=
  match upstream (1 <<< max size new_page_size) with
  | none => .error failure.bad_alloc
  | some mem => .ok (sps ++ [superpage.create (max size new_page_size) mem])

/-! ## `find_free_page` -/

/-- The loop `for (i = 0; page_ref(sp, i).get_size() > size; i = 2 * i + 1);`
used by `find_free_page` and by `do_deallocate`. -/
def first_page_loop (size : Nat) : Nat → Nat → Nat
  | 0, i => i
  | fuel + 1, i =>
    if get_size i > size then first_page_loop size fuel (2 * i + 1) else i

/-- The index the loop above ends with. -/
def first_page (size : Nat) : Nat := first_page_loop size 64 0

/-- The loop `for (p = i; p < j; ++p)` of `find_free_page` over one
superpage: the first page in `[i, j)` whose state is `VACANT`. -/
def scan_pages (sp : superpage) (i j : Nat) : Option Nat :=
  (List.range' i (j - i)).find? (fun p => get_state sp p = page_state.VACANT)

/-- One pass of the body of the `do ... while` loop of `find_free_page` over
the superpages from position `k` on: the flag `candidate_sp_found` and the
page returned, if any. -/
def find_free_page_pass (size : Nat) : List superpage → Nat → Bool × Option page_ref
  | [], _ => (false, none)
  | sp :: rest, k =>
    if size ≤ sp.m_size then
      match scan_pages sp (first_page size) (2 * first_page size + 1) with
      | some p => (true, some ⟨k, p⟩)
      | none => (true, (find_free_page_pass size rest (k + 1)).2)
    else find_free_page_pass size rest (k + 1)

/-- The `do ... while (candidate_sp_found)` loop of `find_free_page`. -/
def find_free_page_loop (sps : List superpage) : Nat → Nat → Option page_ref
  | 0, _ => none
  | fuel + 1, size =>
    match find_free_page_pass size sps 0 with
    | (_, some r) => some r
    | (true, none) => find_free_page_loop sps fuel (size + 1)
    | (false, none) => none

/-- The largest `m_size` among the superpages. -/
def max_size : List superpage → Nat
  | [] => 0
  | sp :: rest => max sp.m_size (max_size rest)

/-- `find_free_page(size)`.  The loop ends at the first size no superpage can
hold, so `max_size sps + 2` iterations are enough. -/
def find_free_page (sps : List superpage) (size : Nat) : Option page_ref :=
  find_free_page_loop sps (max_size sps + 2) size

/-! ## `do_allocate` and `do_deallocate` -/

/-- The local `goal = std::max(min_page_size, round_up(size))` of `do_allocate`
and of `do_deallocate`: the order the request is served with. -/
def goal (size : Nat) : Nat := max min_page_size (round_up size)

/-- The loop `while (cand->get_size() > goal) { cand->split(); cand = cand->left_child(); }`. -/
def split_loop (g : Nat) : Nat → superpage → Nat → Except failure (superpage × Nat)
  | 0, _, _ => .error failure.fuel
  | fuel + 1, sp, cand =>
    if get_size cand > g then
      match split sp cand with
      | .error e => .error e
      | .ok sp1 => split_loop g fuel sp1 (left_child cand)
    else .ok (sp, cand)

/-- The part of `do_allocate` after a candidate has been found: unsplit,
descend by splitting, mark the page occupied, compute the address.  Returns
the new superpages, the page marked and its address. -/
def take_page (sps : List superpage) (g : Nat) (c : page_ref) :
    Except failure (List superpage × page_ref × Nat) :=
  match sps[c.m_superpage]? with
  | none => .error failure.undefined
  | some sp => do
    let sp1 ←
      if get_state sp c.m_page = page_state.SPLIT then unsplit 64 sp c.m_page
      else .ok sp
    let r ← split_loop g 64 sp1 c.m_page
    let sp3 ← change_state_vacant_to_occupied r.1 r.2
    .ok (sps.set c.m_superpage sp3, ⟨c.m_superpage, r.2⟩, get_addr sp3 r.2)

/-- `do_allocate(size, alignment)`, returning also the page it marked. -/
def do_allocate_page (upstream : Nat → Option Nat) (sps : List superpage)
    (size _alignment : Nat) : Except failure (List superpage × page_ref × Nat) :=
  match find_free_page sps (goal size) with
  | some c => take_page sps (goal size) c
  | none =>
    match allocate_upstream upstream sps (goal size) with
    | .error e => .error e
    | .ok sps1 =>
      match find_free_page sps1 (goal size) with
      | none => .error failure.bad_alloc
      | some c => take_page sps1 (goal size) c

/-- `do_allocate(size, alignment)`: the new superpages and the address. -/
def do_allocate (upstream : Nat → Option Nat) (sps : List superpage)
    (size alignment : Nat) : Except failure (List superpage × Nat) :=
  match do_allocate_page upstream sps size alignment with
  | .error e => .error e
  | .ok r => .ok (r.1, r.2.2)

/-- The search of `do_deallocate` for the superpage holding `p`: the first
one with `m_memory <= p < m_memory + (1UL << m_size)`. -/
def find_superpage (sps : List superpage) (p : Nat) : Option Nat :=
  sps.findIdx? (fun sp =>
    decide (sp.m_memory ≤ p) && decide (p < sp.m_memory + (1 <<< sp.m_size)))

/-- The page index `do_deallocate` computes in superpage `sp` for `(p, s)`. -/
def deallocate_index (sp : superpage) (p s : Nat) : Nat :=
  first_page (goal s) + (p - sp.m_memory) / (1 <<< goal s)

/-- `do_deallocate(p, s, alignment)`. -/
def do_deallocate (sps : List superpage) (p s _alignment : Nat) :
    Except failure (List superpage) :=
  match find_superpage sps p with
  | none => .error failure.undefined
  | some k =>
    match sps[k]? with
    | none => .error failure.undefined
    | some sp =>
      match change_state_occupied_to_vacant sp (deallocate_index sp p s) with
      | .error e => .error e
      | .ok sp1 => .ok (sps.set k sp1)

/-! ## Vocabulary of the specification -/

/-- The `ceil_log2` of the specification, as a relation: `k` is the least
exponent with `2 ^ k ≥ B`. -/
def is_ceil_log2 (B k : Nat) : Prop := B ≤ 2 ^ k ∧ ∀ j, j < k → 2 ^ j < B

instance (B k : Nat) : Decidable (is_ceil_log2 B k) := by
  unfold is_ceil_log2; infer_instance

/-- Two values describe the same superpage, up to the states of its pages:
order, number of pages and memory agree. -/
def same_frame (a b : superpage) : Prop :=
  b.m_size = a.m_size ∧ b.m_num_pages = a.m_num_pages ∧ b.m_memory = a.m_memory

/-- An upstream resource that answers every request with the address `mem`. -/
def upstream_at (mem : Nat) : Nat → Option Nat := fun _ => some mem

/-- The state of page `i` of the superpage at position `k`, if there is one. -/
def state_at (sps : List superpage) (k i : Nat) : Option page_state :=
  (sps[k]?).map (fun sp => get_state sp i)

/-- The observable state the round-trip property of the specification speaks
of: two resources have the same number of superpages and the same state for
every page. -/
def same_observable (s t : List superpage) : Prop :=
  s.length = t.length ∧ ∀ k i, state_at s k i = state_at t k i

/-! ## A scenario used to instantiate the general theorems -/

/-- The superpages after `allocate(100)` on a fresh resource whose upstream
returned the address `1048576`. -/
def after_allocate_100 : List superpage :=
  match do_allocate (upstream_at 1048576) [] 100 1 with
  | .ok r => r.1
  | .error _ => []

/-- The superpages after the block of `after_allocate_100`, at address
`1081344`, has been deallocated with size 100. -/
def after_round_trip_100 : List superpage :=
  match do_deallocate after_allocate_100 1081344 100 1 with
  | .ok s => s
  | .error _ => []

/-! ## Further vocabulary for the buddy resource -/

/-- The tree depth of the specification: in the level-order layout page `i`
lies at depth `d` when `2 ^ d ≤ i + 1 < 2 ^ (d + 1)`. -/
def at_depth (i d : Nat) : Prop := 2 ^ d ≤ i + 1 ∧ i + 1 < 2 ^ (d + 1)

instance (i d : Nat) : Decidable (at_depth i d) := by
  unfold at_depth; infer_instance

/-- The shape every superpage of the resource has, whatever the states of its
pages: it was built by the constructor `superpage::superpage` for an order of
at least `new_page_size`, the only way `allocate_upstream` builds one. -/
def well_formed (sps : List superpage) : Prop :=
  ∀ sp ∈ sps, new_page_size ≤ sp.m_size ∧
    sp.m_num_pages = (2 <<< (sp.m_size - min_page_size)) - 1

instance (sps : List superpage) : Decidable (well_formed sps) := by
  unfold well_formed; infer_instance

/-! # The contiguous (bump) memory resource

A shallow embedding of `core/src/memory/contiguous_memory_resource.cpp`.
Pointers are natural numbers; the `std::size_t` subtraction that computes the
remaining space is written out in 64-bit arithmetic. -/

/-- The first address at or after `p` that is a multiple of `alignment`. -/
def align_up (p alignment : Nat) : Nat := (p + alignment - 1) / alignment * alignment

/-- The function `std::align(alignment, size, ptr, space)` of the C++ standard
library, for an alignment that is a power of two (the behaviour is undefined
for any other): when `size` bytes fit into the `space` bytes at `ptr` after
`ptr` has been moved to the first aligned address, the function returns that
address, stores it in `ptr` and takes the bytes skipped off `space`; otherwise
it returns a null pointer and leaves both unchanged.  The result is the
pointer returned (`none` for null) with the new values of `ptr` and `space`. -/
def std_align (alignment size ptr space : Nat) : Option Nat × Nat × Nat :=
  if size ≤ space ∧ align_up ptr alignment - ptr ≤ space - size then
    (some (align_up ptr alignment), align_up ptr alignment,
      space - (align_up ptr alignment - ptr))
  else (none, ptr, space)

/-- The data members of `contiguous_memory_resource`: the size of the slab,
its first address and the cursor. -/
structure contiguous_memory_resource where
  m_size : Nat
  m_begin : Nat
  m_next : Nat
  deriving DecidableEq, Repr

namespace contiguous_memory_resource

/-- The constructor `contiguous_memory_resource(upstream, size)`: the slab is
allocated upstream and the cursor starts at its first address; the exception
of the upstream passes through. -/
def create (upstream : Nat → Option Nat) (size : Nat) :
    Except failure contiguous_memory_resource :=
  match upstream size with
  | none => .error failure.bad_alloc
  | some mem => .ok { m_size := size, m_begin := mem, m_next := mem }

/-- The local `rem = m_size - (m_next - m_begin)` of `do_allocate`: a signed
pointer difference taken off an unsigned size, in 64-bit arithmetic. -/
def rem (r : contiguous_memory_resource) : Nat :=
  (((r.m_size : Int) - ((r.m_next : Int) - (r.m_begin : Int))) % (2 : Int) ^ 64).toNat

/-- `contiguous_memory_resource::do_allocate(size, alignment)`: the resource
after the call, and the address returned or the exception thrown.
`std::align` receives `m_next` by reference, so the cursor after the call is
the pointer `std::align` leaves, moved by `size` when it succeeded. -/
def do_allocate (r : contiguous_memory_resource) (size alignment : Nat) :
    contiguous_memory_resource × Except failure Nat :=
  match std_align alignment size r.m_next r.rem with
  | (some _, ptr, _) => ({ r with m_next := ptr + size }, .ok ptr)
  | (none, ptr, _) => ({ r with m_next := ptr }, .error failure.bad_alloc)

/-- `contiguous_memory_resource::do_deallocate(p, size, alignment)`: a no-op. -/
def do_deallocate (r : contiguous_memory_resource) (_p _size _alignment : Nat) :
    contiguous_memory_resource := r

/-- A call of the public interface of the resource. -/
inductive call where
  | allocate (size alignment : Nat)
  | deallocate (p size alignment : Nat)
  deriving DecidableEq, Repr

/-- A sequence of calls on one resource: the resource after the last call and
the successful allocations, oldest first, each with the address returned and
the size requested.  A call that throws leaves the resource in use. -/
def run : contiguous_memory_resource → List call →
    contiguous_memory_resource × List (Nat × Nat)
  | r, [] => (r, [])
  | r, call.allocate size alignment :: rest =>
    match (r.do_allocate size alignment).2 with
    | .ok p => ((run (r.do_allocate size alignment).1 rest).1,
        (p, size) :: (run (r.do_allocate size alignment).1 rest).2)
    | .error _ => run (r.do_allocate size alignment).1 rest
  | r, call.deallocate p size alignment :: rest =>
    run (r.do_deallocate p size alignment) rest

/-- The bound the specification states for the cursor:
`begin <= next <= begin + total`. -/
def in_bounds (r : contiguous_memory_resource) : Prop :=
  r.m_begin ≤ r.m_next ∧ r.m_next ≤ r.m_begin + r.m_size

instance (r : contiguous_memory_resource) : Decidable r.in_bounds := by
  unfold in_bounds; infer_instance

end contiguous_memory_resource

/-- The alignments the interface admits: powers of two. -/
def power_of_two (alignment : Nat) : Prop := ∃ j, j < 64 ∧ alignment = 2 ^ j

instance (alignment : Nat) : Decidable (power_of_two alignment) := by
  unfold power_of_two; infer_instance

/-- The alignment of an allocate call is a power of two. -/
def aligned_call : contiguous_memory_resource.call → Prop
  | contiguous_memory_resource.call.allocate _ alignment => power_of_two alignment
  | contiguous_memory_resource.call.deallocate _ _ _ => True

instance (c : contiguous_memory_resource.call) : Decidable (aligned_call c) := by
  cases c <;> unfold aligned_call <;> infer_instance

/-- Every allocate call of a sequence has a power-of-two alignment. -/
def aligned_calls (calls : List contiguous_memory_resource.call) : Prop :=
  ∀ c ∈ calls, aligned_call c

instance (calls : List contiguous_memory_resource.call) : Decidable (aligned_calls calls) := by
  unfold aligned_calls; infer_instance

/-! ## `instrumenting_memory_resource` -/

/-- The null pointer. -/
def nullptr : Nat := 0

/-- Modelled from the spec: `memory_event::type`, the kind of an event,
`ALLOCATION` or `DEALLOCATION`; the header that declares the event record is
not among the sources. -/
inductive memory_event_type where
  | ALLOCATION
  | DEALLOCATION
  deriving DecidableEq, Repr

/-- Modelled from the spec: the event record
`{kind, size, alignment, addr, elapsed_ns}`, declared in a header that is not
among the sources; the fields are in the order of the arguments of
`m_events.emplace_back(type, size, align, ptr, time)`. -/
structure memory_event where
  m_type : memory_event_type
  m_size : Nat
  m_align : Nat
  m_ptr : Nat
  m_time : Nat
  deriving DecidableEq, Repr

/-- What a call of the wrapper does outside of itself and to its event list,
in the order in which it is done.  A hook is a call-back of the user: it is
identified by a number, its call is recorded with its arguments, and it is
taken to return. -/
inductive action where
  | pre_allocate_hook (f size align : Nat)
  | upstream_allocate (size align : Nat)
  | post_allocate_hook (f size align ptr : Nat)
  | pre_deallocate_hook (f ptr size align : Nat)
  | upstream_deallocate (ptr size align : Nat)
  | emplace_back (e : memory_event)
  | throw_bad_alloc
  deriving DecidableEq, Repr

/-- The members of `instrumenting_memory_resource` other than the reference
to the upstream: the events and the three lists of hooks. -/
structure instrumenting_memory_resource where
  m_events : List memory_event
  m_pre_allocate_hooks : List Nat
  m_post_allocate_hooks : List Nat
  m_pre_deallocate_hooks : List Nat
  deriving DecidableEq, Repr

/-- A loop `for (const std::function<...> &f : hooks) f(...)`: the hooks are
called from the first to the last, `call f` being the call of `f` with the
arguments of the loop. -/
def run_hooks (call : Nat → action) : List Nat → List action → List action
  | [], log => log
  | f :: rest, log => run_hooks call rest (log ++ [call f])

/-- The value `std::size_t time = duration_cast<nanoseconds>(t2 - t1).count()`
for the two readings `t1` and `t2` of the clock, in nanoseconds. -/
def elapsed (t1 t2 : Int) : Nat := ((t2 - t1) % 2 ^ 64).toNat

namespace instrumenting_memory_resource

/-- The constructor: no event and no hook. -/
def create : instrumenting_memory_resource := ⟨[], [], [], []⟩

/-- `get_events`. -/
def get_events (r : instrumenting_memory_resource) : List memory_event := r.m_events

/-- `add_pre_allocate_hook(f)`: `m_pre_allocate_hooks.push_back(f)`. -/
def add_pre_allocate_hook (r : instrumenting_memory_resource) (f : Nat) :
    instrumenting_memory_resource :=
  { r with m_pre_allocate_hooks := r.m_pre_allocate_hooks ++ [f] }

/-- `add_post_allocate_hook(f)`: `m_post_allocate_hooks.push_back(f)`. -/
def add_post_allocate_hook (r : instrumenting_memory_resource) (f : Nat) :
    instrumenting_memory_resource :=
  { r with m_post_allocate_hooks := r.m_post_allocate_hooks ++ [f] }

/-- `add_pre_deallocate_hook(f)`: `m_pre_deallocate_hooks.push_back(f)`. -/
def add_pre_deallocate_hook (r : instrumenting_memory_resource) (f : Nat) :
    instrumenting_memory_resource :=
  { r with m_pre_deallocate_hooks := r.m_pre_deallocate_hooks ++ [f] }

/-- `do_allocate(size, align)`.  `upstream size align` is the address
`m_upstream.allocate(size, align)` returns, `none` when it throws
`std::bad_alloc`; `t1` and `t2` are the two readings of the clock; `log` holds
the actions done before the call.  The result is the resource after the call,
the actions done up to the end of the call, and the address returned or the
exception thrown. -/
def do_allocate (r : instrumenting_memory_resource) (upstream : Nat → Nat → Option Nat)
    (t1 t2 : Int) (size align : Nat) (log : List action) :
    instrumenting_memory_resource × List action × Except failure Nat :=
  let log1 := run_hooks (fun f => action.pre_allocate_hook f size align)
    r.m_pre_allocate_hooks log
  let ptr :=
    match upstream size align with
    | some p => p
    | none => nullptr
  let log2 := log1 ++ [action.upstream_allocate size align]
  let time := elapsed t1 t2
  let e : memory_event := ⟨memory_event_type.ALLOCATION, size, align, ptr, time⟩
  let r1 := { r with m_events := r.m_events ++ [e] }
  let log3 := log2 ++ [action.emplace_back e]
  let log4 := run_hooks (fun f => action.post_allocate_hook f size align ptr)
    r.m_post_allocate_hooks log3
  if ptr = nullptr then (r1, log4 ++ [action.throw_bad_alloc], .error failure.bad_alloc)
  else (r1, log4, .ok ptr)

/-- `do_deallocate(ptr, size, align)`: the resource after the call and the
actions done up to the end of the call. -/
def do_deallocate (r : instrumenting_memory_resource) (t1 t2 : Int)
    (ptr size align : Nat) (log : List action) :
    instrumenting_memory_resource × List action :=
  let log1 := run_hooks (fun f => action.pre_deallocate_hook f ptr size align)
    r.m_pre_deallocate_hooks log
  let log2 := log1 ++ [action.upstream_deallocate ptr size align]
  let time := elapsed t1 t2
  let e : memory_event := ⟨memory_event_type.DEALLOCATION, size, align, ptr, time⟩
  ({ r with m_events := r.m_events ++ [e] }, log2 ++ [action.emplace_back e])

end instrumenting_memory_resource

/-! ## `jagged_vector_buffer` -/

/-- What the constructors of `jagged_vector_buffer<TYPE>` use of the types
they are instantiated with: `sizeof(TYPE)`, `alignof(TYPE)`, the size in bytes
of `value_type::size_type` (which is also `header_t`) and
`sizeof(value_type)`, `value_type` being `vector_view<TYPE>`.  The header
that declares `vector_view` is not among the sources. -/
structure type_sizes where
  sizeof_TYPE : Nat
  alignof_TYPE : Nat
  sizeof_size_type : Nat
  sizeof_value_type : Nat
  deriving DecidableEq, Repr

/-- The conversion `static_cast<typename value_type::size_type>(x)` of a
`std::size_t`. -/
def to_size_type (t : type_sizes) (x : Nat) : Nat := x % 2 ^ (8 * t.sizeof_size_type)

/-- Modelled from the spec: the view record `vector_view<TYPE>`,
"(capacity, optional-size-header-ptr, payload-ptr)"; the header that declares
it is not among the sources.  `m_size` is the null pointer when there is no
size header. -/
structure vector_view where
  m_capacity : Nat
  m_size : Nat
  m_ptr : Nat
  deriving DecidableEq, Repr

/-- Modelled from the spec: the constructor `vector_view(size, ptr)` of a view
of fixed size, which has no size header; the header that declares it is not
among the sources. -/
def vector_view.fixed (size ptr : Nat) : vector_view := ⟨size, nullptr, ptr⟩

/-- Modelled from the spec: the constructor `vector_view(capacity, size, ptr)`
of a resizable view, `size` being the pointer to its size header; the header
that declares it is not among the sources. -/
def vector_view.resizable (capacity size ptr : Nat) : vector_view := ⟨capacity, size, ptr⟩

/-- Modelled from the spec: `vector_view::size()`, the capacity of a view
without size header and the value of the size header otherwise, `heap` giving
the value stored at an address; the header that declares it is not among the
sources. -/
def vector_view.size (heap : Nat → Nat) (v : vector_view) : Nat :=
  if v.m_size = nullptr then v.m_capacity else heap v.m_size

/-- Modelled from the spec: `vector_view::capacity()`; the header that
declares it is not among the sources. -/
def vector_view.capacity (v : vector_view) : Nat := v.m_capacity

/-- The members of `jagged_vector_view`: the number of views and the address
of the array of view records. -/
structure jagged_vector_view where
  m_size : Nat
  m_ptr : Nat
  deriving DecidableEq, Repr

/-- Modelled from the spec: the owning handle `unique_alloc_ptr`,
"(address, size, resource-ref)", declared in a header that is not among the
sources: the address, the number of elements asked for and the resource.  The
null state is `none`. -/
structure unique_alloc where
  m_ptr : Nat
  m_count : Nat
  m_resource : Nat
  deriving DecidableEq, Repr

/-- The member `get()` of a handle: the null pointer in the null state. -/
def unique_alloc_get : Option unique_alloc → Nat
  | none => nullptr
  | some a => a.m_ptr

/-- Modelled from the spec: `make_unique_alloc<T[]>(resource, n)`, which calls
`allocate` of the resource; the header that declares it is not among the
sources.  `answer` is the address `allocate` returns, `none` when it
throws. -/
def make_unique_alloc (resource n : Nat) (answer : Option Nat) : Except failure unique_alloc :=
  match answer with
  | none => .error failure.bad_alloc
  | some p => .ok ⟨p, n, resource⟩

/-- Modelled from the spec: `details::aligned_multiple_placement<header_t,
TYPE>(resource, n_headers, n_elements)`, declared in a header that is not
among the sources: one allocation of
`align_up(n_headers * sizeof(header_t), alignof(TYPE)) + n_elements * sizeof(TYPE)`
bytes, the headers at offset 0 and the elements at offset
`align_up(n_headers * sizeof(header_t), alignof(TYPE))`.  The result is the
handle, the pointer to the headers and the pointer to the elements. -/
def aligned_multiple_placement (t : type_sizes) (resource n_headers n_elements : Nat)
    (answer : Option Nat) : Except failure (unique_alloc × Nat × Nat) :=
  match answer with
  | none => .error failure.bad_alloc
  | some p =>
    .ok (⟨p, align_up (n_headers * t.sizeof_size_type) t.alignof_TYPE
            + n_elements * t.sizeof_TYPE, resource⟩,
      p, p + align_up (n_headers * t.sizeof_size_type) t.alignof_TYPE)

/-- `std::accumulate(first, last, static_cast<std::size_t>(0))` over a vector
of `std::size_t`. -/
def accumulate (xs : List Nat) : Nat := xs.foldl (fun acc x => (acc + x) % 2 ^ 64) 0

/-- `get_sizes(jvv)`: `result[i] = jvv.m_ptr[i].size()` for `i < jvv.m_size`,
`views` giving the view record stored at an address. -/
def get_sizes (t : type_sizes) (views : Nat → vector_view) (heap : Nat → Nat)
    (jvv : jagged_vector_view) : List Nat :=
  (List.range jvv.m_size).map
    (fun i => (views (jvv.m_ptr + i * t.sizeof_value_type)).size heap)

/-- `allocate_jagged_buffer_outer_memory(size, resource)`: the null handle for
size 0, otherwise an array of `size` view records from `resource`. -/
def allocate_jagged_buffer_outer_memory (size resource : Nat) (answer : Option Nat) :
    Except failure (Option unique_alloc) :=
  if size = 0 then .ok none
  else (make_unique_alloc resource size answer).map some

/-- The members of `jagged_vector_buffer`: `m_size` and `m_ptr` of the base
class `jagged_vector_view`, and the three handles. -/
structure jagged_vector_buffer where
  m_size : Nat
  m_ptr : Nat
  m_outer_memory : Option unique_alloc
  m_outer_host_memory : Option unique_alloc
  m_inner_memory : unique_alloc
  deriving DecidableEq, Repr

/-- `jagged_vector_buffer::host_ptr`. -/
def jagged_vector_buffer.host_ptr (b : jagged_vector_buffer) : Nat :=
  unique_alloc_get b.m_outer_host_memory

/-- The loop of the constructor from `sizes`, from index `i` on: the view
records constructed, each with the address `host_ptr() + i` it is constructed
at.  `ptrdiff` is the 64-bit value of the variable; the sum
`m_inner_memory.get() + ptrdiff` is the 64-bit sum of the address and the
offset. -/
def fill_fixed (t : type_sizes) (host_ptr inner : Nat) :
    List Nat → Nat → Nat → List (Nat × vector_view)
  | [], _, _ => []
  | s :: rest, i, ptrdiff =>
    (host_ptr + i * t.sizeof_value_type,
      vector_view.fixed (to_size_type t s) ((inner + ptrdiff) % 2 ^ 64)) ::
    fill_fixed t host_ptr inner rest (i + 1)
      ((ptrdiff + (s * t.sizeof_TYPE) % 2 ^ 64) % 2 ^ 64)

/-- The loop of the constructor from `sizes` and `capacities`, from index `i`
on; `data_ptr + ptrdiff` is the 64-bit sum of the address and of `ptrdiff`
elements. -/
def fill_resizable (t : type_sizes) (host_ptr header_ptr data_ptr : Nat) :
    List Nat → Nat → Nat → List (Nat × vector_view)
  | [], _, _ => []
  | c :: rest, i, ptrdiff =>
    (host_ptr + i * t.sizeof_value_type,
      vector_view.resizable (to_size_type t c) (header_ptr + i * t.sizeof_size_type)
        ((data_ptr + ptrdiff * t.sizeof_TYPE) % 2 ^ 64)) ::
    fill_resizable t host_ptr header_ptr data_ptr rest (i + 1) ((ptrdiff + c) % 2 ^ 64)

/-- The constructor `jagged_vector_buffer(sizes, resource,
host_access_resource)`.  `outer`, `outer_host` and `inner` are the answers of
the resources to the allocations of `m_outer_memory`, `m_outer_host_memory`
and `m_inner_memory`, should they be made.  The result is the buffer and the
view records constructed through `host_ptr()`, each with its address. -/
def jagged_vector_buffer.create (t : type_sizes) (sizes : List Nat) (resource : Nat)
    (host_access_resource : Option Nat) (outer outer_host inner : Option Nat) :
    Except failure (jagged_vector_buffer × List (Nat × vector_view)) := do
  let m_outer_memory ← allocate_jagged_buffer_outer_memory
    (match host_access_resource with
      | none => 0
      | some _ => sizes.length) resource outer
  let m_outer_host_memory ← allocate_jagged_buffer_outer_memory sizes.length
    (match host_access_resource with
      | none => resource
      | some h => h) outer_host
  let m_inner_memory ← make_unique_alloc resource
    ((accumulate sizes * t.sizeof_TYPE) % 2 ^ 64) inner
  let b : jagged_vector_buffer :=
    { m_size := sizes.length
      m_ptr :=
        match host_access_resource with
        | some _ => unique_alloc_get m_outer_memory
        | none => unique_alloc_get m_outer_host_memory
      m_outer_memory := m_outer_memory
      m_outer_host_memory := m_outer_host_memory
      m_inner_memory := m_inner_memory }
  pure (b, fill_fixed t b.host_ptr (unique_alloc_get (some m_inner_memory)) sizes 0 0)

/-- The constructor `jagged_vector_buffer(other, resource,
host_access_resource)` from a jagged view. -/
def jagged_vector_buffer.create_from_view (t : type_sizes) (views : Nat → vector_view)
    (heap : Nat → Nat) (other : jagged_vector_view) (resource : Nat)
    (host_access_resource : Option Nat) (outer outer_host inner : Option Nat) :
    Except failure (jagged_vector_buffer × List (Nat × vector_view)) :=
  jagged_vector_buffer.create t (get_sizes t views heap other) resource
    host_access_resource outer outer_host inner

/-- The constructor `jagged_vector_buffer(sizes, capacities, resource,
host_access_resource)`.  When the two vectors differ in length the assertion
fails, or, without assertions, the loop leaves the outer array. -/
def jagged_vector_buffer.create_resizable (t : type_sizes) (sizes capacities : List Nat)
    (resource : Nat) (host_access_resource : Option Nat)
    (outer outer_host inner : Option Nat) :
    Except failure (jagged_vector_buffer × List (Nat × vector_view)) := do
  let m_outer_memory ← allocate_jagged_buffer_outer_memory
    (match host_access_resource with
      | none => 0
      | some _ => sizes.length) resource outer
  let m_outer_host_memory ← allocate_jagged_buffer_outer_memory sizes.length
    (match host_access_resource with
      | none => resource
      | some h => h) outer_host
  let total_elements := accumulate capacities
  let placed ← aligned_multiple_placement t resource capacities.length total_elements inner
  if sizes.length ≠ capacities.length then .error failure.undefined
  else
    let b : jagged_vector_buffer :=
      { m_size := sizes.length
        m_ptr :=
          match host_access_resource with
          | some _ => unique_alloc_get m_outer_memory
          | none => unique_alloc_get m_outer_host_memory
        m_outer_memory := m_outer_memory
        m_outer_host_memory := m_outer_host_memory
        m_inner_memory := placed.1 }
    pure (b, fill_resizable t b.host_ptr placed.2.1 placed.2.2 capacities 0 0)

/-! ## The end of `do_allocate` -/

/-- The part of `do_allocate` that follows the test
`cand->get_state() == page_state::SPLIT`: the loop that splits the candidate
down to the goal, the change of state of the page reached and its address. -/
def split_and_mark (sps : List superpage) (g : Nat) (c : page_ref) :
    Except failure (List superpage × page_ref × Nat) :=
  match sps[c.m_superpage]? with
  | none => .error failure.undefined
  | some sp => do
    let r ← split_loop g 64 sp c.m_page
    let sp3 ← change_state_vacant_to_occupied r.1 r.2
    .ok (sps.set c.m_superpage sp3, ⟨c.m_superpage, r.2⟩, get_addr sp3 r.2)
/-! ## Sequences of calls on the buddy resource -/

/-- The address `p` lies in the memory of one of the superpages. -/
def in_some_superpage (sps : List superpage) (p : Nat) : Prop :=
  ∃ sp ∈ sps, sp.m_memory ≤ p ∧ p < sp.m_memory + 2 ^ sp.m_size

namespace binary_page_memory_resource

/-- A call of the public interface of the resource. -/
inductive call where
  | allocate (size alignment : Nat)
  | deallocate (p s alignment : Nat)
  deriving DecidableEq, Repr

/-- One call on the resource.  The state is the list of the superpages with
the list of the live allocations, each with the address returned and the size
requested.  `upstream k` answers the request for a new superpage when the
resource has `k` superpages.  A call of `allocate` that throws
`std::bad_alloc` leaves the resource in use, with the superpages it had: the
exception is thrown only when the upstream threw it
(`do_allocate_page_bad_alloc`).  The step fails when the source has undefined
behaviour. -/
def step (upstream : Nat → Nat → Option Nat) (st : List superpage × List (Nat × Nat)) :
    call → Except failure (List superpage × List (Nat × Nat))
  | call.allocate size alignment =>
    match do_allocate (upstream st.1.length) st.1 size alignment with
    | .ok r => .ok (r.1, (r.2, size) :: st.2)
    | .error failure.bad_alloc => .ok st
    | .error e => .error e
  | call.deallocate p s alignment =>
    match do_deallocate st.1 p s alignment with
    | .ok sps => .ok (sps, st.2.erase (p, s))
    | .error e => .error e

/-- A sequence of calls on the resource. -/
def run (upstream : Nat → Nat → Option Nat) :
    List superpage × List (Nat × Nat) → List call →
      Except failure (List superpage × List (Nat × Nat))
  | st, [] => .ok st
  | st, c :: rest =>
    match step upstream st c with
    | .ok st1 => run upstream st1 rest
    | .error e => .error e

/-- Every `deallocate(p, s)` of the sequence matches a live allocation: `p`
was returned by a call `allocate(s)` that has not been matched before. -/
def matching (upstream : Nat → Nat → Option Nat) :
    List superpage × List (Nat × Nat) → List call → Bool
  | _, [] => true
  | st, c :: rest =>
    (match c with
      | call.deallocate p s _ => decide ((p, s) ∈ st.2)
      | call.allocate _ _ => true) &&
    (match step upstream st c with
      | .ok st1 => matching upstream st1 rest
      | .error _ => true)

end binary_page_memory_resource

/-! # Properties

## Arithmetic of the helpers -/

theorem testBit_63_of_lt {x : Nat} (h : x < 2 ^ 63) : x.testBit 63 = false :=
  Nat.testBit_lt_two_pow h

theorem testBit_63_of_ge {x : Nat} (h1 : 2 ^ 63 ≤ x) (h2 : x < 2 ^ 64) :
    x.testBit 63 = true := by
  rw [Nat.testBit_to_div_mod]
  have : x / 2 ^ 63 % 2 = 1 := by omega
  simp only [this, decide_True]

/-- The portable loop of `clzl` counts the leading zeros: for a word with
`2 ^ d ≤ n < 2 ^ (d + 1)` it stops at `63 - d`. -/
theorem clzl_loop_eq (n d : Nat) (h1 : 2 ^ d ≤ n) (h2 : n < 2 ^ (d + 1)) (hd : d ≤ 63) :
    ∀ fuel b, b ≤ 63 - d → 63 - d - b < fuel → clzl_loop n fuel b = 63 - d := by
  intro fuel
  induction fuel with
  | zero => intro b _ h; omega
  | succ fuel ih =>
    intro b hb hf
    unfold clzl_loop
    have hshift : n <<< b = n * 2 ^ b := Nat.shiftLeft_eq n b
    rcases Nat.lt_or_ge b (63 - d) with hlt | hge
    · have hpow : 2 ^ (d + 1) * 2 ^ b ≤ 2 ^ 63 := by
        rw [← Nat.pow_add]; exact Nat.pow_le_pow_right (by decide) (by omega)
      have hlt63 : n * 2 ^ b < 2 ^ 63 :=
        lt_of_lt_of_le (Nat.mul_lt_mul_of_pos_right h2 (Nat.two_pow_pos b)) hpow
      have hmod : (n <<< b) % 2 ^ 64 = n * 2 ^ b := by
        rw [hshift]; exact Nat.mod_eq_of_lt (lt_trans hlt63 (by decide))
      rw [hmod, testBit_63_of_lt hlt63]
      simp only [Bool.false_eq_true, if_false]
      exact ih (b + 1) (by omega) (by omega)
    · have hbe : b = 63 - d := by omega
      have hlo : 2 ^ 63 ≤ n * 2 ^ b := by
        have : 2 ^ d * 2 ^ b = 2 ^ 63 := by
          rw [← Nat.pow_add]; congr 1; omega
        rw [← this]; exact Nat.mul_le_mul_right _ h1
      have hhi : n * 2 ^ b < 2 ^ 64 := by
        have : 2 ^ (d + 1) * 2 ^ b = 2 ^ 64 := by
          rw [← Nat.pow_add]; congr 1; omega
        rw [← this]; exact Nat.mul_lt_mul_of_pos_right h2 (Nat.two_pow_pos b)
      have hmod : (n <<< b) % 2 ^ 64 = n * 2 ^ b := by
        rw [hshift]; exact Nat.mod_eq_of_lt hhi
      rw [hmod, testBit_63_of_ge hlo hhi]
      simp only [if_true]
      exact hbe

theorem clzl_eq (n d : Nat) (h1 : 2 ^ d ≤ n) (h2 : n < 2 ^ (d + 1)) (hd : d ≤ 63) :
    clzl n = 63 - d :=
  clzl_loop_eq n d h1 h2 hd 64 0 (by omega) (by omega)

/-- The value of `get_size` on a page of tree depth `d ≤ 16`:
`2 * min_page_size - d`, whatever the order of the superpage. -/
theorem get_size_eq (i d : Nat) (h1 : 2 ^ d ≤ i + 1) (h2 : i + 1 < 2 ^ (d + 1))
    (hd : d ≤ 16) : get_size i = 16 - d := by
  unfold get_size
  rw [clzl_eq (i + 1) d h1 h2 (by omega)]
  simp only [min_page_size]
  omega

/-! ## `round_up` and `goal` -/

theorem shift_one_mod (j : Nat) (hj : j < 64) : (1 <<< j) % 2 ^ 64 = 2 ^ j := by
  rw [Nat.shiftLeft_eq, Nat.one_mul]
  exact Nat.mod_eq_of_lt (Nat.pow_lt_pow_right (by decide) hj)

/-- What the loop of `round_up` returns: either the first `r` in `[i, i + fuel)`
whose power reaches `size`, or 0 when no exponent in that range does. -/
theorem round_up_loop_cases (size : Nat) :
    ∀ fuel i,
      (round_up_loop size fuel i = 0 ∧
          ∀ j, i ≤ j → j < i + fuel → (1 <<< j) % 2 ^ 64 < size) ∨
      (i ≤ round_up_loop size fuel i ∧ round_up_loop size fuel i < i + fuel ∧
          size ≤ (1 <<< round_up_loop size fuel i) % 2 ^ 64 ∧
          ∀ j, i ≤ j → j < round_up_loop size fuel i → (1 <<< j) % 2 ^ 64 < size) := by
  intro fuel
  induction fuel with
  | zero =>
    intro i
    left
    exact ⟨rfl, fun j h1 h2 => by omega⟩
  | succ fuel ih =>
    intro i
    unfold round_up_loop
    by_cases h : (1 <<< i) % 2 ^ 64 ≥ size
    · right
      rw [if_pos h]
      exact ⟨le_refl _, by omega, h, fun j h1 h2 => by omega⟩
    · rw [if_neg h]
      rcases ih (i + 1) with ⟨h0, hall⟩ | ⟨h1, h2, h3, h4⟩
      · left
        refine ⟨h0, fun j hj1 hj2 => ?_⟩
        rcases Nat.eq_or_lt_of_le hj1 with heq | hlt
        · subst heq; omega
        · exact hall j hlt (by omega)
      · right
        refine ⟨by omega, by omega, h3, fun j hj1 hj2 => ?_⟩
        rcases Nat.eq_or_lt_of_le hj1 with heq | hlt
        · subst heq; omega
        · exact h4 j hlt hj2

theorem round_up_lt (size : Nat) : round_up size < 32 := by
  unfold round_up
  rcases round_up_loop_cases size 32 0 with ⟨h0, _⟩ | ⟨_, h2, _, _⟩
  · omega
  · omega

/-- Up to `2 ^ 31`, `round_up` is the `ceil_log2` of the specification. -/
theorem round_up_is_ceil_log2 (size : Nat) (h : size ≤ 2 ^ 31) :
    is_ceil_log2 size (round_up size) := by
  unfold round_up is_ceil_log2
  rcases round_up_loop_cases size 32 0 with ⟨_, hall⟩ | ⟨_, h2, h3, h4⟩
  · have := hall 31 (by omega) (by omega)
    rw [shift_one_mod 31 (by omega)] at this
    omega
  · rw [shift_one_mod _ (by omega)] at h3
    refine ⟨h3, fun j hj => ?_⟩
    have := h4 j (by omega) hj
    rwa [shift_one_mod j (by omega)] at this

theorem goal_ge (size : Nat) : 8 ≤ goal size := by
  unfold goal min_page_size; omega

theorem goal_le (size : Nat) : goal size ≤ 31 := by
  have := round_up_lt size
  unfold goal min_page_size; omega

/-! ## `first_page` -/

theorem first_page_loop_eq (g : Nat) :
    ∀ fuel d, d ≤ 16 - g → 16 - g - d < fuel →
      first_page_loop g fuel (2 ^ d - 1) = 2 ^ (16 - g) - 1 := by
  intro fuel
  induction fuel with
  | zero => intro d _ h; omega
  | succ fuel ih =>
    intro d hd hf
    have hpos : 0 < 2 ^ d := Nat.two_pow_pos d
    have hsz : get_size (2 ^ d - 1) = 16 - d :=
      get_size_eq (2 ^ d - 1) d (by omega) (by rw [Nat.pow_succ]; omega) (by omega)
    unfold first_page_loop
    rw [hsz]
    by_cases h : 16 - d > g
    · rw [if_pos h]
      have : 2 * (2 ^ d - 1) + 1 = 2 ^ (d + 1) - 1 := by rw [Nat.pow_succ]; omega
      rw [this]
      exact ih (d + 1) (by omega) (by omega)
    · rw [if_neg h]
      have : d = 16 - g := by omega
      rw [this]

/-- The first page of the level `find_free_page` and `do_deallocate` walk to
for order `g`: `2 ^ (16 - g) - 1`; node 0 for every order of 16 or more. -/
theorem first_page_eq (g : Nat) : first_page g = 2 ^ (16 - g) - 1 :=
  first_page_loop_eq g 64 0 (by omega) (by omega)

/-! ## Writes to the state array -/

theorem bind_ok {ε α β : Type} {x : Except ε α} {f : α → Except ε β} {b : β}
    (h : (x >>= f) = Except.ok b) : ∃ a, x = Except.ok a ∧ f a = Except.ok b := by
  cases x with
  | error e => cases h
  | ok a => exact ⟨a, rfl, h⟩

theorem same_frame_refl (a : superpage) : same_frame a a := ⟨rfl, rfl, rfl⟩

theorem same_frame_trans {a b c : superpage} (h1 : same_frame a b) (h2 : same_frame b c) :
    same_frame a c :=
  ⟨h2.1.trans h1.1, h2.2.1.trans h1.2.1, h2.2.2.trans h1.2.2⟩

/-- A write that does not fail is inside the array, keeps the frame of the
superpage and changes the state of the written page only. -/
theorem write_state_ok {sp sp1 : superpage} {i : Nat} {s : page_state}
    (h : write_state sp i s = Except.ok sp1) :
    i < sp.m_num_pages ∧ same_frame sp sp1 ∧
      ∀ j, get_state sp1 j = if j = i then s else get_state sp j := by
  unfold write_state at h
  by_cases hi : i < sp.m_num_pages
  · rw [if_pos hi] at h
    injection h with h
    subst h
    refine ⟨hi, ⟨rfl, rfl, rfl⟩, fun j => ?_⟩
    by_cases hj : j = i
    · subst hj
      simp [get_state, page_exists, hi]
    · simp [get_state, page_exists, hj]
  · rw [if_neg hi] at h
    cases h

/-- The effect of `split` when none of its three writes fails. -/
theorem split_ok {sp sp1 : superpage} {c : Nat} (h : split sp c = Except.ok sp1) :
    right_child c < sp.m_num_pages ∧ same_frame sp sp1 ∧
      ∀ j, get_state sp1 j =
        if j = right_child c then page_state.VACANT
        else if j = left_child c then page_state.VACANT
        else if j = c then page_state.SPLIT
        else get_state sp j := by
  unfold split at h
  obtain ⟨a, ha, h⟩ := bind_ok h
  obtain ⟨b, hb, h⟩ := bind_ok h
  obtain ⟨_, fa, sa⟩ := write_state_ok ha
  obtain ⟨_, fb, sb⟩ := write_state_ok hb
  obtain ⟨ic, fc, sc⟩ := write_state_ok h
  refine ⟨?_, same_frame_trans (same_frame_trans fa fb) fc, fun j => ?_⟩
  · rw [fb.2.1, fa.2.1] at ic; exact ic
  · rw [sc j, sb j, sa j]

/-- The descent by splitting: the frame is kept, the page it ends on has
`get_size` at most the goal, and a page that is `SPLIT` afterwards either was
`SPLIT` before or lies above the level of the goal. -/
theorem split_loop_ok (g : Nat) :
    ∀ fuel (sp sp1 : superpage) (c n : Nat),
      split_loop g fuel sp c = Except.ok (sp1, n) → c + 1 < 2 ^ 17 →
      same_frame sp sp1 ∧ get_size n ≤ g ∧ n + 1 < 2 ^ 17 ∧ c ≤ n ∧
        ∀ j, get_state sp1 j = page_state.SPLIT →
          get_state sp j = page_state.SPLIT ∨ j < first_page g := by
  intro fuel
  induction fuel with
  | zero => intro sp sp1 c n h; cases h
  | succ fuel ih =>
    intro sp sp1 c n h hc
    unfold split_loop at h
    by_cases hg : get_size c > g
    · rw [if_pos hg] at h
      cases hs : split sp c with
      | error e => rw [hs] at h; cases h
      | ok sp2 =>
        rw [hs] at h
        obtain ⟨_, f2, s2⟩ := split_ok hs
        -- the depth of `c`
        obtain ⟨d, hd1, hd2⟩ : ∃ d, 2 ^ d ≤ c + 1 ∧ c + 1 < 2 ^ (d + 1) :=
          ⟨Nat.log 2 (c + 1), Nat.pow_log_le_self 2 (by omega),
            Nat.lt_pow_succ_log_self (by decide) (c + 1)⟩
        have hd : d ≤ 16 := by
          by_contra hcon
          have : 2 ^ 17 ≤ 2 ^ d := Nat.pow_le_pow_right (by decide) (by omega)
          omega
        have hsz := get_size_eq c d hd1 hd2 hd
        have hdg : d < 16 - g := by omega
        have hcl : c < first_page g := by
          rw [first_page_eq]
          have : 2 ^ (d + 1) ≤ 2 ^ (16 - g) := Nat.pow_le_pow_right (by decide) (by omega)
          omega
        have hleft : left_child c + 1 < 2 ^ 17 := by
          unfold left_child
          have : 2 ^ (d + 1) ≤ 2 ^ 16 := Nat.pow_le_pow_right (by decide) (by omega)
          omega
        obtain ⟨f3, h3, h4, h5, h6⟩ := ih sp2 sp1 (left_child c) n h hleft
        refine ⟨same_frame_trans f2 f3, h3, h4, ?_, fun j hj => ?_⟩
        · unfold left_child at h5; omega
        · rcases h6 j hj with h7 | h7
          · rw [s2 j] at h7
            by_cases e1 : j = right_child c
            · rw [if_pos e1] at h7; cases h7
            · rw [if_neg e1] at h7
              by_cases e2 : j = left_child c
              · rw [if_pos e2] at h7; cases h7
              · rw [if_neg e2] at h7
                by_cases e3 : j = c
                · right; rw [e3]; exact hcl
                · rw [if_neg e3] at h7; left; exact h7
          · right; exact h7
    · rw [if_neg hg] at h
      injection h with h
      injection h with h1 h2
      subst h1; subst h2
      exact ⟨same_frame_refl _, by omega, hc, le_refl _, fun j hj => Or.inl hj⟩

/-! ## `find_free_page` -/

theorem scan_pages_some {sp : superpage} {i j p : Nat} (h : scan_pages sp i j = some p) :
    i ≤ p ∧ p < j ∧ get_state sp p = page_state.VACANT := by
  unfold scan_pages at h
  have hm := List.mem_of_find?_eq_some h
  have hp := List.find?_some h
  rw [List.mem_range'_1] at hm
  refine ⟨hm.1, by omega, ?_⟩
  simpa using hp

/-- A page returned by one pass over the superpages from position `k` on lies
in a superpage of order at least `size`, on the level of `size`, and is
`VACANT`. -/
theorem find_free_page_pass_some (size : Nat) :
    ∀ (sps : List superpage) (k : Nat) (b : Bool) (r : page_ref),
      find_free_page_pass size sps k = (b, some r) →
      k ≤ r.m_superpage ∧
        ∃ sp, sps[r.m_superpage - k]? = some sp ∧ size ≤ sp.m_size ∧
          first_page size ≤ r.m_page ∧ r.m_page < 2 * first_page size + 1 ∧
          get_state sp r.m_page = page_state.VACANT := by
  intro sps
  induction sps with
  | nil => intro k b r h; simp [find_free_page_pass] at h
  | cons sp rest ih =>
    intro k b r h
    unfold find_free_page_pass at h
    have tail : ∀ b1, find_free_page_pass size rest (k + 1) = (b1, some r) →
        k ≤ r.m_superpage ∧
        ∃ sp1, (sp :: rest)[r.m_superpage - k]? = some sp1 ∧ size ≤ sp1.m_size ∧
          first_page size ≤ r.m_page ∧ r.m_page < 2 * first_page size + 1 ∧
          get_state sp1 r.m_page = page_state.VACANT := by
      intro b1 h1
      obtain ⟨hk, sp1, h2, h3⟩ := ih (k + 1) b1 r h1
      refine ⟨by omega, sp1, ?_, h3⟩
      have : r.m_superpage - k = (r.m_superpage - (k + 1)) + 1 := by omega
      rw [this, List.getElem?_cons_succ]
      exact h2
    by_cases hs : size ≤ sp.m_size
    · rw [if_pos hs] at h
      cases hsc : scan_pages sp (first_page size) (2 * first_page size + 1) with
      | some p =>
        rw [hsc] at h
        simp only [Prod.mk.injEq, Option.some.injEq] at h
        obtain ⟨_, hr⟩ := h
        subst hr
        obtain ⟨h1, h2, h3⟩ := scan_pages_some hsc
        exact ⟨le_refl _, sp, by simp, hs, h1, h2, h3⟩
      | none =>
        rw [hsc] at h
        simp only [Prod.mk.injEq] at h
        obtain ⟨_, hr⟩ := h
        exact tail (find_free_page_pass size rest (k + 1)).1 (Prod.ext rfl hr)
    · rw [if_neg hs] at h
      exact tail b h

theorem find_free_page_loop_some (sps : List superpage) :
    ∀ (fuel size : Nat) (r : page_ref),
      find_free_page_loop sps fuel size = some r →
      ∃ s1, size ≤ s1 ∧ ∃ sp, sps[r.m_superpage]? = some sp ∧ s1 ≤ sp.m_size ∧
          first_page s1 ≤ r.m_page ∧ r.m_page < 2 * first_page s1 + 1 ∧
          get_state sp r.m_page = page_state.VACANT := by
  intro fuel
  induction fuel with
  | zero => intro size r h; simp [find_free_page_loop] at h
  | succ fuel ih =>
    intro size r h
    unfold find_free_page_loop at h
    cases hp : find_free_page_pass size sps 0 with
    | mk b o =>
      rw [hp] at h
      cases o with
      | some r1 =>
        simp only [Option.some.injEq] at h
        subst h
        obtain ⟨_, sp, h1, h2⟩ := find_free_page_pass_some size sps 0 b r1 hp
        exact ⟨size, le_refl _, sp, by simpa using h1, h2⟩
      | none =>
        cases b with
        | true =>
          simp only at h
          obtain ⟨s1, hs1, rest⟩ := ih (size + 1) r h
          exact ⟨s1, by omega, rest⟩
        | false => simp at h

/-- A page returned by `find_free_page(size)` is `VACANT`, lies on the level
of some order `s1 ≥ size`, in a superpage of order at least `s1`. -/
theorem find_free_page_some {sps : List superpage} {size : Nat} {r : page_ref}
    (h : find_free_page sps size = some r) :
    ∃ s1, size ≤ s1 ∧ ∃ sp, sps[r.m_superpage]? = some sp ∧ s1 ≤ sp.m_size ∧
        first_page s1 ≤ r.m_page ∧ r.m_page < 2 * first_page s1 + 1 ∧
        get_state sp r.m_page = page_state.VACANT :=
  find_free_page_loop_some sps _ size r h

theorem first_page_lt (g : Nat) : first_page g < 2 ^ 16 := by
  rw [first_page_eq]
  have : 2 ^ (16 - g) ≤ 2 ^ 16 := Nat.pow_le_pow_right (by decide) (by omega)
  have := Nat.two_pow_pos (16 - g)
  omega

/-! ## The order of the page `do_allocate` ends on -/

theorem depth_exists (c : Nat) : ∃ d, 2 ^ d ≤ c + 1 ∧ c + 1 < 2 ^ (d + 1) :=
  ⟨Nat.log 2 (c + 1), Nat.pow_log_le_self 2 (by omega),
    Nat.lt_pow_succ_log_self (by decide) (c + 1)⟩

/-- Every page of the level walked to for order `s` has `get_size` equal to
`min s 16`. -/
theorem level_get_size {s p : Nat} (h1 : first_page s ≤ p) (h2 : p < 2 * first_page s + 1) :
    get_size p = min s 16 := by
  rw [first_page_eq] at h1 h2
  have hpos := Nat.two_pow_pos (16 - s)
  rw [get_size_eq p (16 - s) (by omega) (by rw [Nat.pow_succ]; omega) (by omega)]
  omega

theorem get_size_le {c : Nat} (hc : c + 1 < 2 ^ 17) : get_size c ≤ 16 := by
  obtain ⟨d, hd1, hd2⟩ := depth_exists c
  have hd : d ≤ 16 := by
    by_contra hcon
    have : 2 ^ 17 ≤ 2 ^ d := Nat.pow_le_pow_right (by decide) (by omega)
    omega
  rw [get_size_eq c d hd1 hd2 hd]
  omega

theorem get_size_left_child {c : Nat} (hc : c + 1 < 2 ^ 17) (hpos : 0 < get_size c) :
    get_size (left_child c) = get_size c - 1 ∧ left_child c + 1 < 2 ^ 17 := by
  obtain ⟨d, hd1, hd2⟩ := depth_exists c
  have hd : d ≤ 16 := by
    by_contra hcon
    have : 2 ^ 17 ≤ 2 ^ d := Nat.pow_le_pow_right (by decide) (by omega)
    omega
  rw [get_size_eq c d hd1 hd2 hd] at hpos ⊢
  have h16 : 2 ^ (d + 1) ≤ 2 ^ 16 := Nat.pow_le_pow_right (by decide) (by omega)
  have e1 : 2 ^ (d + 1) = 2 * 2 ^ d := by rw [Nat.pow_succ]; omega
  have e2 : 2 ^ (d + 1 + 1) = 2 * 2 ^ (d + 1) := by rw [Nat.pow_succ]; omega
  unfold left_child
  rw [get_size_eq (2 * c + 1) (d + 1) (by omega) (by omega) (by omega)]
  omega

/-- The descent by splitting does not go below the goal: started on a page of
`get_size` at least `min g 16`, it ends on one. -/
theorem split_loop_size (g : Nat) :
    ∀ fuel (sp sp1 : superpage) (c n : Nat),
      split_loop g fuel sp c = Except.ok (sp1, n) → c + 1 < 2 ^ 17 →
      min g 16 ≤ get_size c → min g 16 ≤ get_size n := by
  intro fuel
  induction fuel with
  | zero => intro sp sp1 c n h; cases h
  | succ fuel ih =>
    intro sp sp1 c n h hc hmin
    unfold split_loop at h
    by_cases hg : get_size c > g
    · rw [if_pos hg] at h
      cases hs : split sp c with
      | error e => rw [hs] at h; cases h
      | ok sp2 =>
        rw [hs] at h
        obtain ⟨e1, e2⟩ := get_size_left_child hc (by omega)
        exact ih sp2 sp1 (left_child c) n h e2 (by omega)
    · rw [if_neg hg] at h
      injection h with h
      injection h with h1 h2
      subst h2
      exact hmin

/-! ## `do_allocate` and `do_deallocate` -/

/-- The part of `do_allocate` after the search, on a `VACANT` candidate at
depth at most 16: no unsplit, the descent, the mark, the address. -/
theorem take_page_ok {sps s1 : List superpage} {g : Nat} {c r : page_ref} {addr : Nat}
    {sp : superpage} (hsp : sps[c.m_superpage]? = some sp)
    (hv : get_state sp c.m_page = page_state.VACANT) (hc : c.m_page + 1 < 2 ^ 17)
    (hmin : min g 16 ≤ get_size c.m_page)
    (h : take_page sps g c = Except.ok (s1, r, addr)) :
    ∃ sp3, s1 = sps.set c.m_superpage sp3 ∧ r.m_superpage = c.m_superpage ∧
      same_frame sp sp3 ∧ addr = get_addr sp3 r.m_page ∧ get_size r.m_page = min g 16 ∧
      c.m_page ≤ r.m_page ∧ r.m_page < sp.m_num_pages ∧ r.m_page + 1 < 2 ^ 17 ∧
      get_state sp3 r.m_page = page_state.OCCUPIED ∧
      ∀ j, get_state sp3 j = page_state.SPLIT →
        get_state sp j = page_state.SPLIT ∨ j < first_page g := by
  unfold take_page at h
  rw [hsp] at h
  simp only at h
  have hns : ¬ get_state sp c.m_page = page_state.SPLIT := by rw [hv]; decide
  rw [if_neg hns] at h
  obtain ⟨sp1, h1, h⟩ := bind_ok h
  injection h1 with h1
  subst h1
  obtain ⟨q, hq, h⟩ := bind_ok h
  obtain ⟨sp3, h3, h⟩ := bind_ok h
  injection h with h
  simp only [Prod.mk.injEq] at h
  obtain ⟨e1, e2, e3⟩ := h
  obtain ⟨sp2, n⟩ := q
  obtain ⟨f2, hsz, hn17, hcn, hsplit⟩ := split_loop_ok g 64 sp sp2 c.m_page n hq hc
  have hlow := split_loop_size g 64 sp sp2 c.m_page n hq hc hmin
  have hup := get_size_le hn17
  obtain ⟨hin, f3, s3⟩ := write_state_ok h3
  refine ⟨sp3, e1.symm, by rw [← e2], same_frame_trans f2 f3, ?_, ?_, ?_, ?_, ?_, ?_, ?_⟩
  · rw [← e3, ← e2]
  · rw [← e2]; simp only; omega
  · rw [← e2]; exact hcn
  · rw [← e2]; simp only; rw [← f2.2.1]; exact hin
  · rw [← e2]; exact hn17
  · rw [← e2]; simp only; rw [s3 n, if_pos rfl]
  · intro j hj
    rw [s3 j] at hj
    by_cases e : j = n
    · rw [if_pos e] at hj; cases hj
    · rw [if_neg e] at hj; exact hsplit j hj

/-- What a successful `do_allocate` does: it works on the superpages it was
given or on those with one new superpage appended, takes a page of a
superpage of order at least the goal, marks it `OCCUPIED` and returns its
address; the page has `get_size` at most the goal, and a page that is `SPLIT`
afterwards either was `SPLIT` before or lies above the level of the goal. -/
theorem do_allocate_page_ok {upstream : Nat → Option Nat} {sps s1 : List superpage}
    {size alignment addr : Nat} {r : page_ref}
    (h : do_allocate_page upstream sps size alignment = Except.ok (s1, r, addr)) :
    ∃ sps0 sp sp3,
      (sps0 = sps ∨
        ∃ mem, sps0 = sps ++ [superpage.create (max (goal size) new_page_size) mem]) ∧
      sps0[r.m_superpage]? = some sp ∧ s1 = sps0.set r.m_superpage sp3 ∧
      same_frame sp sp3 ∧ goal size ≤ sp.m_size ∧ addr = get_addr sp3 r.m_page ∧
      get_size r.m_page = min (goal size) 16 ∧ r.m_page < sp.m_num_pages ∧
        r.m_page + 1 < 2 ^ 17 ∧
      get_state sp3 r.m_page = page_state.OCCUPIED ∧
      ∀ j, get_state sp3 j = page_state.SPLIT →
        get_state sp j = page_state.SPLIT ∨ j < first_page (goal size) := by
  have key : ∀ (sps0 : List superpage) (c : page_ref),
      (sps0 = sps ∨
        ∃ mem, sps0 = sps ++ [superpage.create (max (goal size) new_page_size) mem]) →
      find_free_page sps0 (goal size) = some c →
      take_page sps0 (goal size) c = Except.ok (s1, r, addr) →
      ∃ sps0 sp sp3,
        (sps0 = sps ∨
          ∃ mem, sps0 = sps ++ [superpage.create (max (goal size) new_page_size) mem]) ∧
        sps0[r.m_superpage]? = some sp ∧ s1 = sps0.set r.m_superpage sp3 ∧
        same_frame sp sp3 ∧ goal size ≤ sp.m_size ∧ addr = get_addr sp3 r.m_page ∧
        get_size r.m_page = min (goal size) 16 ∧ r.m_page < sp.m_num_pages ∧
        r.m_page + 1 < 2 ^ 17 ∧
        get_state sp3 r.m_page = page_state.OCCUPIED ∧
        ∀ j, get_state sp3 j = page_state.SPLIT →
          get_state sp j = page_state.SPLIT ∨ j < first_page (goal size) := by
    intro sps0 c h0 hf ht
    obtain ⟨s', hs', sp, hsp, hle, hlo, hhi, hv⟩ := find_free_page_some hf
    have hc : c.m_page + 1 < 2 ^ 17 := by
      have := first_page_lt s'
      omega
    have hmin : min (goal size) 16 ≤ get_size c.m_page := by
      rw [level_get_size hlo hhi]; omega
    obtain ⟨sp3, e1, e2, f, ea, hsz, _, hin, h17, hocc, hsplit⟩ :=
      take_page_ok hsp hv hc hmin ht
    refine ⟨sps0, sp, sp3, h0, ?_, ?_, f, by omega, ea, hsz, hin, h17, hocc, hsplit⟩
    · rw [e2]; exact hsp
    · rw [e2]; exact e1
  unfold do_allocate_page at h
  cases hf : find_free_page sps (goal size) with
  | some c =>
    rw [hf] at h
    exact key sps c (Or.inl rfl) hf h
  | none =>
    rw [hf] at h
    simp only at h
    cases hu : allocate_upstream upstream sps (goal size) with
    | error e => rw [hu] at h; cases h
    | ok sps1 =>
      rw [hu] at h
      simp only at h
      have hsps1 :
          ∃ mem, sps1 = sps ++ [superpage.create (max (goal size) new_page_size) mem] := by
        unfold allocate_upstream at hu
        cases hm : upstream (1 <<< max (goal size) new_page_size) with
        | none => rw [hm] at hu; cases hu
        | some mem =>
          rw [hm] at hu
          injection hu with hu
          exact ⟨mem, hu.symm⟩
      cases hf1 : find_free_page sps1 (goal size) with
      | none => rw [hf1] at h; cases h
      | some c =>
        rw [hf1] at h
        exact key sps1 c (Or.inr hsps1) hf1 h

/-- What a successful `do_deallocate` does: one write of `VACANT`, at the
index it computes, in the superpage it selects. -/
theorem do_deallocate_ok {s1 s2 : List superpage} {p s alignment : Nat}
    (h : do_deallocate s1 p s alignment = Except.ok s2) :
    ∃ k sp sp1, find_superpage s1 p = some k ∧ s1[k]? = some sp ∧
      write_state sp (deallocate_index sp p s) page_state.VACANT = Except.ok sp1 ∧
      s2 = s1.set k sp1 := by
  unfold do_deallocate at h
  cases hk : find_superpage s1 p with
  | none => rw [hk] at h; cases h
  | some k =>
    rw [hk] at h
    simp only at h
    cases hsp : s1[k]? with
    | none => rw [hsp] at h; cases h
    | some sp =>
      rw [hsp] at h
      simp only at h
      cases hw : change_state_occupied_to_vacant sp (deallocate_index sp p s) with
      | error e => rw [hw] at h; cases h
      | ok sp1 =>
        rw [hw] at h
        injection h with h
        exact ⟨k, sp, sp1, rfl, hsp, hw, h.symm⟩

/-! ## Superpage lists -/

theorem state_at_set (l : List superpage) (k : Nat) (a b : superpage) (j i : Nat)
    (ha : l[k]? = some a) :
    state_at (l.set k b) j i =
      if j = k then some (get_state b i) else state_at l j i := by
  unfold state_at
  have hk : k < l.length := by
    rcases List.getElem?_eq_some.mp ha with ⟨h, _⟩; exact h
  by_cases e : j = k
  · subst e
    rw [if_pos rfl, List.getElem?_set_self hk]; rfl
  · rw [if_neg e, List.getElem?_set_ne (fun h => e h.symm)]

theorem frame_set (l : List superpage) (k : Nat) (a b : superpage)
    (ha : l[k]? = some a) (f : same_frame a b) (j : Nat) (x : superpage)
    (hx : l[j]? = some x) : ∃ y, (l.set k b)[j]? = some y ∧ same_frame x y := by
  have hk : k < l.length := by
    rcases List.getElem?_eq_some.mp ha with ⟨h, _⟩; exact h
  by_cases e : j = k
  · subst e
    rw [ha] at hx
    injection hx with hx
    subst hx
    exact ⟨b, List.getElem?_set_self hk, f⟩
  · exact ⟨x, by rw [List.getElem?_set_ne (fun h => e h.symm)]; exact hx, same_frame_refl x⟩

theorem get_state_create_ne_split (size mem i : Nat) :
    get_state (superpage.create size mem) i ≠ page_state.SPLIT := by
  unfold get_state superpage.create
  simp only
  split
  · split <;> decide
  · decide

/-- A superpage list extended by a fresh superpage has no `SPLIT` page that
the original list did not have. -/
theorem state_at_extended {sps sps0 : List superpage} {size : Nat}
    (h0 : sps0 = sps ∨ ∃ mem, sps0 = sps ++ [superpage.create size mem]) (k i : Nat)
    (h : state_at sps0 k i = some page_state.SPLIT) :
    state_at sps k i = some page_state.SPLIT := by
  rcases h0 with e | ⟨mem, e⟩
  · rw [← e]; exact h
  · subst e
    unfold state_at at h ⊢
    by_cases hk : k < sps.length
    · rw [List.getElem?_append_left hk] at h; exact h
    · rw [List.getElem?_append_right (by omega)] at h
      by_cases hk0 : k - sps.length = 0
      · rw [hk0] at h
        simp only [List.getElem?_cons_zero, Option.map_some', Option.some.injEq] at h
        exact absurd h (get_state_create_ne_split size mem i)
      · have : ([superpage.create size mem])[k - sps.length]? = none := by
          apply List.getElem?_eq_none; simp; omega
        rw [this] at h; cases h

theorem prefix_extended {sps sps0 : List superpage} {size : Nat}
    (h0 : sps0 = sps ∨ ∃ mem, sps0 = sps ++ [superpage.create size mem]) (k : Nat)
    (sp : superpage) (h : sps[k]? = some sp) : sps0[k]? = some sp := by
  rcases h0 with e | ⟨mem, e⟩
  · rw [e]; exact h
  · subst e
    have hk : k < sps.length := by
      rcases List.getElem?_eq_some.mp h with ⟨h1, _⟩; exact h1
    rw [List.getElem?_append_left hk]; exact h

theorem length_extended {sps sps0 : List superpage} {size : Nat}
    (h0 : sps0 = sps ∨ ∃ mem, sps0 = sps ++ [superpage.create size mem]) :
    sps0.length = sps.length ∨ sps0.length = sps.length + 1 := by
  rcases h0 with e | ⟨mem, e⟩
  · left; rw [e]
  · right; subst e; simp

theorem do_allocate_ok {upstream : Nat → Option Nat} {sps s1 : List superpage}
    {size alignment addr : Nat}
    (h : do_allocate upstream sps size alignment = Except.ok (s1, addr)) :
    ∃ r, do_allocate_page upstream sps size alignment = Except.ok (s1, r, addr) := by
  unfold do_allocate at h
  cases hp : do_allocate_page upstream sps size alignment with
  | error e => rw [hp] at h; cases h
  | ok q =>
    rw [hp] at h
    injection h with h
    simp only [Prod.mk.injEq] at h
    obtain ⟨q1, q2, q3⟩ := q
    exact ⟨q2, by rw [← h.1, ← h.2]⟩

theorem deallocate_index_ge (sp : superpage) (p s : Nat) :
    first_page (goal s) ≤ deallocate_index sp p s := by
  unfold deallocate_index; exact Nat.le_add_right _ _

/-- The natural alignment the code does provide: whatever the state and the
size, the offset of the address `do_allocate` returns from the base of its
superpage is a multiple of `1 << goal(size)`, the order the code computes. -/
theorem offset_multiple_of_goal_block
    (upstream : Nat → Option Nat) (sps s1 : List superpage)
    (size alignment addr : Nat) (r : page_ref)
    (h : do_allocate_page upstream sps size alignment = Except.ok (s1, r, addr)) :
    ∃ sp, s1[r.m_superpage]? = some sp ∧ sp.m_memory ≤ addr ∧
      2 ^ goal size ∣ addr - sp.m_memory := by
  obtain ⟨sps0, sp0, sp3, _, hsp, e1, f, hle, ea, hsz, _, h17, _, _⟩ := do_allocate_page_ok h
  have hk : r.m_superpage < sps0.length := by
    rcases List.getElem?_eq_some.mp hsp with ⟨h1, _⟩; exact h1
  refine ⟨sp3, by rw [e1, List.getElem?_set_self hk], by rw [ea]; unfold get_addr; omega, ?_⟩
  have hg := goal_le size
  rw [ea]
  unfold get_addr
  rw [Nat.add_sub_cancel_left]
  apply (Nat.dvd_mod_iff (Nat.pow_dvd_pow 2 (by omega))).mpr
  rw [Nat.shiftLeft_eq, Nat.one_mul, hsz]
  by_cases hg16 : goal size ≤ 16
  · rw [Nat.min_eq_left hg16]
    exact Nat.dvd_mul_left _ _
  · -- above order 16 the page is node 0, at offset 0
    have h16 : get_size r.m_page = 16 := by rw [hsz]; omega
    obtain ⟨d, hd1, hd2⟩ := depth_exists r.m_page
    have hd : d ≤ 16 := by
      by_contra hcon
      have : 2 ^ 17 ≤ 2 ^ d := Nat.pow_le_pow_right (by decide) (by omega)
      omega
    rw [get_size_eq r.m_page d hd1 hd2 hd] at h16
    have hd0 : d = 0 := by omega
    subst hd0
    have h0 : r.m_page = 0 := by
      simp only [zero_add, pow_one] at hd2
      omega
    rw [h0]
    simp

/-! ## Termination of the search -/

/-- Once `size` exceeds the order of every superpage, a pass finds no capable
superpage: `candidate_sp_found` stays false and nothing is returned. -/
theorem find_free_page_pass_large (size : Nat) :
    ∀ (sps : List superpage) (k : Nat), max_size sps < size →
      find_free_page_pass size sps k = (false, none) := by
  intro sps
  induction sps with
  | nil => intro k _; rfl
  | cons sp rest ih =>
    intro k h
    unfold max_size at h
    unfold find_free_page_pass
    rw [if_neg (by omega)]
    exact ih (k + 1) (by omega)

/-- The `do ... while` loop of `find_free_page` ends by its own condition:
with `max_size sps + 2 - size` iterations or more, further fuel does not
change its result. -/
theorem find_free_page_loop_fuel (sps : List superpage) :
    ∀ (fuel size more : Nat), max_size sps + 2 ≤ size + fuel →
      find_free_page_loop sps (fuel + more) size = find_free_page_loop sps fuel size := by
  intro fuel
  induction fuel with
  | zero =>
    intro size more h
    cases more with
    | zero => rfl
    | succ m =>
      rw [Nat.zero_add]
      unfold find_free_page_loop
      rw [find_free_page_pass_large size sps 0 (by omega)]
  | succ fuel ih =>
    intro size more h
    have e : fuel + 1 + more = (fuel + more) + 1 := by omega
    rw [e]
    unfold find_free_page_loop
    cases hp : find_free_page_pass size sps 0 with
    | mk b o =>
      cases o with
      | some r => cases b <;> rfl
      | none =>
        cases b with
        | true => exact ih (size + 1) more (by omega)
        | false => rfl

/-- The result of `find_free_page` does not depend on the fuel of the
embedding: every larger fuel gives the same page. -/
theorem find_free_page_fuel (sps : List superpage) (size more : Nat) :
    find_free_page_loop sps (max_size sps + 2 + more) size = find_free_page sps size :=
  find_free_page_loop_fuel sps (max_size sps + 2) size more (by omega)

/-- The walk to the first page of a level ends by its own condition within 17
steps, whatever the order. -/
theorem first_page_loop_fuel (g fuel : Nat) (h : 16 < fuel) :
    first_page_loop g fuel 0 = first_page g := by
  rw [first_page_eq]
  exact first_page_loop_eq g fuel 0 (by omega) (by omega)

/-! ## The address of a page -/

/-- The loop of `get_addr` stops on the first page of the level `e1` with
`2 ^ e1 < m_page + 1 ≤ 2 ^ (e1 + 1)`.  For a page that is not the first of
its level this is the page's own level; for the first page of a level it is
the level above. -/
theorem get_addr_loop_eq (n e1 : Nat) (h1 : 2 ^ e1 < n + 1) (h2 : n + 1 ≤ 2 ^ (e1 + 1)) :
    ∀ fuel e, e ≤ e1 → e1 - e < fuel →
      get_addr_loop n fuel (2 ^ e - 1) = 2 ^ e1 - 1 := by
  intro fuel
  induction fuel with
  | zero => intro e _ h; omega
  | succ fuel ih =>
    intro e he hf
    have hpos : 0 < 2 ^ e := Nat.two_pow_pos e
    have hl : left_child (2 ^ e - 1) = 2 ^ (e + 1) - 1 := by
      unfold left_child; rw [Nat.pow_succ]; omega
    unfold get_addr_loop
    rw [hl]
    by_cases h : e < e1
    · have : 2 ^ (e + 1) ≤ 2 ^ e1 := Nat.pow_le_pow_right (by decide) (by omega)
      rw [if_pos (by omega)]
      exact ih (e + 1) (by omega) (by omega)
    · have e0 : e = e1 := by omega
      subst e0
      rw [if_neg (by omega)]

/-- The index `m_page - lmn.m_page` of `get_addr` is less than the number of
pages of the level of `m_page`: for `2 ^ d ≤ m_page + 1 < 2 ^ (d + 1)` it is
less than `2 ^ d`. -/
theorem get_addr_index_lt (n d : Nat) (hd1 : 2 ^ d ≤ n + 1) (hd2 : n + 1 < 2 ^ (d + 1))
    (hd : d < 64) : n - get_addr_loop n 64 0 < 2 ^ d := by
  have hpos : 0 < 2 ^ d := Nat.two_pow_pos d
  rcases Nat.eq_or_lt_of_le hd1 with heq | hlt
  · -- the first page of its level
    cases d with
    | zero =>
      have : n = 0 := by simp at heq; omega
      subst this; decide
    | succ d1 =>
      have hp : 2 ^ (d1 + 1) = 2 * 2 ^ d1 := by rw [Nat.pow_succ]; omega
      have hpos1 : 0 < 2 ^ d1 := Nat.two_pow_pos d1
      have := get_addr_loop_eq n d1 (by omega) (by omega) 64 0 (by omega) (by omega)
      simp only [pow_zero, Nat.sub_self] at this
      rw [this]
      omega
  · have := get_addr_loop_eq n d hlt (by omega) 64 0 (by omega) (by omega)
    simp only [pow_zero, Nat.sub_self] at this
    rw [this]
    have hp : 2 ^ (d + 1) = 2 * 2 ^ d := by rw [Nat.pow_succ]; omega
    omega

/-- Containment for the order the code computes: when every superpage has
order at least 16 (every superpage `allocate_upstream` creates has order at
least `new_page_size = 20`), the block of `1 << goal(size)` bytes at the
address `do_allocate` returns lies inside the superpage it was taken from. -/
theorem block_inside_superpage_for_goal
    (upstream : Nat → Option Nat) (sps s1 : List superpage)
    (size alignment addr : Nat) (r : page_ref)
    (h16 : ∀ sp ∈ sps, 16 ≤ sp.m_size)
    (h : do_allocate_page upstream sps size alignment = Except.ok (s1, r, addr)) :
    ∃ sp, s1[r.m_superpage]? = some sp ∧ sp.m_memory ≤ addr ∧
      (addr - sp.m_memory) + 2 ^ goal size ≤ 2 ^ sp.m_size := by
  obtain ⟨sps0, sp0, sp3, h0, hsp, e1, f, hle, ea, hsz, _, h17, _, _⟩ := do_allocate_page_ok h
  have hk : r.m_superpage < sps0.length := by
    rcases List.getElem?_eq_some.mp hsp with ⟨h1, _⟩; exact h1
  have hord : 16 ≤ sp0.m_size := by
    have hm := List.getElem?_mem hsp
    rcases h0 with e | ⟨mem, e⟩
    · rw [e] at hm; exact h16 sp0 hm
    · rw [e, List.mem_append] at hm
      rcases hm with hm | hm
      · exact h16 sp0 hm
      · rw [List.mem_singleton] at hm
        rw [hm]
        show 16 ≤ max (goal size) new_page_size
        unfold new_page_size; omega
  refine ⟨sp3, by rw [e1, List.getElem?_set_self hk], by rw [ea]; unfold get_addr; omega, ?_⟩
  have hg := goal_le size
  rw [ea, f.1]
  unfold get_addr
  rw [Nat.add_sub_cancel_left, Nat.shiftLeft_eq, Nat.one_mul, hsz]
  obtain ⟨d, hd1, hd2⟩ := depth_exists r.m_page
  have hd : d ≤ 16 := by
    by_contra hcon
    have : 2 ^ 17 ≤ 2 ^ d := Nat.pow_le_pow_right (by decide) (by omega)
    omega
  have hgs := get_size_eq r.m_page d hd1 hd2 hd
  have hidx := get_addr_index_lt r.m_page d hd1 hd2 (by omega)
  have hmod : ((r.m_page - get_addr_loop r.m_page 64 0) * 2 ^ min (goal size) 16) % 2 ^ 64
      ≤ (r.m_page - get_addr_loop r.m_page 64 0) * 2 ^ min (goal size) 16 :=
    Nat.mod_le _ _
  by_cases hg16 : goal size ≤ 16
  · rw [Nat.min_eq_left hg16] at hmod ⊢
    have hdg : d + goal size = 16 := by rw [hsz] at hgs; omega
    have h1 : (r.m_page - get_addr_loop r.m_page 64 0 + 1) * 2 ^ goal size
        ≤ 2 ^ d * 2 ^ goal size := Nat.mul_le_mul_right _ hidx
    rw [← Nat.pow_add, hdg, Nat.add_mul, Nat.one_mul] at h1
    have h2 : 2 ^ 16 ≤ 2 ^ sp0.m_size := Nat.pow_le_pow_right (by decide) hord
    omega
  · have hd0 : d = 0 := by rw [hsz] at hgs; omega
    subst hd0
    have hn0 : r.m_page = 0 := by
      simp only [zero_add, pow_one] at hd2
      omega
    rw [hn0]
    have h2 : 2 ^ goal size ≤ 2 ^ sp0.m_size := Nat.pow_le_pow_right (by decide) hle
    simpa using h2

/-! ## Scenarios on a fresh resource

The upstream returns the superpage at address `1048576 = 2 ^ 20`, which is
aligned to the superpage size. -/

/-- C1: the code does not keep live allocations disjoint.  On a fresh resource
two successive calls `allocate(32768)` mark pages 1 and 2 of the superpage and
return the same address `1081344` for both; both pages are `OCCUPIED`
afterwards, so two live allocations share their byte range. -/
theorem C1_live_allocations_share_an_address :
    (do
      let r1 ← do_allocate_page (upstream_at 1048576) [] 32768 1
      let r2 ← do_allocate_page (upstream_at 1048576) r1.1 32768 1
      pure (r1.2, r2.2, state_at r2.1 0 1, state_at r2.1 0 2)) =
    (Except.ok ((⟨0, 1⟩, 1081344), (⟨0, 2⟩, 1081344),
        some page_state.OCCUPIED, some page_state.OCCUPIED) :
      Except failure
        ((page_ref × Nat) × (page_ref × Nat) × Option page_state × Option page_state)) := by
  rfl

/-- C2: the index `do_deallocate` computes is not the page `do_allocate`
marked.  On a fresh resource `allocate(100)` marks page 255 of superpage 0 and
returns `1081344`; `deallocate(1081344, 100)` selects superpage 0 but computes
page `383`, so page 255 stays `OCCUPIED` and page 383 becomes `VACANT`. -/
theorem C2_deallocate_computes_another_page :
    (do
      let r1 ← do_allocate_page (upstream_at 1048576) [] 100 1
      let s2 ← do_deallocate r1.1 r1.2.2 100 1
      pure (r1.2.1, r1.2.2, find_superpage r1.1 r1.2.2,
        (r1.1[0]?).map (fun sp => deallocate_index sp r1.2.2 100),
        state_at r1.1 0 255, state_at r1.1 0 383,
        state_at s2 0 255, state_at s2 0 383)) =
    (Except.ok (⟨0, 255⟩, 1081344, some 0, some 383,
        some page_state.OCCUPIED, some page_state.NON_EXTANT,
        some page_state.OCCUPIED, some page_state.VACANT) :
      Except failure
        (page_ref × Nat × Option Nat × Option Nat ×
          Option page_state × Option page_state × Option page_state × Option page_state)) := by
  rfl

/-- C3: the page marked can be smaller than the request.  `allocate(2 ^ 31 + 1)`
on a fresh resource is served with order 8: it marks page 255, whose
`get_size` is 8, although `ceil_log2` of the size is 32 and `2 ^ 8` is less
than the size.  `allocate(131072)` marks page 0, whose `get_size` is 16,
although the order computed for the request is 17. -/
theorem C3_page_smaller_than_request :
    (is_ceil_log2 (2 ^ 31 + 1) 32 ∧ goal (2 ^ 31 + 1) = 8 ∧
      (do_allocate_page (upstream_at 1048576) [] (2 ^ 31 + 1) 1).toOption.map
          (fun r => (r.2.1, get_size r.2.1.m_page, state_at r.1 0 255)) =
        some (⟨0, 255⟩, 8, some page_state.OCCUPIED) ∧
      2 ^ 8 < 2 ^ 31 + 1) ∧
    (is_ceil_log2 131072 17 ∧ goal 131072 = 17 ∧
      (do_allocate_page (upstream_at 1048576) [] 131072 1).toOption.map
          (fun r => (r.2.1, get_size r.2.1.m_page, state_at r.1 0 0)) =
        some (⟨0, 0⟩, 16, some page_state.OCCUPIED) ∧
      2 ^ 16 < 131072) := by
  decide

/-- C4: `round_up` does not return `ceil_log2` for sizes above `2 ^ 31`: for
`2 ^ 31 + 1` and for `2 ^ 32` (the largest size the benchmark requests) the
loop over `i < 32` is exhausted and the function returns 0, while the least
exponent is 32; the order used by `allocate` and `deallocate` is then 8. -/
theorem C4_round_up_fails_above_two_pow_31 :
    round_up (2 ^ 31 + 1) = 0 ∧ is_ceil_log2 (2 ^ 31 + 1) 32 ∧
      ¬ is_ceil_log2 (2 ^ 31 + 1) (round_up (2 ^ 31 + 1)) ∧ goal (2 ^ 31 + 1) = 8 ∧
    round_up (2 ^ 32) = 0 ∧ is_ceil_log2 (2 ^ 32) 32 ∧
      ¬ is_ceil_log2 (2 ^ 32) (round_up (2 ^ 32)) ∧ goal (2 ^ 32) = 8 := by
  decide

/-- C5 (counterexample): `allocate` followed by the matching `deallocate` does
not restore the observable state.  On a fresh resource the pair
`allocate(100); deallocate` leaves one superpage where there was none; and in
the state reached by `allocate(65536); deallocate`, where page 0 of the one
superpage is `VACANT`, the same pair leaves page 0 `SPLIT`. -/
theorem C5_round_trip_does_not_restore :
    (do_allocate (upstream_at 1048576) [] 100 1 = Except.ok (after_allocate_100, 1081344) ∧
      do_deallocate after_allocate_100 1081344 100 1 = Except.ok after_round_trip_100 ∧
      ¬ same_observable [] after_round_trip_100) ∧
    (do
      let r0 ← do_allocate (upstream_at 1048576) [] 65536 1
      let s0 ← do_deallocate r0.1 r0.2 65536 1
      let r1 ← do_allocate (upstream_at 1048576) s0 100 1
      let s2 ← do_deallocate r1.1 r1.2 100 1
      pure (s0.length, s2.length, state_at s0 0 0, state_at s2 0 0)) =
      (Except.ok (1, 1, some page_state.VACANT, some page_state.SPLIT) :
        Except failure (Nat × Nat × Option page_state × Option page_state)) := by
  refine ⟨⟨rfl, rfl, fun h => ?_⟩, rfl⟩
  have hlen : ([] : List superpage).length = after_round_trip_100.length := h.1
  have h1 : after_round_trip_100.length = 1 := rfl
  rw [h1] at hlen
  cases hlen

/-- C5 (amended): `allocate(size)` followed by `deallocate` of the returned
address with the same size releases no superpage and merges nothing.  The
resource keeps the superpages it has after the allocate (those it had before,
with at most one appended), every superpage present before keeps its order,
its number of pages and its memory, and every page the allocate turned into
`SPLIT` is still `SPLIT` after the deallocate. -/
theorem C5_round_trip_keeps_superpages_and_splits
    (upstream : Nat → Option Nat) (sps s1 s2 : List superpage)
    (size alignment addr : Nat)
    (h1 : do_allocate upstream sps size alignment = Except.ok (s1, addr))
    (h2 : do_deallocate s1 addr size alignment = Except.ok s2) :
    s2.length = s1.length ∧
    (s1.length = sps.length ∨ s1.length = sps.length + 1) ∧
    (∀ (k : Nat) (sp : superpage), sps[k]? = some sp →
      ∃ sp2, s2[k]? = some sp2 ∧ same_frame sp sp2) ∧
    (∀ (k i : Nat), state_at sps k i ≠ some page_state.SPLIT →
      state_at s1 k i = some page_state.SPLIT →
      state_at s2 k i = some page_state.SPLIT) := by
  obtain ⟨r, hp⟩ := do_allocate_ok h1
  obtain ⟨sps0, sp, sp3, h0, hsp, e1, f, _, _, _, _, _, _, hsplit⟩ := do_allocate_page_ok hp
  obtain ⟨kd, spd, spd1, _, hd, hw, e2⟩ := do_deallocate_ok h2
  obtain ⟨_, fd, sd⟩ := write_state_ok hw
  refine ⟨?_, ?_, ?_, ?_⟩
  · rw [e2, List.length_set]
  · rw [e1, List.length_set]; exact length_extended h0
  · intro k x hx
    obtain ⟨y, hy, fy⟩ := frame_set sps0 r.m_superpage sp sp3 hsp f k x
      (prefix_extended h0 k x hx)
    rw [← e1] at hy
    obtain ⟨z, hz, fz⟩ := frame_set s1 kd spd spd1 hd fd k y hy
    rw [← e2] at hz
    exact ⟨z, hz, same_frame_trans fy fz⟩
  · intro k i hne hs1
    -- the page lies above the level of the goal
    have hlt : i < first_page (goal size) := by
      rw [e1, state_at_set sps0 r.m_superpage sp sp3 k i hsp] at hs1
      by_cases e : k = r.m_superpage
      · rw [if_pos e] at hs1
        injection hs1 with hs1
        rcases hsplit i hs1 with h3 | h3
        · exfalso
          apply hne
          apply state_at_extended h0 k i
          unfold state_at
          rw [e, hsp]; simp only [Option.map_some']; rw [h3]
        · exact h3
      · rw [if_neg e] at hs1
        exact absurd (state_at_extended h0 k i hs1) hne
    rw [e2, state_at_set s1 kd spd spd1 k i hd]
    by_cases e : k = kd
    · rw [if_pos e]
      have hge := deallocate_index_ge spd addr size
      rw [sd i, if_neg (by omega)]
      have : state_at s1 k i = some (get_state spd i) := by
        unfold state_at; rw [e, hd]; rfl
      rw [← this]; exact hs1
    · rw [if_neg e]; exact hs1

/-- C5 (witness): the amended round-trip theorem at `allocate(100)` and
`deallocate(1081344, 100)` on a fresh resource. -/
theorem C5_round_trip_witness :
    do_allocate (upstream_at 1048576) [] 100 1 = Except.ok (after_allocate_100, 1081344) ∧
    do_deallocate after_allocate_100 1081344 100 1 = Except.ok after_round_trip_100 ∧
    after_round_trip_100.length = after_allocate_100.length ∧
    (∀ k i, state_at [] k i ≠ some page_state.SPLIT →
      state_at after_allocate_100 k i = some page_state.SPLIT →
      state_at after_round_trip_100 k i = some page_state.SPLIT) :=
  ⟨rfl, rfl,
    (C5_round_trip_keeps_superpages_and_splits (upstream_at 1048576) []
      after_allocate_100 after_round_trip_100 100 1 1081344 rfl rfl).1,
    (C5_round_trip_keeps_superpages_and_splits (upstream_at 1048576) []
      after_allocate_100 after_round_trip_100 100 1 1081344 rfl rfl).2.2.2⟩

/-- C6 (counterexample): in the single-block scenario node 0 is not `VACANT`
after `deallocate(A, 100)`. -/
theorem C6_node_0_is_not_vacant_again :
    (do
      let r1 ← do_allocate (upstream_at 1048576) [] 100 1
      let s2 ← do_deallocate r1.1 r1.2 100 1
      pure (state_at s2 0 0)) ≠
      (Except.ok (some page_state.VACANT) : Except failure (Option page_state)) := by
  decide

/-- C6 (amended): with `min_page_size = 8` and `new_page_size = 20`, on a fresh
resource `allocate(100)` returns an address whose offset from the base of the
superpage is a multiple of 128, and after `deallocate(A, 100)` the resource
has exactly one superpage, whose node 0 is `SPLIT`: the split made by the
descent is not undone by the deallocation. -/
theorem C6_single_block_scenario :
    min_page_size = 8 ∧ new_page_size = 20 ∧
    (do
      let r1 ← do_allocate (upstream_at 1048576) [] 100 1
      let s2 ← do_deallocate r1.1 r1.2 100 1
      pure ((r1.2 - 1048576) % 128, s2.length, state_at s2 0 0)) =
      (Except.ok (0, 1, some page_state.SPLIT) :
        Except failure (Nat × Nat × Option page_state)) :=
  ⟨rfl, rfl, rfl⟩

/-- C7 (counterexample): the alignment argument is ignored.  On a fresh
resource whose superpage is aligned to its size, the second of two calls
`allocate(100, 512)` marks page 256, whose `get_size` is 8 (the order is not
raised to 9), and returns `1048832`, which is not a multiple of 512. -/
theorem C7_alignment_not_honoured :
    1048576 % 2 ^ 20 = 0 ∧
    (do
      let r1 ← do_allocate_page (upstream_at 1048576) [] 100 512
      let r2 ← do_allocate_page (upstream_at 1048576) r1.1 100 512
      pure (r2.2.1, get_size r2.2.1.m_page, r2.2.2, r2.2.2 % 512)) =
      (Except.ok (⟨0, 256⟩, 8, 1048832, 256) :
        Except failure (page_ref × Nat × Nat × Nat)) :=
  ⟨rfl, rfl⟩

/-- C7 (amended): `allocate(size, alignment)` ignores the alignment.  Its
result is the same for every alignment, the order is not raised (the page
returned has `get_size` at most the order computed from the size alone), and,
superpage bases taken as aligned to the superpage size, the address is a
multiple of every power of two up to the size `1 << get_size` of the page
returned, hence of the alignment when the alignment is such a power. -/
theorem C7_alignment_is_ignored
    (upstream : Nat → Option Nat) (sps s1 : List superpage)
    (size alignment addr : Nat) (r : page_ref)
    (h : do_allocate_page upstream sps size alignment = Except.ok (s1, r, addr)) :
    (∀ a, do_allocate_page upstream sps size a = Except.ok (s1, r, addr)) ∧
    get_size r.m_page ≤ goal size ∧
    ∀ sp : superpage, s1[r.m_superpage]? = some sp → 2 ^ sp.m_size ∣ sp.m_memory →
      ∀ j, j ≤ get_size r.m_page → 2 ^ j ∣ addr := by
  obtain ⟨sps0, sp0, sp3, _, hsp, e1, f, hle, ea, hsz, _, _, _, _⟩ := do_allocate_page_ok h
  refine ⟨fun a => h, by omega, fun sp hs hal j hj => ?_⟩
  have hk : r.m_superpage < sps0.length := by
    rcases List.getElem?_eq_some.mp hsp with ⟨h1, _⟩; exact h1
  rw [e1, List.getElem?_set_self hk] at hs
  injection hs with hs
  subst hs
  have hg := goal_le size
  rw [ea]
  unfold get_addr
  apply Nat.dvd_add
  · refine Nat.dvd_trans (Nat.pow_dvd_pow 2 ?_) hal
    rw [f.1]; omega
  · apply (Nat.dvd_mod_iff (Nat.pow_dvd_pow 2 (by omega))).mpr
    rw [Nat.shiftLeft_eq, Nat.one_mul]
    exact Nat.dvd_trans (Nat.pow_dvd_pow 2 hj) (Nat.dvd_mul_left _ _)

/-- C7 (witness): the amended theorem at `allocate(100, 512)` on a fresh
resource. -/
theorem C7_alignment_witness :
    do_allocate_page (upstream_at 1048576) [] 100 512 =
      Except.ok (after_allocate_100, ⟨0, 255⟩, 1081344) ∧
    (∀ a, do_allocate_page (upstream_at 1048576) [] 100 a =
      Except.ok (after_allocate_100, ⟨0, 255⟩, 1081344)) ∧
    get_size 255 ≤ goal 100 :=
  ⟨rfl,
    (C7_alignment_is_ignored (upstream_at 1048576) [] after_allocate_100 100 512
      1081344 ⟨0, 255⟩ rfl).1,
    (C7_alignment_is_ignored (upstream_at 1048576) [] after_allocate_100 100 512
      1081344 ⟨0, 255⟩ rfl).2.1⟩

/-- C8: the address is not aligned to `1 << order(size)` for sizes above
`2 ^ 31`.  For `size = 2 ^ 31 + 1` the order of the specification is
`max(8, ceil_log2(size)) = 32`; on a fresh resource `allocate(size)` returns
an address at offset `32768` from the base of the superpage, which is not a
multiple of `2 ^ 32`, and the address itself is not one either although the
base is aligned to the superpage size. -/
theorem C8_offset_not_a_multiple_of_block_size :
    is_ceil_log2 (2 ^ 31 + 1) 32 ∧ max min_page_size 32 = 32 ∧ 1048576 % 2 ^ 20 = 0 ∧
    (do
      let r ← do_allocate (upstream_at 1048576) [] (2 ^ 31 + 1) 1
      pure (r.2 - 1048576, (r.2 - 1048576) % 2 ^ 32, r.2 % 2 ^ 32)) =
      (Except.ok (32768, 32768, 1081344) : Except failure (Nat × Nat × Nat)) := by
  decide

/-- C9: the block of a request above `2 ^ 31` does not lie inside the
superpage.  For `size = 2 ^ 31 + 1`, whose order is 32, `allocate(size)` on a
fresh resource takes the block at offset `32768` of a superpage of order 20:
`32768 + 2 ^ 32` exceeds `2 ^ 20`, and so does `32768 + size`. -/
theorem C9_block_leaves_the_superpage :
    is_ceil_log2 (2 ^ 31 + 1) 32 ∧
    (do
      let r ← do_allocate_page (upstream_at 1048576) [] (2 ^ 31 + 1) 1
      pure ((r.1[r.2.1.m_superpage]?).map (fun sp => (sp.m_size, sp.m_memory)),
        r.2.2 - 1048576)) =
      (Except.ok (some (20, 1048576), 32768) :
        Except failure (Option (Nat × Nat) × Nat)) ∧
    ¬ (32768 + 2 ^ 32 ≤ 2 ^ 20) ∧ ¬ (32768 + (2 ^ 31 + 1) ≤ 2 ^ 20) := by
  decide

/-- C10: the tree shape is not kept.  After `allocate(100)` and the matching
`deallocate` on a fresh resource, page 191 of the superpage is `NON_EXTANT`
while its left child, page 383, is `VACANT`. -/
theorem C10_non_extant_page_with_vacant_child :
    left_child 191 = 383 ∧
    (do
      let r1 ← do_allocate (upstream_at 1048576) [] 100 1
      let s2 ← do_deallocate r1.1 r1.2 100 1
      pure (state_at s2 0 191, state_at s2 0 (left_child 191))) =
      (Except.ok (some page_state.NON_EXTANT, some page_state.VACANT) :
        Except failure (Option page_state × Option page_state)) := by
  decide

/-! ## Growth and the second search -/

/-- What `allocate_upstream` does when the upstream does not throw. -/
theorem allocate_upstream_ok {upstream : Nat → Option Nat} {sps sps1 : List superpage}
    {size : Nat} (h : allocate_upstream upstream sps size = Except.ok sps1) :
    ∃ mem, upstream (1 <<< max size new_page_size) = some mem ∧
      sps1 = sps ++ [superpage.create (max size new_page_size) mem] := by
  unfold allocate_upstream at h
  cases hm : upstream (1 <<< max size new_page_size) with
  | none => rw [hm] at h; cases h
  | some mem =>
    rw [hm] at h
    injection h with h
    exact ⟨mem, rfl, h.symm⟩

/-- A pass that reports no capable superpage has met none. -/
theorem find_free_page_pass_flag (size : Nat) :
    ∀ (sps : List superpage) (k : Nat) (o : Option page_ref),
      find_free_page_pass size sps k = (false, o) →
      ∀ sp ∈ sps, ¬ size ≤ sp.m_size := by
  intro sps
  induction sps with
  | nil => intro k o _ sp hsp; cases hsp
  | cons sp0 rest ih =>
    intro k o h sp hsp
    unfold find_free_page_pass at h
    by_cases hs : size ≤ sp0.m_size
    · rw [if_pos hs] at h
      cases hsc : scan_pages sp0 (first_page size) (2 * first_page size + 1) with
      | some p => rw [hsc] at h; simp at h
      | none => rw [hsc] at h; simp at h
    · rw [if_neg hs] at h
      rcases List.mem_cons.mp hsp with e | e
      · rw [e]; exact hs
      · exact ih (k + 1) o h sp e

/-- A pass that returns nothing has scanned every capable superpage without
finding a `VACANT` page. -/
theorem find_free_page_pass_none (size : Nat) :
    ∀ (sps : List superpage) (k : Nat) (b : Bool),
      find_free_page_pass size sps k = (b, none) →
      ∀ sp ∈ sps, size ≤ sp.m_size →
        scan_pages sp (first_page size) (2 * first_page size + 1) = none := by
  intro sps
  induction sps with
  | nil => intro k b _ sp hsp; cases hsp
  | cons sp0 rest ih =>
    intro k b h sp hsp hle
    unfold find_free_page_pass at h
    by_cases hs : size ≤ sp0.m_size
    · rw [if_pos hs] at h
      cases hsc : scan_pages sp0 (first_page size) (2 * first_page size + 1) with
      | some p => rw [hsc] at h; simp at h
      | none =>
        rw [hsc] at h
        simp only [Prod.mk.injEq] at h
        rcases List.mem_cons.mp hsp with e | e
        · rw [e]; exact hsc
        · exact ih (k + 1) (find_free_page_pass size rest (k + 1)).1
            (Prod.ext rfl h.2) sp e hle
    · rw [if_neg hs] at h
      rcases List.mem_cons.mp hsp with e | e
      · rw [e] at hle; exact absurd hle hs
      · exact ih (k + 1) b h sp e hle

theorem max_size_ge : ∀ (sps : List superpage) (sp : superpage), sp ∈ sps →
    sp.m_size ≤ max_size sps := by
  intro sps
  induction sps with
  | nil => intro sp h; cases h
  | cons sp0 rest ih =>
    intro sp h
    unfold max_size
    rcases List.mem_cons.mp h with e | e
    · rw [e]; exact Nat.le_max_left _ _
    · exact Nat.le_trans (ih sp e) (Nat.le_max_right _ _)

/-- The search finds a page whenever some superpage of order at least
`max size 16` has its page 0 `VACANT`. -/
theorem find_free_page_loop_finds (sps : List superpage) (sp : superpage) (t : Nat)
    (hsp : sp ∈ sps) (ht : t ≤ sp.m_size) (h16 : 16 ≤ t)
    (hv : get_state sp 0 = page_state.VACANT) :
    ∀ (fuel size : Nat), size ≤ t → t - size < fuel →
      ∃ c, find_free_page_loop sps fuel size = some c := by
  intro fuel
  induction fuel with
  | zero => intro size _ h; omega
  | succ fuel ih =>
    intro size hle hf
    unfold find_free_page_loop
    cases hp : find_free_page_pass size sps 0 with
    | mk b o =>
      cases o with
      | some r => cases b <;> exact ⟨r, rfl⟩
      | none =>
        cases b with
        | false =>
          exact absurd (Nat.le_trans hle ht) (find_free_page_pass_flag size sps 0 none hp sp hsp)
        | true =>
          by_cases e : size = t
          · exfalso
            have hscan := find_free_page_pass_none size sps 0 true hp sp hsp (by omega)
            have hfp : first_page size = 0 := by
              rw [first_page_eq]
              have : 16 - size = 0 := by omega
              rw [this]; rfl
            rw [hfp] at hscan
            unfold scan_pages at hscan
            simp [hv] at hscan
          · exact ih (size + 1) (by omega) (by omega)

/-- After growth the search succeeds: the fresh superpage has order
`max (goal size) new_page_size` and its page 0 is `VACANT`. -/
theorem find_free_page_after_growth (sps : List superpage) (size mem : Nat) :
    ∃ c, find_free_page (sps ++ [superpage.create (max (goal size) new_page_size) mem])
      (goal size) = some c := by
  have hg := goal_le size
  have hmem : superpage.create (max (goal size) new_page_size) mem ∈
      sps ++ [superpage.create (max (goal size) new_page_size) mem] := by simp
  have hms := max_size_ge _ _ hmem
  have hO : (superpage.create (max (goal size) new_page_size) mem).m_size =
      max (goal size) new_page_size := rfl
  rw [hO] at hms
  unfold find_free_page
  apply find_free_page_loop_finds _ _ (max (goal size) 16) hmem
  · rw [hO]; unfold new_page_size; omega
  · omega
  · unfold get_state page_exists superpage.create
    simp only
    have : 0 < 2 <<< (max (goal size) new_page_size - min_page_size) - 1 := by
      rw [Nat.shiftLeft_eq]
      have := Nat.two_pow_pos (max (goal size) new_page_size - min_page_size)
      omega
    simp [this]
  · omega
  · simp only [new_page_size] at hms ⊢; omega

/-! ## The exceptions of `do_allocate` -/

theorem bind_error {ε α β : Type} {x : Except ε α} {f : α → Except ε β} {e : ε}
    (h : (x >>= f) = Except.error e) :
    x = Except.error e ∨ ∃ a, x = Except.ok a ∧ f a = Except.error e := by
  cases x with
  | error e1 =>
    left
    change (Except.error e1 : Except ε β) = Except.error e at h
    injection h with h
    rw [h]
  | ok a => right; exact ⟨a, rfl, h⟩

theorem write_state_error {sp : superpage} {i : Nat} {s : page_state} {e : failure}
    (h : write_state sp i s = Except.error e) : e = failure.undefined := by
  unfold write_state at h
  by_cases hi : i < sp.m_num_pages
  · rw [if_pos hi] at h; cases h
  · rw [if_neg hi] at h; injection h with h; exact h.symm

theorem split_error {sp : superpage} {c : Nat} {e : failure}
    (h : split sp c = Except.error e) : e ≠ failure.bad_alloc := by
  unfold split at h
  rcases bind_error h with h1 | ⟨a, _, h⟩
  · rw [write_state_error h1]; decide
  · rcases bind_error h with h2 | ⟨b, _, h⟩
    · rw [write_state_error h2]; decide
    · rw [write_state_error h]; decide

theorem split_loop_error (g : Nat) :
    ∀ (fuel : Nat) (sp : superpage) (c : Nat) (e : failure),
      split_loop g fuel sp c = Except.error e → e ≠ failure.bad_alloc := by
  intro fuel
  induction fuel with
  | zero =>
    intro sp c e h
    unfold split_loop at h
    injection h with h
    rw [← h]; decide
  | succ fuel ih =>
    intro sp c e h
    unfold split_loop at h
    by_cases hg : get_size c > g
    · rw [if_pos hg] at h
      cases hs : split sp c with
      | error e1 =>
        rw [hs] at h
        injection h with h
        rw [← h]; exact split_error hs
      | ok sp1 => rw [hs] at h; exact ih sp1 (left_child c) e h
    · rw [if_neg hg] at h; cases h

theorem unsplit_error :
    ∀ (fuel : Nat) (sp : superpage) (c : Nat) (e : failure),
      unsplit fuel sp c = Except.error e → e ≠ failure.bad_alloc := by
  intro fuel
  induction fuel with
  | zero =>
    intro sp c e h
    unfold unsplit at h
    injection h with h
    rw [← h]; decide
  | succ fuel ih =>
    intro sp c e h
    unfold unsplit at h
    simp only at h
    have rest : ∀ sp2 : superpage,
        (do
          let sp3 ← change_state_split_to_vacant sp2 c
          let sp4 ← change_state_vacant_to_non_extant sp3 (left_child c)
          change_state_vacant_to_non_extant sp4 (right_child c)) = Except.error e →
        e ≠ failure.bad_alloc := by
      intro sp2 h
      rcases bind_error h with h3 | ⟨sp3, _, h⟩
      · rw [write_state_error h3]; decide
      · rcases bind_error h with h4 | ⟨sp4, _, h⟩
        · rw [write_state_error h4]; decide
        · rw [write_state_error h]; decide
    have right : ∀ sp1 : superpage,
        (if get_state sp1 (right_child c) = page_state.SPLIT then do
            let y ← unsplit fuel sp1 (right_child c)
            let sp3 ← change_state_split_to_vacant y c
            let sp4 ← change_state_vacant_to_non_extant sp3 (left_child c)
            change_state_vacant_to_non_extant sp4 (right_child c)
          else do
            let y ← Except.ok sp1
            let sp3 ← change_state_split_to_vacant y c
            let sp4 ← change_state_vacant_to_non_extant sp3 (left_child c)
            change_state_vacant_to_non_extant sp4 (right_child c)) = Except.error e →
        e ≠ failure.bad_alloc := by
      intro sp1 h
      by_cases hr : get_state sp1 (right_child c) = page_state.SPLIT
      · rw [if_pos hr] at h
        rcases bind_error h with h2 | ⟨sp2, _, h⟩
        · exact ih _ _ _ h2
        · exact rest sp2 h
      · rw [if_neg hr] at h
        exact rest sp1 h
    by_cases hl : get_state sp (left_child c) = page_state.SPLIT
    · rw [if_pos hl] at h
      rcases bind_error h with h1 | ⟨sp1, _, h⟩
      · exact ih _ _ _ h1
      · exact right sp1 h
    · rw [if_neg hl] at h
      exact right sp h

/-- Once a candidate is found, `do_allocate` does not throw `std::bad_alloc`. -/
theorem take_page_error {sps : List superpage} {g : Nat} {c : page_ref} {e : failure}
    (h : take_page sps g c = Except.error e) : e ≠ failure.bad_alloc := by
  unfold take_page at h
  cases hsp : sps[c.m_superpage]? with
  | none =>
    rw [hsp] at h
    injection h with h
    rw [← h]; decide
  | some sp =>
    rw [hsp] at h
    simp only at h
    have rest : ∀ sp1 : superpage,
        (do
          let r ← split_loop g 64 sp1 c.m_page
          let sp3 ← change_state_vacant_to_occupied r.1 r.2
          Except.ok (sps.set c.m_superpage sp3,
            ({ m_superpage := c.m_superpage, m_page := r.2 } : page_ref),
            get_addr sp3 r.2)) = Except.error e →
        e ≠ failure.bad_alloc := by
      intro sp1 h
      rcases bind_error h with h2 | ⟨q, _, h⟩
      · exact split_loop_error _ _ _ _ _ h2
      · rcases bind_error h with h3 | ⟨sp3, _, h⟩
        · rw [write_state_error h3]; decide
        · cases h
    by_cases hs : get_state sp c.m_page = page_state.SPLIT
    · rw [if_pos hs] at h
      rcases bind_error h with h1 | ⟨sp1, _, h⟩
      · exact unsplit_error _ _ _ _ h1
      · exact rest sp1 h
    · rw [if_neg hs] at h
      exact rest sp h

/-- `do_allocate` throws `std::bad_alloc` exactly when the first search fails
and the upstream throws. -/
theorem do_allocate_page_bad_alloc (upstream : Nat → Option Nat) (sps : List superpage)
    (size alignment : Nat) :
    do_allocate_page upstream sps size alignment = Except.error failure.bad_alloc ↔
      find_free_page sps (goal size) = none ∧
        upstream (1 <<< max (goal size) new_page_size) = none := by
  unfold do_allocate_page
  cases hf : find_free_page sps (goal size) with
  | some c =>
    simp only
    constructor
    · intro h; exact absurd rfl (take_page_error h)
    · intro h; cases h.1
  | none =>
    simp only
    cases hu : allocate_upstream upstream sps (goal size) with
    | error e =>
      simp only
      unfold allocate_upstream at hu
      cases hm : upstream (1 <<< max (goal size) new_page_size) with
      | none =>
        rw [hm] at hu
        injection hu with hu
        rw [← hu]
        simp
      | some mem => rw [hm] at hu; cases hu
    | ok sps1 =>
      simp only
      obtain ⟨mem, hm, e1⟩ := allocate_upstream_ok hu
      obtain ⟨c, hc⟩ := find_free_page_after_growth sps size mem
      rw [e1, hc]
      simp only
      constructor
      · intro h; exact absurd rfl (take_page_error h)
      · intro h; rw [hm] at h; cases h.2

/-! ## The shape of the superpages is kept -/

theorem well_formed_nil : well_formed [] := fun sp h => by cases h

theorem well_formed_set {sps : List superpage} {k : Nat} {a b : superpage}
    (hwf : well_formed sps) (ha : sps[k]? = some a) (f : same_frame a b) :
    well_formed (sps.set k b) := by
  intro x hx
  rcases List.mem_or_eq_of_mem_set hx with h | h
  · exact hwf x h
  · have := hwf a (List.getElem?_mem ha)
    rw [h, f.1, f.2.1]
    exact this

/-- Every state the resource reaches has superpages of the shape the
constructor gives them: `do_allocate` and `do_deallocate` keep it. -/
theorem well_formed_kept (sps : List superpage) (hwf : well_formed sps) :
    (∀ (upstream : Nat → Option Nat) (size alignment addr : Nat) (s1 : List superpage),
      do_allocate upstream sps size alignment = Except.ok (s1, addr) → well_formed s1) ∧
    (∀ (p s alignment : Nat) (s2 : List superpage),
      do_deallocate sps p s alignment = Except.ok s2 → well_formed s2) := by
  constructor
  · intro upstream size alignment addr s1 h
    obtain ⟨r, hp⟩ := do_allocate_ok h
    obtain ⟨sps0, sp, sp3, h0, hsp, e1, f, _⟩ := do_allocate_page_ok hp
    have hwf0 : well_formed sps0 := by
      rcases h0 with e | ⟨mem, e⟩
      · rw [e]; exact hwf
      · rw [e]
        intro x hx
        rcases List.mem_append.mp hx with h | h
        · exact hwf x h
        · rw [List.mem_singleton] at h
          rw [h]
          exact ⟨Nat.le_max_right _ _, rfl⟩
    rw [e1]
    exact well_formed_set hwf0 hsp f
  · intro p s alignment s2 h
    obtain ⟨k, sp, sp1, _, hsp, hw, e⟩ := do_deallocate_ok h
    obtain ⟨_, f, _⟩ := write_state_ok hw
    rw [e]
    exact well_formed_set hwf hsp f

/-! ## The bump resource -/

theorem power_of_two_pos {alignment : Nat} (h : power_of_two alignment) : 0 < alignment := by
  obtain ⟨j, _, e⟩ := h
  rw [e]; exact Nat.two_pow_pos j

theorem align_up_dvd (p alignment : Nat) : alignment ∣ align_up p alignment :=
  Nat.dvd_mul_left _ _

theorem align_up_ge {p alignment : Nat} (h : 0 < alignment) : p ≤ align_up p alignment := by
  unfold align_up
  have h1 := Nat.div_add_mod (p + alignment - 1) alignment
  have h2 := Nat.mod_lt (p + alignment - 1) h
  rw [Nat.mul_comm] at h1
  omega

theorem align_up_lt {p alignment : Nat} (h : 0 < alignment) :
    align_up p alignment < p + alignment := by
  unfold align_up
  have h1 := Nat.div_mul_le_self (p + alignment - 1) alignment
  omega

/-- The aligned address is the least multiple of the alignment at or after
`p`. -/
theorem align_up_least {p q alignment : Nat} (h : 0 < alignment) (hq : p ≤ q)
    (hd : alignment ∣ q) : align_up p alignment ≤ q := by
  obtain ⟨k, rfl⟩ := hd
  unfold align_up
  rw [Nat.mul_comm alignment k]
  apply Nat.mul_le_mul_right
  apply Nat.le_of_lt_succ
  rw [Nat.div_lt_iff_lt_mul h]
  rw [Nat.succ_mul, Nat.mul_comm k alignment]
  omega

namespace contiguous_memory_resource

/-- Within the bounds the subtraction that computes the remaining space does
not wrap. -/
theorem rem_eq {r : contiguous_memory_resource} (hb : r.in_bounds) (hs : r.m_size < 2 ^ 64) :
    r.rem = r.m_size - (r.m_next - r.m_begin) := by
  unfold in_bounds at hb
  unfold rem
  omega

/-- A request that fits is served at the aligned address and moves the cursor
behind it. -/
theorem do_allocate_fits {r : contiguous_memory_resource} {size alignment : Nat}
    (hb : r.in_bounds) (hs : r.m_size < 2 ^ 64) (ha : 0 < alignment)
    (hfit : align_up r.m_next alignment + size ≤ r.m_begin + r.m_size) :
    r.do_allocate size alignment =
      ({ r with m_next := align_up r.m_next alignment + size },
        Except.ok (align_up r.m_next alignment)) := by
  have hge := align_up_ge (p := r.m_next) ha
  have hrem := rem_eq hb hs
  unfold in_bounds at hb
  unfold do_allocate std_align
  rw [if_pos (by omega)]

/-- A request that does not fit throws and leaves the resource as it was. -/
theorem do_allocate_fails {r : contiguous_memory_resource} {size alignment : Nat}
    (hb : r.in_bounds) (hs : r.m_size < 2 ^ 64) (ha : 0 < alignment)
    (hfit : r.m_begin + r.m_size < align_up r.m_next alignment + size) :
    r.do_allocate size alignment = (r, Except.error failure.bad_alloc) := by
  have hge := align_up_ge (p := r.m_next) ha
  have hrem := rem_eq hb hs
  unfold in_bounds at hb
  unfold do_allocate std_align
  rw [if_neg (by omega)]

end contiguous_memory_resource
theorem align_up_one (p : Nat) : align_up p 1 = p := by
  unfold align_up; simp

namespace contiguous_memory_resource

/-- The outcome of `do_allocate` within the bounds: the request is served at
the aligned address when it fits, and throws without any effect otherwise. -/
theorem do_allocate_cases (r : contiguous_memory_resource) (size alignment : Nat)
    (hb : r.in_bounds) (hs : r.m_size < 2 ^ 64) (ha : 0 < alignment) :
    (align_up r.m_next alignment + size ≤ r.m_begin + r.m_size ∧
      r.do_allocate size alignment =
        ({ r with m_next := align_up r.m_next alignment + size },
          Except.ok (align_up r.m_next alignment))) ∨
    (r.m_begin + r.m_size < align_up r.m_next alignment + size ∧
      r.do_allocate size alignment = (r, Except.error failure.bad_alloc)) := by
  by_cases hfit : align_up r.m_next alignment + size ≤ r.m_begin + r.m_size
  · exact Or.inl ⟨hfit, do_allocate_fits hb hs ha hfit⟩
  · exact Or.inr ⟨by omega, do_allocate_fails hb hs ha (by omega)⟩

/-- A sequence of calls keeps the slab and the bounds, never moves the cursor
back, and serves every allocation between the cursor at the start and the end
of the slab, each one behind the end of all earlier ones. -/
theorem run_trace :
    ∀ (calls : List call) (r : contiguous_memory_resource),
      r.in_bounds → r.m_size < 2 ^ 64 → aligned_calls calls →
      (run r calls).1.in_bounds ∧ (run r calls).1.m_size = r.m_size ∧
      (run r calls).1.m_begin = r.m_begin ∧ r.m_next ≤ (run r calls).1.m_next ∧
      (∀ x ∈ (run r calls).2, r.m_next ≤ x.1 ∧ x.1 + x.2 ≤ r.m_begin + r.m_size) ∧
      List.Pairwise (fun x y : Nat × Nat => x.1 + x.2 ≤ y.1) (run r calls).2 := by
  intro calls
  induction calls with
  | nil =>
    intro r hb _ _
    exact ⟨hb, rfl, rfl, le_refl _, fun x hx => (by cases hx), List.Pairwise.nil⟩
  | cons c rest ih =>
    intro r hb hs hal
    have hrest : aligned_calls rest := fun c1 hc1 => hal c1 (List.mem_cons_of_mem _ hc1)
    cases c with
    | deallocate p size alignment =>
      exact ih r hb hs hrest
    | allocate size alignment =>
      have ha : 0 < alignment := power_of_two_pos (hal _ (List.mem_cons_self _ _))
      have hge := align_up_ge (p := r.m_next) ha
      rcases do_allocate_cases r size alignment hb hs ha with ⟨hfit, e⟩ | ⟨_, e⟩
      · have hb1 : in_bounds { r with m_next := align_up r.m_next alignment + size } := by
          unfold in_bounds at hb ⊢
          simp only
          omega
        obtain ⟨i1, i2, i3, i4, i5, i6⟩ :=
          ih { r with m_next := align_up r.m_next alignment + size } hb1 hs hrest
        simp only at i2 i3 i4 i5
        unfold run
        rw [e]
        simp only
        refine ⟨i1, i2, i3, by omega, ?_, ?_⟩
        · intro x hx
          rcases List.mem_cons.mp hx with hx | hx
          · rw [hx]; simp only; omega
          · have := i5 x hx; omega
        · refine List.Pairwise.cons ?_ i6
          intro y hy
          have := i5 y hy
          simp only
          omega
      · unfold run
        rw [e]
        simp only
        exact ih r hb hs hrest

end contiguous_memory_resource

/-! ## Further scenarios on the buddy resource -/

/-- C11 (counterexample): in the merge-via-reuse scenario the search does not
select a `SPLIT` page and the block returned does not overlap the ranges held
by `A` and `B`.  After `allocate(256) = A`, `allocate(256) = B`,
`deallocate(A, 256)` and `deallocate(B, 256)`, `find_free_page` returns page
128, which is `VACANT`; `allocate(512)` returns `1049088`, and the block
`[1049088, 1049600)` is disjoint from `[A, A + 256)` with `A = 1081344` and
from `[B, B + 256)` with `B = 1048832`. -/
theorem C11_search_selects_a_vacant_page :
    (do
      let a ← do_allocate (upstream_at 1048576) [] 256 1
      let b ← do_allocate (upstream_at 1048576) a.1 256 1
      let s3 ← do_deallocate b.1 a.2 256 1
      let s4 ← do_deallocate s3 b.2 256 1
      let c ← do_allocate_page (upstream_at 2097152) s4 512 1
      pure (a.2, b.2, find_free_page s4 (goal 512), state_at s4 0 128, c.2,
        decide (c.2.2 + 512 ≤ a.2), decide (b.2 + 256 ≤ c.2.2))) =
    (Except.ok (1081344, 1048832, some ⟨0, 128⟩, some page_state.VACANT,
        (⟨0, 128⟩, 1049088), true, true) :
      Except failure
        (Nat × Nat × Option page_ref × Option page_state × (page_ref × Nat) × Bool × Bool)) := by
  rfl

/-- C11 (amended): on a fresh resource, after `allocate(256) = A`,
`allocate(256) = B`, `deallocate(A, 256)` and `deallocate(B, 256)`, the call
`allocate(512)` succeeds without a merge and without growth.  The pages
marked for `A` and `B` are the left and the right child of one page `P`, which
is `SPLIT`; the search passes over `P` and returns the page next to `P` on its
level, which is `VACANT`, so the test for `SPLIT` fails and `unsplit` is not
called; that page is marked as it is, without a split; `P` is still `SPLIT`
afterwards and the number of superpages is still one; the block returned lies
at offset 512 of the superpage, right behind the range `B` held.  In every
state the part of `do_allocate` after a successful search is
`split_and_mark`, without `unsplit`. -/
theorem C11_allocate_512_without_merge :
    (do
      let a ← do_allocate_page (upstream_at 1048576) [] 256 1
      let b ← do_allocate_page (upstream_at 1048576) a.1 256 1
      let s3 ← do_deallocate b.1 a.2.2 256 1
      let s4 ← do_deallocate s3 b.2.2 256 1
      let c ← do_allocate_page (upstream_at 2097152) s4 512 1
      let P := (a.2.1.m_page - 1) / 2
      pure (
        decide (a.2.1.m_superpage = 0 ∧ b.2.1.m_superpage = 0 ∧ c.2.1.m_superpage = 0),
        decide (a.2.1.m_page = left_child P ∧ b.2.1.m_page = right_child P),
        state_at s4 0 P,
        decide (find_free_page s4 (goal 512) = some c.2.1),
        decide (c.2.1.m_page = P + 1),
        state_at s4 0 c.2.1.m_page,
        s4.length, c.1.length,
        state_at c.1 0 P, state_at c.1 0 c.2.1.m_page,
        c.2.2 - 1048576, b.2.2 - 1048576 + 256)) =
    (Except.ok (true, true, some page_state.SPLIT, true, true, some page_state.VACANT,
        1, 1, some page_state.SPLIT, some page_state.OCCUPIED, 512, 512) :
      Except failure
        (Bool × Bool × Option page_state × Bool × Bool × Option page_state ×
          Nat × Nat × Option page_state × Option page_state × Nat × Nat)) ∧
    (∀ (sps : List superpage) (o : Nat) (c : page_ref), find_free_page sps o = some c →
      ∀ g, take_page sps g c = split_and_mark sps g c) := by
  refine ⟨rfl, fun sps o c h g => ?_⟩
  obtain ⟨_, _, sp, hsp, _, _, _, hv⟩ := find_free_page_some h
  unfold take_page split_and_mark
  rw [hsp]
  simp only
  rw [if_neg (by rw [hv]; decide)]
  rfl

/-- C12: growth does not follow the order of the vacant pages.
(1) With the order of the specification, the order of the superpage less the
depth of the page: after `allocate(16384)` and `allocate(32768)` page 4 of the
superpage of order 20 is `VACANT` at depth 2, a page of order 18, yet a
further `allocate(32768)`, of order 15, appends a second superpage.
(2) With `get_size` as the order: after `allocate(1048576)` and its
`deallocate` no page has `get_size` of 20 or more, yet a further
`allocate(1048576)`, of order 20, takes page 0 and appends nothing. -/
theorem C12_growth_ignores_vacant_pages :
    (goal 32768 = 15 ∧ at_depth 4 2 ∧
      (do
        let a ← do_allocate (upstream_at 1048576) [] 16384 1
        let b ← do_allocate (upstream_at 1048576) a.1 32768 1
        let c ← do_allocate (upstream_at 2097152) b.1 32768 1
        pure (b.1.map (fun sp => sp.m_size), state_at b.1 0 4,
          c.1.map (fun sp => sp.m_size))) =
      (Except.ok ([20], some page_state.VACANT, [20, 20]) :
        Except failure (List Nat × Option page_state × List Nat))) ∧
    (goal 1048576 = 20 ∧ (∀ i, i < 8191 → get_size i < 20) ∧
      (do
        let a ← do_allocate (upstream_at 1048576) [] 1048576 1
        let s ← do_deallocate a.1 a.2 1048576 1
        let c ← do_allocate_page (upstream_at 2097152) s 1048576 1
        pure (s.map (fun sp => (sp.m_size, sp.m_num_pages)), state_at s 0 0, get_size 0,
          c.2.1, c.1.map (fun sp => sp.m_size))) =
      (Except.ok ([(20, 8191)], some page_state.VACANT, 16, ⟨0, 0⟩, [20]) :
        Except failure
          (List (Nat × Nat) × Option page_state × Nat × page_ref × List Nat))) := by
  refine ⟨⟨by decide, by decide, rfl⟩, by decide, fun i hi => ?_, rfl⟩
  have := get_size_le (c := i) (by omega)
  omega

/-- C13: buddy new superpage.  A superpage created by `allocate_upstream` for
a request of order `r` has order `O = max(r, new_page_size)`, exactly
`(1 << (O - min_page_size + 1)) - 1` pages, the memory the upstream returned
for `1 << O` bytes, page 0 in state `VACANT` and every other page in state
`NON_EXTANT`; it is appended after all existing superpages, which are left
unchanged. -/
theorem C13_new_superpage
    (upstream : Nat → Option Nat) (sps sps1 : List superpage) (r : Nat)
    (h : allocate_upstream upstream sps r = Except.ok sps1) :
    ∃ sp, sps1 = sps ++ [sp] ∧ sp.m_size = max r new_page_size ∧
      sp.total_pages = (1 <<< (sp.m_size - min_page_size + 1)) - 1 ∧
      upstream (1 <<< sp.m_size) = some sp.m_memory ∧
      get_state sp 0 = page_state.VACANT ∧
      ∀ i, i ≠ 0 → get_state sp i = page_state.NON_EXTANT := by
  obtain ⟨mem, hm, e⟩ := allocate_upstream_ok h
  refine ⟨superpage.create (max r new_page_size) mem, e, rfl, ?_, hm, ?_, ?_⟩
  · unfold superpage.total_pages superpage.create
    simp only
    rw [Nat.shiftLeft_eq, Nat.shiftLeft_eq, Nat.pow_succ]
    omega
  · unfold get_state page_exists superpage.create
    simp only
    have : 0 < 2 <<< (max r new_page_size - min_page_size) - 1 := by
      rw [Nat.shiftLeft_eq]
      have := Nat.two_pow_pos (max r new_page_size - min_page_size)
      omega
    simp [this]
  · intro i hi
    unfold get_state superpage.create
    simp only
    split <;> simp [hi]

/-- C13 (witness): growth of an empty resource for a request of order 8, the
upstream returning the address `1048576`. -/
theorem C13_new_superpage_witness :
    allocate_upstream (upstream_at 1048576) [] 8 =
      Except.ok [superpage.create 20 1048576] ∧
    ∃ sp, [superpage.create 20 1048576] = [] ++ [sp] ∧ sp.m_size = max 8 new_page_size ∧
      sp.total_pages = (1 <<< (sp.m_size - min_page_size + 1)) - 1 ∧
      upstream_at 1048576 (1 <<< sp.m_size) = some sp.m_memory ∧
      get_state sp 0 = page_state.VACANT ∧
      ∀ i, i ≠ 0 → get_state sp i = page_state.NON_EXTANT :=
  ⟨rfl, C13_new_superpage (upstream_at 1048576) [] [superpage.create 20 1048576] 8 rfl⟩

/-- C14: buddy failure mode.  In every state and for every size, when the
first search fails and the upstream allocation of the new superpage succeeds,
the second `find_free_page` returns a candidate; the defensive throw is not
reached, and `do_allocate` throws `std::bad_alloc` if and only if the first
search fails and the upstream allocation throws. -/
theorem C14_bad_alloc_only_from_upstream
    (upstream : Nat → Option Nat) (sps : List superpage) (size alignment : Nat) :
    (∀ sps1, find_free_page sps (goal size) = none →
      allocate_upstream upstream sps (goal size) = Except.ok sps1 →
      ∃ c, find_free_page sps1 (goal size) = some c) ∧
    (do_allocate upstream sps size alignment = Except.error failure.bad_alloc ↔
      find_free_page sps (goal size) = none ∧
        upstream (1 <<< max (goal size) new_page_size) = none) := by
  constructor
  · intro sps1 _ h
    obtain ⟨mem, _, e⟩ := allocate_upstream_ok h
    rw [e]
    exact find_free_page_after_growth sps size mem
  · rw [← do_allocate_page_bad_alloc upstream sps size alignment]
    unfold do_allocate
    cases do_allocate_page upstream sps size alignment with
    | error e => simp
    | ok q => simp

/-- C14 (witness): on an empty resource the first search for `allocate(100)`
fails, the upstream returns a superpage at `1048576`, and the second search
returns page 0 of that superpage. -/
theorem C14_second_search_witness :
    find_free_page [] (goal 100) = none ∧
    allocate_upstream (upstream_at 1048576) [] (goal 100) =
      Except.ok [superpage.create 20 1048576] ∧
    find_free_page [superpage.create 20 1048576] (goal 100) = some ⟨0, 0⟩ ∧
    ∃ c, find_free_page [superpage.create 20 1048576] (goal 100) = some c :=
  ⟨rfl, rfl, rfl,
    (C14_bad_alloc_only_from_upstream (upstream_at 1048576) [] 100 1).1
      [superpage.create 20 1048576] rfl rfl⟩

/-! ## The frame of `do_deallocate` -/

/-- The superpage `do_deallocate` selects holds the address. -/
theorem find_superpage_some {sps : List superpage} {p k : Nat}
    (h : find_superpage sps p = some k) :
    ∃ sp, sps[k]? = some sp ∧ sp.m_memory ≤ p ∧ p < sp.m_memory + 2 ^ sp.m_size := by
  unfold find_superpage at h
  obtain ⟨hk, hp, _⟩ := List.findIdx?_eq_some_iff_getElem.mp h
  refine ⟨sps[k], List.getElem?_eq_getElem hk, ?_⟩
  simp only [Bool.and_eq_true, decide_eq_true_eq, Nat.shiftLeft_eq, Nat.one_mul] at hp
  exact hp

/-- In a superpage built by the constructor for an order of at least
`new_page_size`, the index `do_deallocate` computes for an address inside the
superpage lies inside the state array. -/
theorem deallocate_index_lt {sp : superpage} {p s : Nat}
    (ho : new_page_size ≤ sp.m_size)
    (hn : sp.m_num_pages = (2 <<< (sp.m_size - min_page_size)) - 1)
    (h1 : sp.m_memory ≤ p) (h2 : p < sp.m_memory + 2 ^ sp.m_size) :
    deallocate_index sp p s < sp.m_num_pages := by
  have hg := goal_ge s
  unfold new_page_size at ho
  unfold deallocate_index
  rw [hn, Nat.shiftLeft_eq, Nat.shiftLeft_eq, Nat.one_mul]
  simp only [min_page_size]
  have hfp : first_page (goal s) ≤ 255 := by
    rw [first_page_eq]
    have : 2 ^ (16 - goal s) ≤ 2 ^ 8 := Nat.pow_le_pow_right (by decide) (by omega)
    have e : (2 : Nat) ^ 8 = 256 := by decide
    omega
  have hdiv : (p - sp.m_memory) / 2 ^ goal s ≤ (p - sp.m_memory) / 2 ^ 8 :=
    Nat.div_le_div_left (Nat.pow_le_pow_right (by decide) hg) (Nat.two_pow_pos 8)
  have hsplit : (2 : Nat) ^ sp.m_size = 2 ^ 8 * 2 ^ (sp.m_size - 8) := by
    rw [← Nat.pow_add]; congr 1; omega
  have hq : (p - sp.m_memory) / 2 ^ 8 < 2 ^ (sp.m_size - 8) := by
    apply Nat.div_lt_of_lt_mul
    rw [← hsplit]; omega
  have hbig : 2 ^ 12 ≤ 2 ^ (sp.m_size - 8) := Nat.pow_le_pow_right (by decide) (by omega)
  have e12 : (2 : Nat) ^ 12 = 4096 := by decide
  omega

/-- An address that lies in some superpage makes the search of `do_deallocate`
succeed. -/
theorem find_superpage_of_mem {sps : List superpage} {p : Nat}
    (h : ∃ sp ∈ sps, sp.m_memory ≤ p ∧ p < sp.m_memory + 2 ^ sp.m_size) :
    ∃ k, find_superpage sps p = some k := by
  obtain ⟨sp, hsp, h1, h2⟩ := h
  unfold find_superpage
  refine ⟨_, List.findIdx?_eq_some_of_exists ⟨sp, hsp, ?_⟩⟩
  simp only [Bool.and_eq_true, decide_eq_true_eq, Nat.shiftLeft_eq, Nat.one_mul]
  exact ⟨h1, h2⟩

/-- C15: buddy deallocate frame.  In every state whose superpages have the
shape the constructor gives them, for every `deallocate(addr, size)` whose
address lies in some superpage, the call returns; it sets the page it computes
in the superpage it selects to `VACANT` and changes the state of no other page
(so it merges nothing); the number of superpages and the order, the number of
pages and the memory of every superpage are unchanged. -/
theorem C15_deallocate_changes_one_page
    (sps : List superpage) (addr size alignment : Nat)
    (hwf : well_formed sps)
    (hin : ∃ sp ∈ sps, sp.m_memory ≤ addr ∧ addr < sp.m_memory + 2 ^ sp.m_size) :
    ∃ k sp s2, find_superpage sps addr = some k ∧ sps[k]? = some sp ∧
      do_deallocate sps addr size alignment = Except.ok s2 ∧
      s2.length = sps.length ∧
      (∀ (j : Nat) (x : superpage), sps[j]? = some x →
        ∃ y, s2[j]? = some y ∧ same_frame x y) ∧
      state_at s2 k (deallocate_index sp addr size) = some page_state.VACANT ∧
      ∀ j i, (j ≠ k ∨ i ≠ deallocate_index sp addr size) →
        state_at s2 j i = state_at sps j i := by
  obtain ⟨k, hk⟩ := find_superpage_of_mem hin
  obtain ⟨sp, hsp, h1, h2⟩ := find_superpage_some hk
  obtain ⟨ho, hn⟩ := hwf sp (List.getElem?_mem hsp)
  have hlt := deallocate_index_lt (s := size) ho hn h1 h2
  obtain ⟨sp1, hw⟩ : ∃ sp1,
      write_state sp (deallocate_index sp addr size) page_state.VACANT = Except.ok sp1 := by
    unfold write_state
    rw [if_pos hlt]
    exact ⟨_, rfl⟩
  obtain ⟨_, f, st⟩ := write_state_ok hw
  refine ⟨k, sp, sps.set k sp1, hk, hsp, ?_, ?_, ?_, ?_, ?_⟩
  · unfold do_deallocate
    rw [hk]
    simp only
    rw [hsp]
    simp only
    unfold change_state_occupied_to_vacant
    rw [hw]
  · rw [List.length_set]
  · intro j x hx
    exact frame_set sps k sp _ hsp f j x hx
  · rw [state_at_set sps k sp _ k _ hsp, if_pos rfl, st, if_pos rfl]
  · intro j i hji
    rw [state_at_set sps k sp _ j i hsp]
    by_cases e : j = k
    · rw [if_pos e, st i]
      have hi : i ≠ deallocate_index sp addr size := by
        rcases hji with h | h
        · exact absurd e h
        · exact h
      rw [if_neg hi]
      unfold state_at
      rw [e, hsp]; rfl
    · rw [if_neg e]

/-- C15 (witness): the frame of `deallocate(1081344, 100)` in the state after
`allocate(100)` on a fresh resource. -/
theorem C15_deallocate_frame_witness :
    well_formed after_allocate_100 ∧
    (∃ sp ∈ after_allocate_100,
      sp.m_memory ≤ 1081344 ∧ 1081344 < sp.m_memory + 2 ^ sp.m_size) ∧
    ∃ k sp s2, find_superpage after_allocate_100 1081344 = some k ∧
      after_allocate_100[k]? = some sp ∧
      do_deallocate after_allocate_100 1081344 100 1 = Except.ok s2 ∧
      s2.length = after_allocate_100.length ∧
      (∀ (j : Nat) (x : superpage), after_allocate_100[j]? = some x →
        ∃ y, s2[j]? = some y ∧ same_frame x y) ∧
      state_at s2 k (deallocate_index sp 1081344 100) = some page_state.VACANT ∧
      ∀ j i, (j ≠ k ∨ i ≠ deallocate_index sp 1081344 100) →
        state_at s2 j i = state_at after_allocate_100 j i :=
  ⟨by decide, by decide,
    C15_deallocate_changes_one_page after_allocate_100 1081344 100 1 (by decide) (by decide)⟩

/-! ## Claims on the bump resource -/

/-- C16: bump resource allocate.  For every cursor position within
`[begin, begin + total]`, every size and every power-of-two alignment, if the
aligned request fits then `allocate(size, alignment)` returns the least
address `p >= next` with `p % alignment == 0` and sets the cursor to
`p + size`, leaving the slab as it was. -/
theorem C16_bump_allocate_returns_least_aligned_address
    (r : contiguous_memory_resource) (size alignment : Nat)
    (hb : r.in_bounds) (hs : r.m_size < 2 ^ 64) (ha : power_of_two alignment)
    (hfit : align_up r.m_next alignment + size ≤ r.m_begin + r.m_size) :
    ∃ p, r.do_allocate size alignment = ({ r with m_next := p + size }, Except.ok p) ∧
      r.m_next ≤ p ∧ p % alignment = 0 ∧
      ∀ q, r.m_next ≤ q → q % alignment = 0 → p ≤ q := by
  have hpos := power_of_two_pos ha
  refine ⟨align_up r.m_next alignment,
    contiguous_memory_resource.do_allocate_fits hb hs hpos hfit, align_up_ge hpos,
    Nat.mod_eq_zero_of_dvd (align_up_dvd _ _), fun q hq hm => ?_⟩
  exact align_up_least hpos hq (Nat.dvd_of_mod_eq_zero hm)

/-- C16 (witness): a slab of 1024 bytes at address 4099 with the cursor at
4109; `allocate(16, 16)` returns 4112 and moves the cursor to 4128. -/
theorem C16_bump_allocate_witness :
    (⟨1024, 4099, 4109⟩ : contiguous_memory_resource).in_bounds ∧
    power_of_two 16 ∧ align_up 4109 16 + 16 ≤ 4099 + 1024 ∧
    ∃ p, (⟨1024, 4099, 4109⟩ : contiguous_memory_resource).do_allocate 16 16 =
        (⟨1024, 4099, p + 16⟩, Except.ok p) ∧
      4109 ≤ p ∧ p % 16 = 0 ∧ ∀ q, 4109 ≤ q → q % 16 = 0 → p ≤ q :=
  ⟨by decide, by decide, by decide,
    C16_bump_allocate_returns_least_aligned_address ⟨1024, 4099, 4109⟩ 16 16
      (by decide) (by decide) (by decide) (by decide)⟩

/-- C17: bump resource failure.  Within the bounds and for a power-of-two
alignment, `allocate(size, alignment)` throws `std::bad_alloc` if and only if
`align_up(next, alignment) + size > begin + total`, and a failed allocate
leaves the resource, the cursor included, unchanged.  In particular, for a
slab of 1024 bytes at any base address, `allocate(10, 1)` and
`allocate(16, 16)` succeed and the call `allocate(1000, 1)` that follows
fails. -/
theorem C17_bump_allocate_fails_iff_no_room
    (r : contiguous_memory_resource) (size alignment : Nat)
    (hb : r.in_bounds) (hs : r.m_size < 2 ^ 64) (ha : power_of_two alignment) :
    ((r.do_allocate size alignment).2 = Except.error failure.bad_alloc ↔
      r.m_begin + r.m_size < align_up r.m_next alignment + size) ∧
    ((r.do_allocate size alignment).2 = Except.error failure.bad_alloc →
      (r.do_allocate size alignment).1 = r) ∧
    ∀ base : Nat, ∃ p0 p1 r2,
      contiguous_memory_resource.run ⟨1024, base, base⟩
          [.allocate 10 1, .allocate 16 16] = (r2, [(p0, 10), (p1, 16)]) ∧
      r2.do_allocate 1000 1 = (r2, Except.error failure.bad_alloc) := by
  have hpos := power_of_two_pos ha
  refine ⟨?_, ?_, ?_⟩
  · rcases contiguous_memory_resource.do_allocate_cases r size alignment hb hs hpos with
      ⟨hfit, e⟩ | ⟨hno, e⟩
    · rw [e]
      constructor
      · intro h; cases h
      · intro h; omega
    · rw [e]
      exact ⟨fun _ => hno, fun _ => rfl⟩
  · rcases contiguous_memory_resource.do_allocate_cases r size alignment hb hs hpos with
      ⟨hfit, e⟩ | ⟨hno, e⟩
    · rw [e]; intro h; cases h
    · rw [e]; intro _; rfl
  · intro base
    have h16 : (0 : Nat) < 16 := by decide
    have hlo := align_up_ge (p := base + 10) h16
    have hhi := align_up_lt (p := base + 10) h16
    have e0 : (⟨1024, base, base⟩ : contiguous_memory_resource).do_allocate 10 1 =
        (⟨1024, base, base + 10⟩, Except.ok base) := by
      have := @contiguous_memory_resource.do_allocate_fits ⟨1024, base, base⟩ 10 1
        (by unfold contiguous_memory_resource.in_bounds; simp)
        (show (1024 : Nat) < 2 ^ 64 by decide) (by decide)
        (by rw [align_up_one]; simp only; omega)
      rw [this, align_up_one]
    have e1 : (⟨1024, base, base + 10⟩ : contiguous_memory_resource).do_allocate 16 16 =
        (⟨1024, base, align_up (base + 10) 16 + 16⟩, Except.ok (align_up (base + 10) 16)) :=
      @contiguous_memory_resource.do_allocate_fits ⟨1024, base, base + 10⟩ 16 16
        (by unfold contiguous_memory_resource.in_bounds; simp)
        (show (1024 : Nat) < 2 ^ 64 by decide) h16 (by simp only; omega)
    have e2 : (⟨1024, base, align_up (base + 10) 16 + 16⟩ :
          contiguous_memory_resource).do_allocate 1000 1 =
        (⟨1024, base, align_up (base + 10) 16 + 16⟩, Except.error failure.bad_alloc) :=
      @contiguous_memory_resource.do_allocate_fails
        ⟨1024, base, align_up (base + 10) 16 + 16⟩ 1000 1
        (by unfold contiguous_memory_resource.in_bounds; simp only; omega)
        (show (1024 : Nat) < 2 ^ 64 by decide) (by decide)
        (by rw [align_up_one]; simp only; omega)
    refine ⟨base, align_up (base + 10) 16, ⟨1024, base, align_up (base + 10) 16 + 16⟩, ?_, e2⟩
    unfold contiguous_memory_resource.run
    rw [e0]
    simp only
    unfold contiguous_memory_resource.run
    rw [e1]
    simp only
    unfold contiguous_memory_resource.run
    rfl

/-- C17 (witness): a slab of 1024 bytes at address 4099 with the cursor at
4128; `allocate(1000, 1)` does not fit and fails. -/
theorem C17_bump_failure_witness :
    (⟨1024, 4099, 4128⟩ : contiguous_memory_resource).in_bounds ∧ power_of_two 1 ∧
    (((⟨1024, 4099, 4128⟩ : contiguous_memory_resource).do_allocate 1000 1).2 =
        Except.error failure.bad_alloc ↔
      4099 + 1024 < align_up 4128 1 + 1000) ∧
    ((⟨1024, 4099, 4128⟩ : contiguous_memory_resource).do_allocate 1000 1).2 =
      Except.error failure.bad_alloc :=
  ⟨by decide, by decide,
    (C17_bump_allocate_fails_iff_no_room ⟨1024, 4099, 4128⟩ 1000 1
      (by decide) (by decide) (by decide)).1,
    by decide⟩

/-- C18 (counterexample): two successive successful calls `allocate(0, 1)` on
a slab of 1024 bytes at address 4096 both return 4096: the second address is
not strictly greater than the first. -/
theorem C18_zero_size_allocations_repeat_an_address :
    aligned_calls [.allocate 0 1, .allocate 0 1] ∧
    contiguous_memory_resource.run ⟨1024, 4096, 4096⟩ [.allocate 0 1, .allocate 0 1] =
      (⟨1024, 4096, 4096⟩, [(4096, 0), (4096, 0)]) ∧
    ¬ (4096 < 4096) := by
  decide

/-- C18 (amended): bump resource monotonicity.  In every sequence of calls on
one bump resource, with any sizes and power-of-two alignments, each address
returned by a successful allocate is at least the address returned by the
previous successful allocate plus the size of that allocation; it is strictly
greater whenever that size is not zero. -/
theorem C18_bump_addresses_do_not_decrease
    (r : contiguous_memory_resource) (calls : List contiguous_memory_resource.call)
    (hb : r.in_bounds) (hs : r.m_size < 2 ^ 64) (hal : aligned_calls calls) :
    List.Chain' (fun x y : Nat × Nat => x.1 + x.2 ≤ y.1 ∧ (0 < x.2 → x.1 < y.1))
      (contiguous_memory_resource.run r calls).2 := by
  have h := (contiguous_memory_resource.run_trace calls r hb hs hal).2.2.2.2.2
  exact (h.imp (fun {x y} (hxy : x.1 + x.2 ≤ y.1) =>
    (⟨hxy, fun hpos => by omega⟩ : x.1 + x.2 ≤ y.1 ∧ (0 < x.2 → x.1 < y.1)))).chain'

/-- C18 (witness): the amended monotonicity on a slab of 1024 bytes at address
4099, for the calls `allocate(10, 1)`, `allocate(0, 8)`, `allocate(16, 16)`. -/
theorem C18_bump_monotonicity_witness :
    (⟨1024, 4099, 4099⟩ : contiguous_memory_resource).in_bounds ∧
    aligned_calls [.allocate 10 1, .allocate 0 8, .allocate 16 16] ∧
    (contiguous_memory_resource.run ⟨1024, 4099, 4099⟩
        [.allocate 10 1, .allocate 0 8, .allocate 16 16]).2 =
      [(4099, 10), (4112, 0), (4112, 16)] ∧
    List.Chain' (fun x y : Nat × Nat => x.1 + x.2 ≤ y.1 ∧ (0 < x.2 → x.1 < y.1))
      (contiguous_memory_resource.run ⟨1024, 4099, 4099⟩
        [.allocate 10 1, .allocate 0 8, .allocate 16 16]).2 :=
  ⟨by decide, by decide, by decide,
    C18_bump_addresses_do_not_decrease ⟨1024, 4099, 4099⟩
      [.allocate 10 1, .allocate 0 8, .allocate 16 16] (by decide) (by decide) (by decide)⟩

/-- C19: bump resource bound.  `begin <= next <= begin + total` holds after
construction and is preserved by every allocate with a power-of-two alignment,
successful or failed, by every deallocate and so by every sequence of calls;
the slab is never changed.  Within the bound the subtraction that computes the
remaining space does not underflow, and the bytes consumed, `next - begin`,
never exceed the size of the slab. -/
theorem C19_bump_cursor_stays_in_bounds
    (r : contiguous_memory_resource) (size alignment p s a : Nat)
    (calls : List contiguous_memory_resource.call)
    (hb : r.in_bounds) (hs : r.m_size < 2 ^ 64) (ha : power_of_two alignment)
    (hal : aligned_calls calls) :
    (∀ (upstream : Nat → Option Nat) (total : Nat) (r0 : contiguous_memory_resource),
      contiguous_memory_resource.create upstream total = Except.ok r0 →
      r0.in_bounds ∧ r0.m_size = total ∧ r0.m_next = r0.m_begin) ∧
    ((r.do_allocate size alignment).1.in_bounds ∧
      (r.do_allocate size alignment).1.m_size = r.m_size ∧
      (r.do_allocate size alignment).1.m_begin = r.m_begin) ∧
    (r.do_deallocate p s a).in_bounds ∧
    ((contiguous_memory_resource.run r calls).1.in_bounds ∧
      (contiguous_memory_resource.run r calls).1.m_size = r.m_size ∧
      (contiguous_memory_resource.run r calls).1.m_begin = r.m_begin) ∧
    r.rem = r.m_size - (r.m_next - r.m_begin) ∧ r.m_next - r.m_begin ≤ r.m_size := by
  refine ⟨?_, ?_, hb, ?_, contiguous_memory_resource.rem_eq hb hs, ?_⟩
  · intro upstream total r0 h
    unfold contiguous_memory_resource.create at h
    cases hu : upstream total with
    | none => rw [hu] at h; cases h
    | some mem =>
      rw [hu] at h
      injection h with h
      subst h
      exact ⟨⟨le_refl _, Nat.le_add_right _ _⟩, rfl, rfl⟩
  · have hpos := power_of_two_pos ha
    have hge := align_up_ge (p := r.m_next) hpos
    rcases contiguous_memory_resource.do_allocate_cases r size alignment hb hs hpos with
      ⟨hfit, e⟩ | ⟨_, e⟩
    · rw [e]
      refine ⟨?_, rfl, rfl⟩
      unfold contiguous_memory_resource.in_bounds at hb ⊢
      simp only
      omega
    · rw [e]; exact ⟨hb, rfl, rfl⟩
  · obtain ⟨h1, h2, h3, _⟩ := contiguous_memory_resource.run_trace calls r hb hs hal
    exact ⟨h1, h2, h3⟩
  · unfold contiguous_memory_resource.in_bounds at hb
    omega

/-- C19 (witness): the bound on a slab of 1024 bytes at address 4099 with the
cursor at 4109, for a successful and for a failed allocate. -/
theorem C19_bump_bound_witness :
    (⟨1024, 4099, 4109⟩ : contiguous_memory_resource).in_bounds ∧ power_of_two 16 ∧
    ((⟨1024, 4099, 4109⟩ : contiguous_memory_resource).do_allocate 16 16).1.in_bounds ∧
    (contiguous_memory_resource.run ⟨1024, 4099, 4109⟩
      [.allocate 16 16, .allocate 2000 1, .deallocate 4112 16 16]).1.in_bounds :=
  ⟨by decide, by decide,
    (C19_bump_cursor_stays_in_bounds ⟨1024, 4099, 4109⟩ 16 16 4112 16 16
      [.allocate 16 16, .allocate 2000 1, .deallocate 4112 16 16]
      (by decide) (by decide) (by decide) (by decide)).2.1.1,
    (C19_bump_cursor_stays_in_bounds ⟨1024, 4099, 4109⟩ 16 16 4112 16 16
      [.allocate 16 16, .allocate 2000 1, .deallocate 4112 16 16]
      (by decide) (by decide) (by decide) (by decide)).2.2.2.1.1⟩

/-- C20: bump resource non-overlap.  In every sequence of calls on one bump
resource, with power-of-two alignments, any two successful allocations,
returning `p_i` for `size_i` and later `p_j` for `size_j`, satisfy
`p_i + size_i <= p_j`, and every returned range `[p, p + size)` lies inside the
slab `[begin, begin + total)`. -/
theorem C20_bump_allocations_do_not_overlap
    (r : contiguous_memory_resource) (calls : List contiguous_memory_resource.call)
    (hb : r.in_bounds) (hs : r.m_size < 2 ^ 64) (hal : aligned_calls calls) :
    List.Pairwise (fun x y : Nat × Nat => x.1 + x.2 ≤ y.1)
      (contiguous_memory_resource.run r calls).2 ∧
    ∀ x ∈ (contiguous_memory_resource.run r calls).2,
      r.m_begin ≤ x.1 ∧ x.1 + x.2 ≤ r.m_begin + r.m_size := by
  obtain ⟨_, _, _, _, h5, h6⟩ := contiguous_memory_resource.run_trace calls r hb hs hal
  refine ⟨h6, fun x hx => ?_⟩
  have := h5 x hx
  unfold contiguous_memory_resource.in_bounds at hb
  omega

/-- C20 (witness): non-overlap on a slab of 1024 bytes at address 4099, for
the calls `allocate(10, 1)`, `allocate(16, 16)`, `allocate(1000, 1)` (which
fails), `deallocate(4099, 10, 1)`, `allocate(100, 64)`. -/
theorem C20_bump_non_overlap_witness :
    (⟨1024, 4099, 4099⟩ : contiguous_memory_resource).in_bounds ∧
    (contiguous_memory_resource.run ⟨1024, 4099, 4099⟩
        [.allocate 10 1, .allocate 16 16, .allocate 1000 1, .deallocate 4099 10 1,
          .allocate 100 64]).2 = [(4099, 10), (4112, 16), (4160, 100)] ∧
    List.Pairwise (fun x y : Nat × Nat => x.1 + x.2 ≤ y.1)
      (contiguous_memory_resource.run ⟨1024, 4099, 4099⟩
        [.allocate 10 1, .allocate 16 16, .allocate 1000 1, .deallocate 4099 10 1,
          .allocate 100 64]).2 :=
  ⟨by decide, by decide,
    (C20_bump_allocations_do_not_overlap ⟨1024, 4099, 4099⟩
      [.allocate 10 1, .allocate 16 16, .allocate 1000 1, .deallocate 4099 10 1,
        .allocate 100 64] (by decide) (by decide) (by decide)).1⟩

/-! ## The bump resource: `do_deallocate` -/

/-- C21: bump resource deallocate is a no-op.  For every state and every
`(p, size, alignment)`, `do_deallocate` leaves `m_begin`, `m_size` and the
cursor `m_next` unchanged; hence the next `do_allocate` gives the same
resource and the same result as without the call, and a sequence of calls
with a `deallocate` at any position leaves the same resource and returns the
same addresses as the sequence without it. -/
theorem C21_bump_deallocate_is_a_no_op
    (r : contiguous_memory_resource) (p size alignment : Nat) :
    (r.do_deallocate p size alignment).m_begin = r.m_begin ∧
    (r.do_deallocate p size alignment).m_size = r.m_size ∧
    (r.do_deallocate p size alignment).m_next = r.m_next ∧
    (∀ size1 alignment1,
      (r.do_deallocate p size alignment).do_allocate size1 alignment1 =
        r.do_allocate size1 alignment1) ∧
    (∀ (r0 : contiguous_memory_resource) (before after : List contiguous_memory_resource.call),
      contiguous_memory_resource.run r0
          (before ++ contiguous_memory_resource.call.deallocate p size alignment :: after) =
        contiguous_memory_resource.run r0 (before ++ after)) := by
  refine ⟨rfl, rfl, rfl, fun _ _ => rfl, ?_⟩
  intro r0 before
  induction before generalizing r0 with
  | nil => intro after; rfl
  | cons c rest ih =>
    intro after
    cases c with
    | allocate s a =>
      rw [List.cons_append, List.cons_append, contiguous_memory_resource.run,
        contiguous_memory_resource.run, ih]
    | deallocate q s a =>
      rw [List.cons_append, List.cons_append, contiguous_memory_resource.run,
        contiguous_memory_resource.run, ih]

/-! ## The instrumenting resource -/

/-- The loop over a list of hooks calls each of them once, from the first to
the last, after what was done before. -/
theorem run_hooks_eq (call : Nat → action) (hooks : List Nat) :
    ∀ log, run_hooks call hooks log = log ++ hooks.map call := by
  induction hooks with
  | nil => intro log; simp [run_hooks]
  | cons f rest ih => intro log; simp [run_hooks, ih]

/-- C22: the event log of the instrumenting resource.  After `do_allocate`
the event list is the one before the call with one event appended, of type
`ALLOCATION`, with the size and the alignment of the call and the address
returned, the null pointer when the call throws, as it does when the upstream
throws; after `do_deallocate` it is the one before the call with one event
appended, of type `DEALLOCATION`, with the size, the alignment and the
address passed in.  The lists of hooks are not changed. -/
theorem C22_one_event_is_appended_by_each_call
    (r : instrumenting_memory_resource) (upstream : Nat → Nat → Option Nat)
    (t1 t2 : Int) (ptr size align : Nat) (log : List action) :
    (∃ e : memory_event,
      (r.do_allocate upstream t1 t2 size align log).1 = { r with m_events := r.m_events ++ [e] } ∧
      (r.do_allocate upstream t1 t2 size align log).1.get_events = r.get_events ++ [e] ∧
      e.m_type = memory_event_type.ALLOCATION ∧ e.m_size = size ∧ e.m_align = align ∧
      (∀ p, (r.do_allocate upstream t1 t2 size align log).2.2 = .ok p → e.m_ptr = p) ∧
      (∀ x, (r.do_allocate upstream t1 t2 size align log).2.2 = .error x →
        e.m_ptr = nullptr) ∧
      (upstream size align = none →
        (r.do_allocate upstream t1 t2 size align log).2.2 = .error failure.bad_alloc ∧
        e.m_ptr = nullptr)) ∧
    (∃ e : memory_event,
      (r.do_deallocate t1 t2 ptr size align log).1 = { r with m_events := r.m_events ++ [e] } ∧
      (r.do_deallocate t1 t2 ptr size align log).1.get_events = r.get_events ++ [e] ∧
      e.m_type = memory_event_type.DEALLOCATION ∧ e.m_size = size ∧ e.m_align = align ∧
      e.m_ptr = ptr) := by
  constructor
  · unfold instrumenting_memory_resource.do_allocate
    simp only
    cases hu : upstream size align with
    | none =>
      refine ⟨⟨memory_event_type.ALLOCATION, size, align, nullptr, elapsed t1 t2⟩, ?_⟩
      simp [instrumenting_memory_resource.get_events]
    | some p =>
      refine ⟨⟨memory_event_type.ALLOCATION, size, align, p, elapsed t1 t2⟩, ?_⟩
      by_cases hp : p = nullptr
      · simp [hp, instrumenting_memory_resource.get_events]
      · simp [hp, instrumenting_memory_resource.get_events]
  · exact ⟨⟨memory_event_type.DEALLOCATION, size, align, ptr, elapsed t1 t2⟩,
      rfl, rfl, rfl, rfl, rfl, rfl⟩

/-- C23 (counterexample): an upstream that returns the null pointer without
throwing, here for a request of size 0, does not signal `OutOfMemory`, but
`do_allocate` of the wrapper throws `std::bad_alloc`. -/
theorem C23_null_address_from_upstream_is_thrown :
    (fun _ _ => some nullptr : Nat → Nat → Option Nat) 0 1 = some 0 ∧
    (instrumenting_memory_resource.create.do_allocate (fun _ _ => some nullptr)
        0 0 0 1 []).2.2 = .error failure.bad_alloc := by
  decide

/-- C23: the outcome of `do_allocate` of the wrapper.  It throws
`std::bad_alloc`, and nothing else, exactly when the upstream threw it or
returned the null pointer; it returns `p` exactly when the upstream returned
`p` and `p` is not the null pointer.  So for an upstream call that does not
return the null pointer the outcome is that of the upstream. -/
theorem C23_wrapper_outcome_is_the_upstream_outcome_up_to_null
    (r : instrumenting_memory_resource) (upstream : Nat → Nat → Option Nat)
    (t1 t2 : Int) (size align : Nat) (log : List action) :
    ((r.do_allocate upstream t1 t2 size align log).2.2 = .error failure.bad_alloc ↔
      (upstream size align = none ∨ upstream size align = some nullptr)) ∧
    (∀ x, (r.do_allocate upstream t1 t2 size align log).2.2 = .error x →
      x = failure.bad_alloc) ∧
    (∀ p, (r.do_allocate upstream t1 t2 size align log).2.2 = .ok p ↔
      (upstream size align = some p ∧ p ≠ nullptr)) ∧
    (upstream size align ≠ some nullptr →
      (r.do_allocate upstream t1 t2 size align log).2.2 =
        match upstream size align with
        | some p => .ok p
        | none => .error failure.bad_alloc) := by
  unfold instrumenting_memory_resource.do_allocate
  simp only
  cases hu : upstream size align with
  | none => simp
  | some p =>
    by_cases hp : p = nullptr
    · simp [hp]
    · simp [hp]

/-- C24: the order of the hooks.  The actions of `do_allocate` are, after
those done before the call: one call of each pre-allocate hook with
`(size, align)`, in the order of the list; the call of the upstream; the
event appended; one call of each post-allocate hook with `(size, align, ptr)`,
in the order of the list, where `ptr` is the null pointer when the upstream
threw; and then the exception, if the call throws.  The actions of
`do_deallocate` are one call of each pre-deallocate hook with
`(ptr, size, align)`, in the order of the list, then the call of the upstream
and the event appended.  The order of a list is the order of registration:
every `add_..._hook` appends to its list and leaves the others as they are. -/
theorem C24_hooks_run_once_in_registration_order
    (r : instrumenting_memory_resource) (upstream : Nat → Nat → Option Nat)
    (t1 t2 : Int) (ptr size align f : Nat) (log : List action) :
    (r.do_allocate upstream t1 t2 size align log).2.1 =
      log ++ r.m_pre_allocate_hooks.map (fun f => action.pre_allocate_hook f size align)
        ++ [action.upstream_allocate size align]
        ++ [action.emplace_back ⟨memory_event_type.ALLOCATION, size, align,
              (upstream size align).getD nullptr, elapsed t1 t2⟩]
        ++ r.m_post_allocate_hooks.map
            (fun f => action.post_allocate_hook f size align
              ((upstream size align).getD nullptr))
        ++ (match (r.do_allocate upstream t1 t2 size align log).2.2 with
            | .ok _ => []
            | .error _ => [action.throw_bad_alloc]) ∧
    (upstream size align = none → (upstream size align).getD nullptr = nullptr) ∧
    (r.do_deallocate t1 t2 ptr size align log).2 =
      log ++ r.m_pre_deallocate_hooks.map (fun f => action.pre_deallocate_hook f ptr size align)
        ++ [action.upstream_deallocate ptr size align]
        ++ [action.emplace_back ⟨memory_event_type.DEALLOCATION, size, align, ptr,
              elapsed t1 t2⟩] ∧
    instrumenting_memory_resource.create.m_pre_allocate_hooks = [] ∧
    instrumenting_memory_resource.create.m_post_allocate_hooks = [] ∧
    instrumenting_memory_resource.create.m_pre_deallocate_hooks = [] ∧
    r.add_pre_allocate_hook f = { r with m_pre_allocate_hooks := r.m_pre_allocate_hooks ++ [f] } ∧
    r.add_post_allocate_hook f =
      { r with m_post_allocate_hooks := r.m_post_allocate_hooks ++ [f] } ∧
    r.add_pre_deallocate_hook f =
      { r with m_pre_deallocate_hooks := r.m_pre_deallocate_hooks ++ [f] } := by
  refine ⟨?_, ?_, ?_, rfl, rfl, rfl, rfl, rfl, rfl⟩
  · unfold instrumenting_memory_resource.do_allocate
    simp only [run_hooks_eq]
    cases hu : upstream size align with
    | none => simp [nullptr]
    | some p =>
      by_cases hp : p = nullptr
      · simp [hp]
      · simp [hp]
  · intro h; rw [h]; rfl
  · unfold instrumenting_memory_resource.do_deallocate
    simp only [run_hooks_eq]

/-! ## The jagged buffer -/

/-- The loop of `std::accumulate` from a value below `2 ^ 64`. -/
theorem accumulate_loop_eq (xs : List Nat) :
    ∀ acc, acc < 2 ^ 64 →
      xs.foldl (fun acc x => (acc + x) % 2 ^ 64) acc = (acc + xs.sum) % 2 ^ 64 := by
  induction xs with
  | nil => intro acc h; simp only [List.foldl_nil, List.sum_nil, Nat.add_zero]; omega
  | cons x rest ih =>
    intro acc _
    rw [List.foldl_cons, ih _ (Nat.mod_lt _ (by decide)), List.sum_cons]
    omega

/-- The value of `std::accumulate` is the sum modulo `2 ^ 64`. -/
theorem accumulate_eq (xs : List Nat) : accumulate xs = xs.sum % 2 ^ 64 := by
  unfold accumulate
  rw [accumulate_loop_eq xs 0 (by decide), Nat.zero_add]

/-- The loop of the constructor from `sizes` constructs one view record for
each entry. -/
theorem fill_fixed_length (t : type_sizes) (hp inner : Nat) (sizes : List Nat) :
    ∀ i pd, (fill_fixed t hp inner sizes i pd).length = sizes.length := by
  induction sizes with
  | nil => intro i pd; rfl
  | cons s rest ih => intro i pd; simp [fill_fixed, ih]

/-- The view record the loop of the constructor from `sizes` constructs for
the entry `k`. -/
theorem fill_fixed_get (t : type_sizes) (hp inner : Nat) (sizes : List Nat) :
    ∀ i pd k, k < sizes.length →
      (fill_fixed t hp inner sizes i pd)[k]? =
        some (hp + (i + k) * t.sizeof_value_type,
          vector_view.fixed (to_size_type t (sizes.getD k 0))
            ((inner + pd + (sizes.take k).sum * t.sizeof_TYPE) % 2 ^ 64)) := by
  induction sizes with
  | nil => intro i pd k hk; simp at hk
  | cons s rest ih =>
    intro i pd k hk
    cases k with
    | zero => simp [fill_fixed]
    | succ k =>
      simp only [List.length_cons, Nat.add_lt_add_iff_right] at hk
      simp only [fill_fixed, List.getElem?_cons_succ, List.take_succ_cons, List.sum_cons,
        List.getD_cons_succ]
      rw [ih (i + 1) _ k hk]
      have h1 : i + 1 + k = i + (k + 1) := by omega
      have h2 : (inner + (pd + s * t.sizeof_TYPE % 2 ^ 64) % 2 ^ 64
          + (List.take k rest).sum * t.sizeof_TYPE) % 2 ^ 64 =
          (inner + pd + (s + (List.take k rest).sum) * t.sizeof_TYPE) % 2 ^ 64 := by
        rw [Nat.add_mul]
        omega
      rw [h1, h2]

/-- The loop of the constructor from `sizes` and `capacities` constructs one
view record for each capacity. -/
theorem fill_resizable_length (t : type_sizes) (hp hd dp : Nat) (caps : List Nat) :
    ∀ i pd, (fill_resizable t hp hd dp caps i pd).length = caps.length := by
  induction caps with
  | nil => intro i pd; rfl
  | cons s rest ih => intro i pd; simp [fill_resizable, ih]

/-- The view record the loop of the constructor from `sizes` and `capacities`
constructs for the entry `k`. -/
theorem fill_resizable_get (t : type_sizes) (hp hd dp : Nat) (caps : List Nat) :
    ∀ i pd k, k < caps.length →
      (fill_resizable t hp hd dp caps i pd)[k]? =
        some (hp + (i + k) * t.sizeof_value_type,
          vector_view.resizable (to_size_type t (caps.getD k 0))
            (hd + (i + k) * t.sizeof_size_type)
            ((dp + (pd + (caps.take k).sum) * t.sizeof_TYPE) % 2 ^ 64)) := by
  induction caps with
  | nil => intro i pd k hk; simp at hk
  | cons c rest ih =>
    intro i pd k hk
    cases k with
    | zero => simp [fill_resizable]
    | succ k =>
      simp only [List.length_cons, Nat.add_lt_add_iff_right] at hk
      simp only [fill_resizable, List.getElem?_cons_succ, List.take_succ_cons, List.sum_cons,
        List.getD_cons_succ]
      rw [ih (i + 1) _ k hk]
      have h1 : i + 1 + k = i + (k + 1) := by omega
      have h2 : (dp + ((pd + c) % 2 ^ 64 + (List.take k rest).sum) * t.sizeof_TYPE) % 2 ^ 64 =
          (dp + (pd + (c + (List.take k rest).sum)) * t.sizeof_TYPE) % 2 ^ 64 := by
        have e1 : (pd + c) % 2 ^ 64 + (List.take k rest).sum
            = (pd + (c + (List.take k rest).sum)) - 2 ^ 64 * ((pd + c) / 2 ^ 64) := by
          have := Nat.div_add_mod (pd + c) (2 ^ 64)
          omega
        have e2 : 2 ^ 64 * ((pd + c) / 2 ^ 64) ≤ pd + (c + (List.take k rest).sum) := by
          have := Nat.div_add_mod (pd + c) (2 ^ 64)
          omega
        rw [e1, Nat.sub_mul]
        have e3 : 2 ^ 64 * ((pd + c) / 2 ^ 64) * t.sizeof_TYPE
            ≤ (pd + (c + (List.take k rest).sum)) * t.sizeof_TYPE :=
          Nat.mul_le_mul_right _ e2
        have e4 : dp + ((pd + (c + (List.take k rest).sum)) * t.sizeof_TYPE
              - 2 ^ 64 * ((pd + c) / 2 ^ 64) * t.sizeof_TYPE)
            + 2 ^ 64 * (((pd + c) / 2 ^ 64) * t.sizeof_TYPE)
            = dp + (pd + (c + (List.take k rest).sum)) * t.sizeof_TYPE := by
          rw [← Nat.mul_assoc]; omega
        rw [← e4, Nat.add_mul_mod_self_left]
      rw [h1, h2]
/-- The addresses the loop of the constructor from `sizes` constructs the
view records at. -/
theorem fill_fixed_addresses (t : type_sizes) (hp inner : Nat) (sizes : List Nat) :
    ∀ i pd, (fill_fixed t hp inner sizes i pd).map Prod.fst =
      (List.range' i sizes.length).map (fun j => hp + j * t.sizeof_value_type) := by
  induction sizes with
  | nil => intro i pd; rfl
  | cons s rest ih => intro i pd; simp [fill_fixed, ih, List.range']

/-- The addresses the loop of the constructor from `sizes` and `capacities`
constructs the view records at. -/
theorem fill_resizable_addresses (t : type_sizes) (hp hd dp : Nat) (caps : List Nat) :
    ∀ i pd, (fill_resizable t hp hd dp caps i pd).map Prod.fst =
      (List.range' i caps.length).map (fun j => hp + j * t.sizeof_value_type) := by
  induction caps with
  | nil => intro i pd; rfl
  | cons s rest ih => intro i pd; simp [fill_resizable, ih, List.range']

/-- The sum of the first entries of a list of numbers is at most the sum of
the list. -/
theorem sum_take_le (xs : List Nat) (k : Nat) : (xs.take k).sum ≤ xs.sum := by
  have := List.sum_take_add_sum_drop xs k
  omega

/-- The sum of the first `k + 1` entries. -/
theorem sum_take_succ_getD (xs : List Nat) :
    ∀ k, k < xs.length → (xs.take (k + 1)).sum = (xs.take k).sum + xs.getD k 0 := by
  induction xs with
  | nil => intro k hk; simp at hk
  | cons x rest ih =>
    intro k hk
    cases k with
    | zero => simp
    | succ k =>
      simp only [List.length_cons, Nat.add_lt_add_iff_right] at hk
      simp only [List.take_succ_cons, List.sum_cons, List.getD_cons_succ]
      rw [ih k hk]
      omega

/-- The constructor from `sizes` without host-access resource, when the
allocations do not throw: one outer array, from `resource`. -/
theorem create_without_host_access (t : type_sizes) (sizes : List Nat) (resource : Nat)
    (outer : Option Nat) (ph pi : Nat) (hne : sizes ≠ []) :
    jagged_vector_buffer.create t sizes resource none outer (some ph) (some pi) =
      .ok (⟨sizes.length, ph, none, some ⟨ph, sizes.length, resource⟩,
          ⟨pi, (sizes.sum * t.sizeof_TYPE) % 2 ^ 64, resource⟩⟩,
        fill_fixed t ph pi sizes 0 0) := by
  have hl : sizes.length ≠ 0 := by
    intro h; exact hne (List.length_eq_zero.mp h)
  have hm : (accumulate sizes * t.sizeof_TYPE) % 2 ^ 64 = (sizes.sum * t.sizeof_TYPE) % 2 ^ 64 := by
    rw [accumulate_eq, Nat.mod_mul_mod]
  simp only [jagged_vector_buffer.create, allocate_jagged_buffer_outer_memory,
    make_unique_alloc, if_neg hl, hm]
  rfl

/-- The constructor from `sizes` with a host-access resource, when the
allocations do not throw: two outer arrays, one from each resource. -/
theorem create_with_host_access (t : type_sizes) (sizes : List Nat) (resource host : Nat)
    (po ph pi : Nat) (hne : sizes ≠ []) :
    jagged_vector_buffer.create t sizes resource (some host) (some po) (some ph) (some pi) =
      .ok (⟨sizes.length, po, some ⟨po, sizes.length, resource⟩,
          some ⟨ph, sizes.length, host⟩,
          ⟨pi, (sizes.sum * t.sizeof_TYPE) % 2 ^ 64, resource⟩⟩,
        fill_fixed t ph pi sizes 0 0) := by
  have hl : sizes.length ≠ 0 := by
    intro h; exact hne (List.length_eq_zero.mp h)
  have hm : (accumulate sizes * t.sizeof_TYPE) % 2 ^ 64 = (sizes.sum * t.sizeof_TYPE) % 2 ^ 64 := by
    rw [accumulate_eq, Nat.mod_mul_mod]
  simp only [jagged_vector_buffer.create, allocate_jagged_buffer_outer_memory,
    make_unique_alloc, if_neg hl, hm]
  rfl

/-- The constructor from `sizes`, when the allocations do not throw: the
inner allocation and the view records. -/
theorem create_inner (t : type_sizes) (sizes : List Nat) (resource : Nat)
    (host : Option Nat) (po ph pi : Nat) :
    ∃ b, jagged_vector_buffer.create t sizes resource host (some po) (some ph) (some pi) =
        .ok (b, fill_fixed t b.host_ptr pi sizes 0 0) ∧
      b.m_size = sizes.length ∧
      b.m_inner_memory = ⟨pi, (sizes.sum * t.sizeof_TYPE) % 2 ^ 64, resource⟩ := by
  by_cases hne : sizes = []
  · subst hne
    cases host <;> exact ⟨_, rfl, rfl, rfl⟩
  · cases host with
    | none => exact ⟨_, create_without_host_access t sizes resource (some po) ph pi hne, rfl, rfl⟩
    | some h => exact ⟨_, create_with_host_access t sizes resource h po ph pi hne, rfl, rfl⟩
/-- The constructor from `sizes` and `capacities` without host-access
resource, when the allocations do not throw. -/
theorem create_resizable_without_host_access (t : type_sizes) (sizes capacities : List Nat)
    (resource : Nat) (outer : Option Nat) (ph pi : Nat) (hne : sizes ≠ [])
    (hlen : sizes.length = capacities.length) :
    jagged_vector_buffer.create_resizable t sizes capacities resource none outer
        (some ph) (some pi) =
      .ok (⟨sizes.length, ph, none, some ⟨ph, sizes.length, resource⟩,
          ⟨pi, align_up (capacities.length * t.sizeof_size_type) t.alignof_TYPE
              + capacities.sum % 2 ^ 64 * t.sizeof_TYPE, resource⟩⟩,
        fill_resizable t ph pi
          (pi + align_up (capacities.length * t.sizeof_size_type) t.alignof_TYPE)
          capacities 0 0) := by
  have hl : sizes.length ≠ 0 := by
    intro h; exact hne (List.length_eq_zero.mp h)
  simp only [jagged_vector_buffer.create_resizable, allocate_jagged_buffer_outer_memory,
    make_unique_alloc, aligned_multiple_placement, if_neg hl, accumulate_eq]
  simp only [Except.map, bind, Except.bind, hlen, ne_eq, not_true_eq_false, if_false]
  rfl

/-- The constructor from `sizes` and `capacities` with a host-access
resource, when the allocations do not throw. -/
theorem create_resizable_with_host_access (t : type_sizes) (sizes capacities : List Nat)
    (resource host : Nat) (po ph pi : Nat) (hne : sizes ≠ [])
    (hlen : sizes.length = capacities.length) :
    jagged_vector_buffer.create_resizable t sizes capacities resource (some host) (some po)
        (some ph) (some pi) =
      .ok (⟨sizes.length, po, some ⟨po, sizes.length, resource⟩,
          some ⟨ph, sizes.length, host⟩,
          ⟨pi, align_up (capacities.length * t.sizeof_size_type) t.alignof_TYPE
              + capacities.sum % 2 ^ 64 * t.sizeof_TYPE, resource⟩⟩,
        fill_resizable t ph pi
          (pi + align_up (capacities.length * t.sizeof_size_type) t.alignof_TYPE)
          capacities 0 0) := by
  have hl : sizes.length ≠ 0 := by
    intro h; exact hne (List.length_eq_zero.mp h)
  simp only [jagged_vector_buffer.create_resizable, allocate_jagged_buffer_outer_memory,
    make_unique_alloc, aligned_multiple_placement, if_neg hl, accumulate_eq]
  simp only [Except.map, bind, Except.bind, hlen, ne_eq, not_true_eq_false, if_false]
  rfl

/-- The constructor from `sizes` and `capacities`, when the two vectors have
the same length and the allocations do not throw: the inner allocation and
the view records. -/
theorem create_resizable_inner (t : type_sizes) (sizes capacities : List Nat)
    (resource : Nat) (host : Option Nat) (po ph pi : Nat)
    (hlen : sizes.length = capacities.length) :
    ∃ b, jagged_vector_buffer.create_resizable t sizes capacities resource host (some po)
          (some ph) (some pi) =
        .ok (b, fill_resizable t b.host_ptr pi
          (pi + align_up (capacities.length * t.sizeof_size_type) t.alignof_TYPE)
          capacities 0 0) ∧
      b.m_size = sizes.length ∧
      b.m_inner_memory =
        ⟨pi, align_up (capacities.length * t.sizeof_size_type) t.alignof_TYPE
              + capacities.sum % 2 ^ 64 * t.sizeof_TYPE, resource⟩ := by
  by_cases hne : sizes = []
  · subst hne
    have hc : capacities = [] := List.length_eq_zero.mp hlen.symm
    subst hc
    cases host <;> exact ⟨_, rfl, rfl, rfl⟩
  · cases host with
    | none =>
      exact ⟨_, create_resizable_without_host_access t sizes capacities resource (some po) ph pi
        hne hlen, rfl, rfl⟩
    | some h =>
      exact ⟨_, create_resizable_with_host_access t sizes capacities resource h po ph pi
        hne hlen, rfl, rfl⟩
/-- C25 (counterexample): the views of a buffer of two vectors of `2 ^ 62`
elements of 4 bytes overlap.  Each product `sizes[i] * sizeof(TYPE)` is
`2 ^ 64`, which is 0 in `std::size_t`: the inner allocation has 0 bytes and
both views start at the address `8192` of the inner allocation, with the
capacity `2 ^ 62` each, so `view[0].ptr + capacities[0]` is not
`view[1].ptr`. -/
theorem C25_views_overlap_when_the_byte_count_wraps :
    jagged_vector_buffer.create ⟨4, 4, 8, 24⟩ [2 ^ 62, 2 ^ 62] 0 none none
        (some 4096) (some 8192) =
      .ok (⟨2, 4096, none, some ⟨4096, 2, 0⟩, ⟨8192, 0, 0⟩⟩,
        [(4096, ⟨2 ^ 62, 0, 8192⟩), (4096 + 24, ⟨2 ^ 62, 0, 8192⟩)]) ∧
    8192 + 2 ^ 62 * 4 ≠ 8192 := by
  decide

/-- C25: contiguity of the views of a jagged buffer whose payload ends below
`2 ^ 64`.  For the constructor from `sizes` (capacities equal to sizes), and
for the constructor from `sizes` and `capacities` of equal length, when the
payload of the sum of the capacities, at the address the allocation returned,
ends below `2 ^ 64`: the payload pointer of view 0 is the start of the payload
array; the payload pointer of view `i` moved by `capacities[i]` elements is
the payload pointer of view `i + 1`; and the payload pointer of the last view
moved by its capacity is the end of the inner allocation, which holds the sum
of the capacities in elements. -/
theorem C25_views_tile_the_payload
    (t : type_sizes) (sizes capacities : List Nat) (resource : Nat) (host : Option Nat)
    (p_outer p_host p_inner : Nat) :
    (p_inner + sizes.sum * t.sizeof_TYPE < 2 ^ 64 →
      ∃ b w, jagged_vector_buffer.create t sizes resource host (some p_outer) (some p_host)
            (some p_inner) = .ok (b, w) ∧
        w.length = sizes.length ∧
        b.m_inner_memory.m_ptr = p_inner ∧
        b.m_inner_memory.m_count = sizes.sum * t.sizeof_TYPE ∧
        ∀ i, i < sizes.length → ∃ x, w[i]? = some x ∧
          (i = 0 → x.2.m_ptr = p_inner) ∧
          (i + 1 < sizes.length → ∃ y, w[i + 1]? = some y ∧
            x.2.m_ptr + sizes.getD i 0 * t.sizeof_TYPE = y.2.m_ptr) ∧
          (i + 1 = sizes.length →
            x.2.m_ptr + sizes.getD i 0 * t.sizeof_TYPE =
              p_inner + b.m_inner_memory.m_count)) ∧
    (sizes.length = capacities.length → 0 < t.sizeof_TYPE →
      p_inner + align_up (capacities.length * t.sizeof_size_type) t.alignof_TYPE
        + capacities.sum * t.sizeof_TYPE < 2 ^ 64 →
      ∃ b w, jagged_vector_buffer.create_resizable t sizes capacities resource host
            (some p_outer) (some p_host) (some p_inner) = .ok (b, w) ∧
        w.length = capacities.length ∧
        b.m_inner_memory.m_ptr = p_inner ∧
        b.m_inner_memory.m_count =
          align_up (capacities.length * t.sizeof_size_type) t.alignof_TYPE
            + capacities.sum * t.sizeof_TYPE ∧
        ∀ i, i < capacities.length → ∃ x, w[i]? = some x ∧
          (i = 0 → x.2.m_ptr =
            p_inner + align_up (capacities.length * t.sizeof_size_type) t.alignof_TYPE) ∧
          (i + 1 < capacities.length → ∃ y, w[i + 1]? = some y ∧
            x.2.m_ptr + capacities.getD i 0 * t.sizeof_TYPE = y.2.m_ptr) ∧
          (i + 1 = capacities.length →
            x.2.m_ptr + capacities.getD i 0 * t.sizeof_TYPE =
              p_inner + b.m_inner_memory.m_count)) := by
  constructor
  · intro hsum
    obtain ⟨b, hb, _, hi⟩ := create_inner t sizes resource host p_outer p_host p_inner
    have hm : (sizes.sum * t.sizeof_TYPE) % 2 ^ 64 = sizes.sum * t.sizeof_TYPE :=
      Nat.mod_eq_of_lt (by omega)
    rw [hm] at hi
    have hptr : ∀ k, k ≤ sizes.length →
        (p_inner + 0 + (sizes.take k).sum * t.sizeof_TYPE) % 2 ^ 64 =
          p_inner + (sizes.take k).sum * t.sizeof_TYPE := by
      intro k _
      have := Nat.mul_le_mul_right t.sizeof_TYPE (sum_take_le sizes k)
      rw [Nat.add_zero]
      exact Nat.mod_eq_of_lt (by omega)
    refine ⟨b, _, hb, fill_fixed_length _ _ _ _ _ _, by rw [hi], by rw [hi], ?_⟩
    intro i hi1
    refine ⟨_, fill_fixed_get t _ p_inner sizes 0 0 i hi1, ?_, ?_, ?_⟩
    · intro h0
      subst h0
      simp [vector_view.fixed]
      omega
    · intro h1
      refine ⟨_, fill_fixed_get t _ p_inner sizes 0 0 (i + 1) h1, ?_⟩
      simp only [vector_view.fixed]
      rw [hptr i (by omega), hptr (i + 1) (by omega), sum_take_succ_getD sizes i hi1,
        Nat.add_mul]
      omega
    · intro h1
      simp only [vector_view.fixed]
      have hc : b.m_inner_memory.m_count = sizes.sum * t.sizeof_TYPE := by rw [hi]
      rw [hptr i (by omega), hc]
      have : (sizes.take (i + 1)).sum = sizes.sum := by
        rw [h1, List.take_length]
      rw [sum_take_succ_getD sizes i hi1] at this
      rw [← this, Nat.add_mul]
      omega
  · intro hlen hT hsum
    obtain ⟨b, hb, _, hi⟩ :=
      create_resizable_inner t sizes capacities resource host p_outer p_host p_inner hlen
    have hle : capacities.sum ≤ capacities.sum * t.sizeof_TYPE :=
      Nat.le_mul_of_pos_right _ hT
    have hm : capacities.sum % 2 ^ 64 = capacities.sum := Nat.mod_eq_of_lt (by omega)
    rw [hm] at hi
    have hptr : ∀ k, k ≤ capacities.length →
        (p_inner + align_up (capacities.length * t.sizeof_size_type) t.alignof_TYPE
            + (0 + (capacities.take k).sum) * t.sizeof_TYPE) % 2 ^ 64 =
          p_inner + align_up (capacities.length * t.sizeof_size_type) t.alignof_TYPE
            + (capacities.take k).sum * t.sizeof_TYPE := by
      intro k _
      have := Nat.mul_le_mul_right t.sizeof_TYPE (sum_take_le capacities k)
      rw [Nat.zero_add]
      exact Nat.mod_eq_of_lt (by omega)
    refine ⟨b, _, hb, fill_resizable_length _ _ _ _ _ _ _, by rw [hi], by rw [hi], ?_⟩
    intro i hi1
    refine ⟨_, fill_resizable_get t _ p_inner _ capacities 0 0 i hi1, ?_, ?_, ?_⟩
    · intro h0
      subst h0
      simp [vector_view.resizable]
      have := hptr 0 (by omega)
      simp at this
      omega
    · intro h1
      refine ⟨_, fill_resizable_get t _ p_inner _ capacities 0 0 (i + 1) h1, ?_⟩
      simp only [vector_view.resizable]
      rw [hptr i (by omega), hptr (i + 1) (by omega), sum_take_succ_getD capacities i hi1,
        Nat.add_mul]
      omega
    · intro h1
      simp only [vector_view.resizable]
      have hc : b.m_inner_memory.m_count =
          align_up (capacities.length * t.sizeof_size_type) t.alignof_TYPE
            + capacities.sum * t.sizeof_TYPE := by rw [hi]
      rw [hptr i (by omega), hc]
      have : (capacities.take (i + 1)).sum = capacities.sum := by
        rw [h1, List.take_length]
      rw [sum_take_succ_getD capacities i hi1] at this
      rw [← this, Nat.add_mul]
      omega
/-- C25 (witness): the buffer of `int` with `sizes = [5, 2, 4, 7, 0, 2]`, its
outer array at `4096` and its inner allocation at `8192`, and the resizable
buffer with the capacities `[0, 16, 10, 15, 8, 3, 0, 0, 55, 2]`. -/
theorem C25_views_tile_the_payload_witness :
    (8192 + [5, 2, 4, 7, 0, 2].sum * 4 < 2 ^ 64 ∧
      ∃ b w, jagged_vector_buffer.create ⟨4, 4, 4, 24⟩ [5, 2, 4, 7, 0, 2] 0 none (some 0)
            (some 4096) (some 8192) = .ok (b, w) ∧
        w.length = 6 ∧ b.m_inner_memory.m_ptr = 8192 ∧ b.m_inner_memory.m_count = 80) ∧
    (8192 + align_up (10 * 4) 4 + [0, 16, 10, 15, 8, 3, 0, 0, 55, 2].sum * 4 < 2 ^ 64 ∧
      ∃ b w, jagged_vector_buffer.create_resizable ⟨4, 4, 4, 24⟩ [0, 0, 0, 0, 0, 0, 0, 0, 0, 0]
            [0, 16, 10, 15, 8, 3, 0, 0, 55, 2] 0 none (some 0) (some 4096) (some 8192) =
          .ok (b, w) ∧
        w.length = 10 ∧ b.m_inner_memory.m_ptr = 8192 ∧ b.m_inner_memory.m_count = 476) :=
  ⟨⟨by decide,
    let ⟨b, w, h1, h2, h3, h4, _⟩ :=
      (C25_views_tile_the_payload ⟨4, 4, 4, 24⟩ [5, 2, 4, 7, 0, 2]
        [0, 16, 10, 15, 8, 3, 0, 0, 55, 2] 0 none 0 4096 8192).1 (by decide)
    ⟨b, w, h1, h2, h3, h4⟩⟩,
   ⟨by decide,
    let ⟨b, w, h1, h2, h3, h4, _⟩ :=
      (C25_views_tile_the_payload ⟨4, 4, 4, 24⟩ [0, 0, 0, 0, 0, 0, 0, 0, 0, 0]
        [0, 16, 10, 15, 8, 3, 0, 0, 55, 2] 0 none 0 4096 8192).2 (by decide) (by decide)
        (by decide)
    ⟨b, w, h1, h2, h3, h4⟩⟩⟩

/-- C26 (counterexample): for one vector of `2 ^ 62` elements of 4 bytes the
inner allocation has 0 bytes, the product of the sum of the sizes and
`sizeof(TYPE)` being `2 ^ 64`; the view reports the size `2 ^ 62`. -/
theorem C26_inner_allocation_wraps :
    (jagged_vector_buffer.create ⟨4, 4, 8, 24⟩ [2 ^ 62] 0 none none
        (some 4096) (some 8192)).toOption.map
      (fun r => (r.1.m_size, r.1.m_inner_memory, r.2.map (fun x => x.2.size (fun _ => 0)))) =
      some (1, ⟨8192, 0, 0⟩, [2 ^ 62]) ∧
    [2 ^ 62].sum * 4 = 2 ^ 64 := by
  decide

/-- C26: the views of a buffer of fixed sizes.  For every list `sizes` whose
entries are values of the size type of the views and whose payload of
`sum(sizes) * sizeof(TYPE)` bytes, at the address the inner allocation
returned, ends below `2 ^ 64`: `m_size` is the length of `sizes`, the inner
allocation has `sum(sizes) * sizeof(TYPE)` bytes, and the view record `i`,
constructed at `host_ptr() + i`, reports the size `sizes[i]` and has the
payload pointer `base + (sizes[0] + ... + sizes[i - 1]) * sizeof(TYPE)`.  The
constructor from a jagged view whose element `i` has the size `sizes[i]` is
the constructor from `sizes`. -/
theorem C26_fixed_jagged_buffer_views
    (t : type_sizes) (sizes : List Nat) (resource : Nat) (host : Option Nat)
    (p_outer p_host p_inner : Nat) (heap : Nat → Nat)
    (hfit : ∀ s ∈ sizes, s < 2 ^ (8 * t.sizeof_size_type))
    (hsum : p_inner + sizes.sum * t.sizeof_TYPE < 2 ^ 64) :
    (∃ b w, jagged_vector_buffer.create t sizes resource host (some p_outer) (some p_host)
          (some p_inner) = .ok (b, w) ∧
      b.m_size = sizes.length ∧
      b.m_inner_memory = ⟨p_inner, sizes.sum * t.sizeof_TYPE, resource⟩ ∧
      w.length = sizes.length ∧
      ∀ i, i < sizes.length → ∃ v, w[i]? = some (b.host_ptr + i * t.sizeof_value_type, v) ∧
        v.size heap = sizes.getD i 0 ∧
        v.m_ptr = p_inner + (sizes.take i).sum * t.sizeof_TYPE) ∧
    (∀ (views : Nat → vector_view) (other : jagged_vector_view),
      other.m_size = sizes.length →
      (∀ i, i < sizes.length →
        (views (other.m_ptr + i * t.sizeof_value_type)).size heap = sizes.getD i 0) →
      jagged_vector_buffer.create_from_view t views heap other resource host (some p_outer)
          (some p_host) (some p_inner) =
        jagged_vector_buffer.create t sizes resource host (some p_outer) (some p_host)
          (some p_inner)) := by
  constructor
  · obtain ⟨b, hb, hs, hi⟩ := create_inner t sizes resource host p_outer p_host p_inner
    have hm : (sizes.sum * t.sizeof_TYPE) % 2 ^ 64 = sizes.sum * t.sizeof_TYPE :=
      Nat.mod_eq_of_lt (by omega)
    rw [hm] at hi
    refine ⟨b, _, hb, hs, hi, fill_fixed_length _ _ _ _ _ _, ?_⟩
    intro i hi1
    have hg := fill_fixed_get t b.host_ptr p_inner sizes 0 0 i hi1
    rw [Nat.zero_add] at hg
    refine ⟨_, hg, ?_, ?_⟩
    · have hmem : sizes.getD i 0 ∈ sizes := by
        rw [List.getD_eq_getElem _ _ hi1]
        exact List.getElem_mem hi1
      simp only [vector_view.size, vector_view.fixed, if_true, to_size_type]
      exact Nat.mod_eq_of_lt (hfit _ hmem)
    · have := Nat.mul_le_mul_right t.sizeof_TYPE (sum_take_le sizes i)
      simp only [vector_view.fixed, Nat.add_zero]
      exact Nat.mod_eq_of_lt (by omega)
  · intro views other hn hv
    have : get_sizes t views heap other = sizes := by
      apply List.ext_getElem
      · simp [get_sizes, hn]
      · intro i h1 h2
        simp only [get_sizes, List.getElem_map, List.getElem_range]
        rw [hv i h2, List.getD_eq_getElem _ _ h2]
    unfold jagged_vector_buffer.create_from_view
    rw [this]
/-- C26 (witness): the buffer of `int` with `sizes = [5, 2, 4, 7, 0, 2]`,
whose inner allocation of 80 bytes is at `8192`. -/
theorem C26_fixed_jagged_buffer_witness :
    (∀ s ∈ [5, 2, 4, 7, 0, 2], s < 2 ^ (8 * 4)) ∧
    8192 + [5, 2, 4, 7, 0, 2].sum * 4 < 2 ^ 64 ∧
    ∃ b w, jagged_vector_buffer.create ⟨4, 4, 4, 24⟩ [5, 2, 4, 7, 0, 2] 0 none (some 0)
          (some 4096) (some 8192) = .ok (b, w) ∧
      b.m_size = 6 ∧ b.m_inner_memory = ⟨8192, 80, 0⟩ ∧ w.length = 6 :=
  ⟨by decide, by decide,
    let ⟨b, w, h1, h2, h3, h4, _⟩ :=
      (C26_fixed_jagged_buffer_views ⟨4, 4, 4, 24⟩ [5, 2, 4, 7, 0, 2] 0 none 0 4096 8192
        (fun _ => 0) (by decide) (by decide)).1
    ⟨b, w, h1, h2, h3, h4⟩⟩

/-- C27 (counterexample): when the primary resource and the host-access
resource both answer the address `4096`, as resources of two address spaces
may, the buffer with `sizes = [5, 2, 4, 7, 0, 2]` has two outer arrays of 6
records, one from each resource, and `m_ptr` is `host_ptr()`, both `4096`. -/
theorem C27_equal_addresses_from_two_resources :
    (jagged_vector_buffer.create ⟨4, 4, 4, 24⟩ [5, 2, 4, 7, 0, 2] 0 (some 1)
        (some 4096) (some 4096) (some 8192)).toOption.map
      (fun r => (r.1.m_outer_memory, r.1.m_outer_host_memory, r.1.m_ptr, r.1.host_ptr,
        decide (r.1.m_ptr = r.1.host_ptr))) =
    some (some ⟨4096, 6, 0⟩, some ⟨4096, 6, 1⟩, 4096, 4096, true) := by
  decide

/-- C27: the outer arrays of a jagged buffer.  For every non-empty `sizes`
(and `capacities` of the same length, for the second constructor), when the
allocations do not throw: without host-access resource `m_outer_memory` is
null, `m_outer_host_memory` is one array of `N` view records from `resource`,
and `m_ptr` is `host_ptr()`; with a host-access resource `m_outer_memory` is
an array of `N` records from `resource`, `m_outer_host_memory` an array of `N`
records from the host-access resource, `m_ptr` is the address of the first
and `host_ptr()` the address of the second, so they differ exactly when the
two resources returned different addresses, as they do when the two arrays do
not overlap; in both cases the view records are constructed at
`host_ptr() + i` for `i < N`. -/
theorem C27_outer_arrays_of_a_jagged_buffer
    (t : type_sizes) (sizes capacities : List Nat) (resource host : Nat) (outer : Option Nat)
    (p_outer p_host p_inner : Nat) (hne : sizes ≠ []) :
    (∃ b w, jagged_vector_buffer.create t sizes resource none outer (some p_host)
          (some p_inner) = .ok (b, w) ∧
      b.m_outer_memory = none ∧
      b.m_outer_host_memory = some ⟨p_host, sizes.length, resource⟩ ∧
      b.m_ptr = b.host_ptr ∧ b.host_ptr = p_host ∧
      w.map Prod.fst =
        (List.range sizes.length).map (fun i => b.host_ptr + i * t.sizeof_value_type)) ∧
    (∃ b w, jagged_vector_buffer.create t sizes resource (some host) (some p_outer)
          (some p_host) (some p_inner) = .ok (b, w) ∧
      b.m_outer_memory = some ⟨p_outer, sizes.length, resource⟩ ∧
      b.m_outer_host_memory = some ⟨p_host, sizes.length, host⟩ ∧
      b.m_ptr = p_outer ∧ b.host_ptr = p_host ∧
      (b.m_ptr ≠ b.host_ptr ↔ p_outer ≠ p_host) ∧
      (0 < t.sizeof_value_type →
        (p_outer + sizes.length * t.sizeof_value_type ≤ p_host ∨
          p_host + sizes.length * t.sizeof_value_type ≤ p_outer) →
        b.m_ptr ≠ b.host_ptr) ∧
      w.map Prod.fst =
        (List.range sizes.length).map (fun i => b.host_ptr + i * t.sizeof_value_type)) ∧
    (sizes.length = capacities.length →
      (∃ b w, jagged_vector_buffer.create_resizable t sizes capacities resource none outer
            (some p_host) (some p_inner) = .ok (b, w) ∧
        b.m_outer_memory = none ∧
        b.m_outer_host_memory = some ⟨p_host, sizes.length, resource⟩ ∧
        b.m_ptr = b.host_ptr ∧ b.host_ptr = p_host ∧
        w.map Prod.fst =
          (List.range sizes.length).map (fun i => b.host_ptr + i * t.sizeof_value_type)) ∧
      (∃ b w, jagged_vector_buffer.create_resizable t sizes capacities resource (some host)
            (some p_outer) (some p_host) (some p_inner) = .ok (b, w) ∧
        b.m_outer_memory = some ⟨p_outer, sizes.length, resource⟩ ∧
        b.m_outer_host_memory = some ⟨p_host, sizes.length, host⟩ ∧
        b.m_ptr = p_outer ∧ b.host_ptr = p_host ∧
        (b.m_ptr ≠ b.host_ptr ↔ p_outer ≠ p_host) ∧
        (0 < t.sizeof_value_type →
          (p_outer + sizes.length * t.sizeof_value_type ≤ p_host ∨
            p_host + sizes.length * t.sizeof_value_type ≤ p_outer) →
          b.m_ptr ≠ b.host_ptr) ∧
        w.map Prod.fst =
          (List.range sizes.length).map (fun i => b.host_ptr + i * t.sizeof_value_type))) := by
  have hl : 0 < sizes.length := List.length_pos.mpr hne
  have hmul : ∀ sv, 0 < sv → 0 < sizes.length * sv := fun sv h => Nat.mul_pos hl h
  have hdiff : 0 < t.sizeof_value_type →
      (p_outer + sizes.length * t.sizeof_value_type ≤ p_host ∨
        p_host + sizes.length * t.sizeof_value_type ≤ p_outer) → p_outer ≠ p_host := by
    intro h1 h2
    have := hmul _ h1
    omega
  refine ⟨⟨_, _, create_without_host_access t sizes resource outer p_host p_inner hne,
      rfl, rfl, rfl, rfl, ?_⟩,
    ⟨_, _, create_with_host_access t sizes resource host p_outer p_host p_inner hne,
      rfl, rfl, rfl, rfl, Iff.rfl, hdiff, ?_⟩, ?_⟩
  · rw [fill_fixed_addresses, List.range_eq_range']
    rfl
  · rw [fill_fixed_addresses, List.range_eq_range']
    rfl
  · intro hlen
    refine ⟨⟨_, _, create_resizable_without_host_access t sizes capacities resource outer
        p_host p_inner hne hlen, rfl, rfl, rfl, rfl, ?_⟩,
      ⟨_, _, create_resizable_with_host_access t sizes capacities resource host p_outer
        p_host p_inner hne hlen, rfl, rfl, rfl, rfl, Iff.rfl, hdiff, ?_⟩⟩
    · rw [fill_resizable_addresses, List.range_eq_range', hlen]
      rfl
    · rw [fill_resizable_addresses, List.range_eq_range', hlen]
      rfl

/-- C27 (witness): the buffers of `int` with `sizes = [5, 2, 4, 7, 0, 2]`,
without host-access resource, with the outer array at `4096`, and with the
host-access resource 1, with the outer arrays at `2048` and `4096`. -/
theorem C27_outer_arrays_witness :
    ([5, 2, 4, 7, 0, 2] : List Nat) ≠ [] ∧
    (∃ b w, jagged_vector_buffer.create ⟨4, 4, 4, 24⟩ [5, 2, 4, 7, 0, 2] 0 none none
          (some 4096) (some 8192) = .ok (b, w) ∧
      b.m_outer_memory = none ∧ b.m_outer_host_memory = some ⟨4096, 6, 0⟩ ∧
      b.m_ptr = b.host_ptr) ∧
    (∃ b w, jagged_vector_buffer.create ⟨4, 4, 4, 24⟩ [5, 2, 4, 7, 0, 2] 0 (some 1)
          (some 2048) (some 4096) (some 8192) = .ok (b, w) ∧
      b.m_outer_memory = some ⟨2048, 6, 0⟩ ∧ b.m_outer_host_memory = some ⟨4096, 6, 1⟩ ∧
      b.m_ptr ≠ b.host_ptr) :=
  ⟨by decide,
    let ⟨b, w, h1, h2, h3, h4, _⟩ :=
      (C27_outer_arrays_of_a_jagged_buffer ⟨4, 4, 4, 24⟩ [5, 2, 4, 7, 0, 2] [] 0 1 none
        2048 4096 8192 (by decide)).1
    ⟨b, w, h1, h2, h3, h4⟩,
    let ⟨b, w, h1, h2, h3, _, _, h6, _⟩ :=
      (C27_outer_arrays_of_a_jagged_buffer ⟨4, 4, 4, 24⟩ [5, 2, 4, 7, 0, 2] [] 0 1 none
        2048 4096 8192 (by decide)).2.1
    ⟨b, w, h1, h2, h3, h6.mpr (by decide)⟩⟩

/-- C28 (counterexample): for the capacities `[2 ^ 63, 2 ^ 63]` of elements of
one byte the sum computed is 0, so the placement is that of two headers and
no element, an allocation of 16 bytes, while the placement of two headers
and `2 ^ 64` elements has `16 + 2 ^ 64` bytes; both views have the capacity
`2 ^ 63`. -/
theorem C28_sum_of_capacities_wraps :
    (jagged_vector_buffer.create_resizable ⟨1, 1, 8, 24⟩ [0, 0] [2 ^ 63, 2 ^ 63] 0 none none
        (some 4096) (some 8192)).toOption.map
      (fun r => (r.1.m_inner_memory, r.2.map (fun x => x.2.capacity))) =
      some (⟨8192, 16, 0⟩, [2 ^ 63, 2 ^ 63]) ∧
    accumulate [2 ^ 63, 2 ^ 63] = 0 ∧
    aligned_multiple_placement ⟨1, 1, 8, 24⟩ 0 2 0 (some 8192) =
      .ok (⟨8192, 16, 0⟩, 8192, 8208) ∧
    aligned_multiple_placement ⟨1, 1, 8, 24⟩ 0 2 ([2 ^ 63, 2 ^ 63].sum) (some 8192) =
      .ok (⟨8192, 16 + 2 ^ 64, 0⟩, 8192, 8208) := by
  decide

/-- C28: the views of a resizable jagged buffer.  For `sizes` and `capacities`
of the same length `N`, the capacities being values of the size type of the
views and the payload of `sum(capacities)` elements ending below `2 ^ 64`:
the inner allocation, the pointer to the headers and the pointer `data` to
the elements are those of `aligned_multiple_placement(resource, N,
sum(capacities))`; the view record `i`, constructed at `host_ptr() + i`, has
the capacity `capacities[i]`, the pointer to the header `i` as size pointer,
and the payload pointer `data + (capacities[0] + ... + capacities[i - 1])` in
elements. -/
theorem C28_resizable_jagged_buffer_views
    (t : type_sizes) (sizes capacities : List Nat) (resource : Nat) (host : Option Nat)
    (p_outer p_host p_inner : Nat)
    (hlen : sizes.length = capacities.length) (hT : 0 < t.sizeof_TYPE)
    (hfit : ∀ c ∈ capacities, c < 2 ^ (8 * t.sizeof_size_type))
    (hsum : p_inner + align_up (capacities.length * t.sizeof_size_type) t.alignof_TYPE
      + capacities.sum * t.sizeof_TYPE < 2 ^ 64) :
    ∃ b w m header_ptr data_ptr,
      jagged_vector_buffer.create_resizable t sizes capacities resource host (some p_outer)
          (some p_host) (some p_inner) = .ok (b, w) ∧
      aligned_multiple_placement t resource capacities.length capacities.sum (some p_inner) =
        .ok (m, header_ptr, data_ptr) ∧
      b.m_inner_memory = m ∧ w.length = capacities.length ∧
      ∀ i, i < capacities.length →
        ∃ v, w[i]? = some (b.host_ptr + i * t.sizeof_value_type, v) ∧
          v.capacity = capacities.getD i 0 ∧
          v.m_size = header_ptr + i * t.sizeof_size_type ∧
          v.m_ptr = data_ptr + (capacities.take i).sum * t.sizeof_TYPE := by
  obtain ⟨b, hb, _, hi⟩ :=
    create_resizable_inner t sizes capacities resource host p_outer p_host p_inner hlen
  have hle : capacities.sum ≤ capacities.sum * t.sizeof_TYPE :=
    Nat.le_mul_of_pos_right _ hT
  have hm : capacities.sum % 2 ^ 64 = capacities.sum := Nat.mod_eq_of_lt (by omega)
  rw [hm] at hi
  refine ⟨b, _, _, _, _, hb, rfl, hi, fill_resizable_length _ _ _ _ _ _ _, ?_⟩
  intro i hi1
  have hg := fill_resizable_get t b.host_ptr p_inner
    (p_inner + align_up (capacities.length * t.sizeof_size_type) t.alignof_TYPE)
    capacities 0 0 i hi1
  rw [Nat.zero_add, Nat.zero_add] at hg
  refine ⟨_, hg, ?_, rfl, ?_⟩
  · have hmem : capacities.getD i 0 ∈ capacities := by
      rw [List.getD_eq_getElem _ _ hi1]
      exact List.getElem_mem hi1
    simp only [vector_view.capacity, vector_view.resizable, to_size_type]
    exact Nat.mod_eq_of_lt (hfit _ hmem)
  · have := Nat.mul_le_mul_right t.sizeof_TYPE (sum_take_le capacities i)
    simp only [vector_view.resizable]
    exact Nat.mod_eq_of_lt (by omega)

/-- C28 (witness): the resizable buffer of `int` with ten sizes 0 and the
capacities `[0, 16, 10, 15, 8, 3, 0, 0, 55, 2]`, its inner allocation at
`8192`: 40 bytes of headers and 109 elements. -/
theorem C28_resizable_jagged_buffer_witness :
    (∀ c ∈ [0, 16, 10, 15, 8, 3, 0, 0, 55, 2], c < 2 ^ (8 * 4)) ∧
    8192 + align_up (10 * 4) 4 + [0, 16, 10, 15, 8, 3, 0, 0, 55, 2].sum * 4 < 2 ^ 64 ∧
    ∃ b w m header_ptr data_ptr,
      jagged_vector_buffer.create_resizable ⟨4, 4, 4, 24⟩ [0, 0, 0, 0, 0, 0, 0, 0, 0, 0]
          [0, 16, 10, 15, 8, 3, 0, 0, 55, 2] 0 none (some 0) (some 4096) (some 8192) =
        .ok (b, w) ∧
      aligned_multiple_placement ⟨4, 4, 4, 24⟩ 0 10 109 (some 8192) =
        .ok (m, header_ptr, data_ptr) ∧
      b.m_inner_memory = m ∧ w.length = 10 :=
  ⟨by decide, by decide,
    let ⟨b, w, m, hp, dp, h1, h2, h3, h4, _⟩ :=
      C28_resizable_jagged_buffer_views ⟨4, 4, 4, 24⟩ [0, 0, 0, 0, 0, 0, 0, 0, 0, 0]
        [0, 16, 10, 15, 8, 3, 0, 0, 55, 2] 0 none 0 4096 8192 (by decide) (by decide)
        (by decide) (by decide)
    ⟨b, w, m, hp, dp, h1, h2, h3, h4⟩⟩

/-! ## The address and the order of a page -/

/-- The first page of a level, at depth `d` from 1 to 16, gets the address of
the byte `32768` of the superpage: the loop of `get_addr` stops one level
above, so the index is `2 ^ (d - 1)` and the block size `2 ^ (16 - d)`. -/
theorem get_addr_first_of_level (sp : superpage) (d : Nat) (h1 : 1 ≤ d) (h2 : d ≤ 16) :
    get_addr sp (2 ^ d - 1) = sp.m_memory + 32768 := by
  obtain ⟨e, rfl⟩ : ∃ e, d = e + 1 := ⟨d - 1, by omega⟩
  have hpos : 0 < 2 ^ e := Nat.two_pow_pos e
  have hp : 2 ^ (e + 1) = 2 * 2 ^ e := by rw [Nat.pow_succ]; omega
  have hl := get_addr_loop_eq (2 ^ (e + 1) - 1) e (by omega) (by omega) 64 0
    (by omega) (by omega)
  simp only [pow_zero, Nat.sub_self] at hl
  have hs : get_size (2 ^ (e + 1) - 1) = 16 - (e + 1) :=
    get_size_eq _ (e + 1) (by omega) (by rw [Nat.pow_succ 2 (e + 1)]; omega) h2
  unfold get_addr
  rw [hl, hs]
  have hi : 2 ^ (e + 1) - 1 - (2 ^ e - 1) = 2 ^ e := by omega
  rw [hi, Nat.shiftLeft_eq, Nat.one_mul, ← Nat.pow_add]
  have : e + (16 - (e + 1)) = 15 := by omega
  rw [this]
  rfl

/-- C29: `get_addr` does not map the first page of a level to the base of the
superpage.  In a superpage of order 20 at address `1048576`, page 0 has the
address of the base, but its left child, page 1, has the address
`1048576 + 32768`, the same as page 2; pages 3, 7 and 255, the first
pages of their levels, have that address as well, while page 4, the second
page of its level, has the address `1048576 + 16384`. -/
theorem C29_first_page_of_a_level_is_not_at_the_base :
    (superpage.create 20 1048576).m_memory = 1048576 ∧
    get_addr (superpage.create 20 1048576) 0 = 1048576 ∧
    left_child 0 = 1 ∧
    get_addr (superpage.create 20 1048576) 1 = 1048576 + 32768 ∧
    get_addr (superpage.create 20 1048576) 2 = 1048576 + 32768 ∧
    get_addr (superpage.create 20 1048576) 3 = 1048576 + 32768 ∧
    get_addr (superpage.create 20 1048576) 4 = 1048576 + 16384 ∧
    get_addr (superpage.create 20 1048576) 7 = 1048576 + 32768 ∧
    get_addr (superpage.create 20 1048576) 255 = 1048576 + 32768 := by
  decide

/-- C30: `get_size` does not depend on the order of the superpage.  In a
superpage of order 20, with its `8191` pages on the depths 0 to 12, page 0 has
`get_size` 16, page 1 has 15, page 255 (depth 8) has 8 and page 4095
(depth 12) has 4; the walk of `find_free_page` and of `do_deallocate` to the
order 8 ends on page 255, and the pages scanned are those below
`2 * 255 + 1 = 511`, while `2 ^ (20 - 8) - 1` is 4095. -/
theorem C30_get_size_ignores_the_superpage_order :
    (superpage.create 20 1048576).m_size = 20 ∧
    (superpage.create 20 1048576).m_num_pages = 8191 ∧
    get_size 0 = 16 ∧ get_size 1 = 15 ∧ get_size 255 = 8 ∧ get_size 4095 = 4 ∧
    first_page 8 = 255 ∧ 2 * first_page 8 + 1 = 511 ∧
    deallocate_index (superpage.create 20 1048576) 1048576 256 = 255 ∧
    2 ^ (20 - 8) - 1 = 4095 := by
  decide

/-! ## The search, the transitions and the bounds of the state arrays -/

/-- C31: the search does not follow the order of the pages.
(1) With the order of the specification, the order of the superpage less the
depth of the page: after `allocate(100)` on a fresh resource page 2 of the
superpage of order 20 is `VACANT` at depth 1, a page of order 19, yet
`find_free_page(17)` returns nothing.
(2) With `get_size` as the order: on a fresh superpage of order 20
`find_free_page(17)` returns page 0, whose `get_size` is 16. -/
theorem C31_search_does_not_follow_the_order_of_the_pages :
    (after_allocate_100.map (fun sp => sp.m_size) = [20] ∧
      state_at after_allocate_100 0 2 = some page_state.VACANT ∧ at_depth 2 1 ∧
      find_free_page after_allocate_100 17 = none) ∧
    (find_free_page [superpage.create 20 1048576] 17 = some ⟨0, 0⟩ ∧
      state_at [superpage.create 20 1048576] 0 0 = some page_state.VACANT ∧
      get_size 0 = 16) := by
  decide

/-- C32: transitions from a state other than the one named.  On a fresh
resource `allocate(16384)` marks page 3 and returns `A = 1081344`; the
matching `deallocate(A, 16384)` computes page 5, which is `NON_EXTANT`, and
`change_state_occupied_to_vacant` makes it `VACANT`.  Two further
`allocate(16384)` mark the pages 4 and 5.  The next `allocate(16384)` finds
page 2, `VACANT`, and splits it while its left child, page 5, is `OCCUPIED`:
`change_state_non_extant_to_vacant` makes page 5 `VACANT`, and the call marks
it `OCCUPIED` again and returns `1081344`, the address of the allocation that
holds page 5. -/
theorem C32_transitions_from_other_states :
    (do
      let a ← do_allocate_page (upstream_at 1048576) [] 16384 1
      let sp ← (match a.1[0]? with
        | some sp => Except.ok sp
        | none => Except.error failure.undefined)
      let d ← do_deallocate a.1 a.2.2 16384 1
      let b ← do_allocate_page (upstream_at 1048576) d 16384 1
      let c ← do_allocate_page (upstream_at 1048576) b.1 16384 1
      let sp1 ← (match c.1[0]? with
        | some sp => Except.ok sp
        | none => Except.error failure.undefined)
      let sp2 ← split sp1 2
      let e ← do_allocate_page (upstream_at 1048576) c.1 16384 1
      pure ((a.2, deallocate_index sp a.2.2 16384,
          get_state sp (deallocate_index sp a.2.2 16384), state_at d 0 5),
        (b.2, c.2, find_free_page c.1 (goal 16384), get_size 2, goal 16384),
        (get_state sp1 2, get_state sp1 5, get_state sp2 2, get_state sp2 5),
        (e.2, state_at e.1 0 5, e.1.length))) =
    (Except.ok (((⟨0, 3⟩, 1081344), 5, page_state.NON_EXTANT, some page_state.VACANT),
        ((⟨0, 4⟩, 1064960), (⟨0, 5⟩, 1081344), some ⟨0, 2⟩, 15, 14),
        (page_state.VACANT, page_state.OCCUPIED, page_state.SPLIT, page_state.VACANT),
        ((⟨0, 5⟩, 1081344), some page_state.OCCUPIED, 1)) :
      Except failure
        (((page_ref × Nat) × Nat × page_state × Option page_state) ×
          ((page_ref × Nat) × (page_ref × Nat) × Option page_ref × Nat × Nat) ×
          (page_state × page_state × page_state × page_state) ×
          ((page_ref × Nat) × Option page_state × Nat))) := by
  rfl

/-- C33: `do_allocate` never merges.  In every state a page returned by
`find_free_page` is `VACANT`, hence not `SPLIT`, so the part of `do_allocate`
after the search is `split_and_mark`, without the call of `unsplit`; and
`do_allocate` as a whole is the search, the growth and the second search,
each followed by `split_and_mark`. -/
theorem C33_allocate_never_calls_unsplit
    (upstream : Nat → Option Nat) (sps : List superpage) (size alignment o : Nat) :
    (∀ c, find_free_page sps o = some c →
      ∃ sp, sps[c.m_superpage]? = some sp ∧
        get_state sp c.m_page = page_state.VACANT ∧
        get_state sp c.m_page ≠ page_state.SPLIT ∧
        ∀ g, take_page sps g c = split_and_mark sps g c) ∧
    do_allocate_page upstream sps size alignment =
      (match find_free_page sps (goal size) with
      | some c => split_and_mark sps (goal size) c
      | none =>
        match allocate_upstream upstream sps (goal size) with
        | .error e => .error e
        | .ok sps1 =>
          match find_free_page sps1 (goal size) with
          | none => .error failure.bad_alloc
          | some c => split_and_mark sps1 (goal size) c) := by
  have key : ∀ (s : List superpage) (o : Nat) (c : page_ref), find_free_page s o = some c →
      ∃ sp, s[c.m_superpage]? = some sp ∧
        get_state sp c.m_page = page_state.VACANT ∧
        get_state sp c.m_page ≠ page_state.SPLIT ∧
        ∀ g, take_page s g c = split_and_mark s g c := by
    intro s o c h
    obtain ⟨_, _, sp, hsp, _, _, _, hv⟩ := find_free_page_some h
    refine ⟨sp, hsp, hv, by rw [hv]; decide, fun g => ?_⟩
    unfold take_page split_and_mark
    rw [hsp]
    simp only
    rw [if_neg (by rw [hv]; decide)]
    rfl
  refine ⟨key sps o, ?_⟩
  unfold do_allocate_page
  cases h1 : find_free_page sps (goal size) with
  | some c =>
    obtain ⟨_, _, _, _, h⟩ := key sps _ c h1
    exact h _
  | none =>
    simp only
    cases h2 : allocate_upstream upstream sps (goal size) with
    | error e => rfl
    | ok sps1 =>
      simp only
      cases h3 : find_free_page sps1 (goal size) with
      | none => rfl
      | some c =>
        obtain ⟨_, _, _, _, h⟩ := key sps1 _ c h3
        exact h _

/-- C33 (witness): after `allocate(100)` on a fresh resource the search for
the order 8 returns page 256, which is `VACANT`. -/
theorem C33_allocate_never_calls_unsplit_witness :
    find_free_page after_allocate_100 8 = some ⟨0, 256⟩ ∧
    ∃ sp, after_allocate_100[0]? = some sp ∧
      get_state sp 256 = page_state.VACANT ∧
      get_state sp 256 ≠ page_state.SPLIT ∧
      ∀ g, take_page after_allocate_100 g ⟨0, 256⟩ =
        split_and_mark after_allocate_100 g ⟨0, 256⟩ :=
  ⟨by decide,
    (C33_allocate_never_calls_unsplit (upstream_at 1048576) after_allocate_100 100 1 8).1
      ⟨0, 256⟩ (by decide)⟩
/-- A superpage of the shape the constructor gives has at least 8191 pages. -/
theorem well_formed_pages {sps : List superpage} (hwf : well_formed sps) {sp : superpage}
    (hsp : sp ∈ sps) : 8191 ≤ sp.m_num_pages := by
  obtain ⟨ho, hn⟩ := hwf sp hsp
  rw [hn, Nat.shiftLeft_eq]
  have : 2 ^ 12 ≤ 2 ^ (sp.m_size - min_page_size) :=
    Nat.pow_le_pow_right (by decide) (by simp only [new_page_size, min_page_size] at *; omega)
  omega

/-- The list of superpages with a new superpage appended has the shape the
constructor gives. -/
theorem well_formed_append {sps : List superpage} (hwf : well_formed sps) (size mem : Nat) :
    well_formed (sps ++ [superpage.create (max size new_page_size) mem]) := by
  intro sp hsp
  rcases List.mem_append.mp hsp with h | h
  · exact hwf sp h
  · simp only [List.mem_singleton] at h
    subst h
    exact ⟨Nat.le_max_right _ _, rfl⟩

/-- A write inside the array of states succeeds. -/
theorem write_state_succeeds (sp : superpage) (i : Nat) (s : page_state)
    (h : i < sp.m_num_pages) :
    ∃ sp1, write_state sp i s = Except.ok sp1 ∧ sp1.m_num_pages = sp.m_num_pages := by
  unfold write_state
  rw [if_pos h]
  exact ⟨_, rfl, rfl⟩

/-- The function `split` returns when the right child of the page lies inside
the array of states. -/
theorem split_succeeds (sp : superpage) (c : Nat) (h : right_child c < sp.m_num_pages) :
    ∃ sp1, split sp c = Except.ok sp1 ∧ sp1.m_num_pages = sp.m_num_pages := by
  have h0 : c < sp.m_num_pages := by unfold right_child at h; omega
  have h1 : left_child c < sp.m_num_pages := by unfold right_child at h; unfold left_child; omega
  obtain ⟨a, ha, na⟩ := write_state_succeeds sp c page_state.SPLIT h0
  obtain ⟨b, hb, nb⟩ := write_state_succeeds a (left_child c) page_state.VACANT (by omega)
  obtain ⟨d, hd, nd⟩ := write_state_succeeds b (right_child c) page_state.VACANT (by omega)
  refine ⟨d, ?_, by omega⟩
  unfold split change_state_vacant_to_split change_state_non_extant_to_vacant
  rw [ha]
  show (do
    let sp2 ← write_state a (left_child c) page_state.VACANT
    write_state sp2 (right_child c) page_state.VACANT) = _
  rw [hb]
  exact hd

/-- The loop that splits the candidate returns, with a page inside the array
of states: a page that is split has a depth below 8, so the children written
have an index below 511. -/
theorem split_loop_succeeds (g : Nat) (hg : 8 ≤ g) :
    ∀ fuel (sp : superpage) (c d : Nat),
      2 ^ d ≤ c + 1 → c + 1 < 2 ^ (d + 1) → d ≤ 16 →
      511 ≤ sp.m_num_pages → c < sp.m_num_pages → 16 - d - g < fuel →
      ∃ sp1 n, split_loop g fuel sp c = Except.ok (sp1, n) ∧ n < sp1.m_num_pages ∧
        sp1.m_num_pages = sp.m_num_pages := by
  intro fuel
  induction fuel with
  | zero => intro sp c d _ _ _ _ _ h; omega
  | succ fuel ih =>
    intro sp c d h1 h2 hd hn hc hf
    unfold split_loop
    rw [get_size_eq c d h1 h2 hd]
    by_cases hgt : 16 - d > g
    · rw [if_pos hgt]
      have hd7 : d + 1 ≤ 8 := by omega
      have hp : 2 ^ (d + 1) ≤ 2 ^ 8 := Nat.pow_le_pow_right (by decide) hd7
      have hp2 : 2 ^ (d + 1 + 1) = 2 * 2 ^ (d + 1) := by rw [Nat.pow_succ]; omega
      have hp1 : 2 ^ (d + 1) = 2 * 2 ^ d := by rw [Nat.pow_succ]; omega
      obtain ⟨sp1, hs, n1⟩ := split_succeeds sp c (by unfold right_child; omega)
      rw [hs]
      simp only
      obtain ⟨sp2, n, hl, hn2, hn3⟩ := ih sp1 (left_child c) (d + 1)
        (by unfold left_child; omega) (by unfold left_child; omega) (by omega) (by omega)
        (by unfold left_child; omega) (by omega)
      exact ⟨sp2, n, hl, hn2, by omega⟩
    · rw [if_neg hgt]
      exact ⟨sp, c, rfl, hc, rfl⟩

/-- The part of `do_allocate` after the search returns for a `VACANT`
candidate of a level of the walk. -/
theorem take_page_succeeds {sps : List superpage} {g : Nat} {c : page_ref} {sp : superpage}
    {s1 : Nat} (hg : 8 ≤ g) (hsp : sps[c.m_superpage]? = some sp)
    (hn : 511 ≤ sp.m_num_pages)
    (hv : get_state sp c.m_page = page_state.VACANT)
    (h1 : first_page s1 ≤ c.m_page) (h2 : c.m_page < 2 * first_page s1 + 1) :
    ∃ r, take_page sps g c = Except.ok r := by
  have hex : c.m_page < sp.m_num_pages := by
    by_contra hc
    unfold get_state page_exists at hv
    rw [decide_eq_false hc] at hv
    simp at hv
  rw [first_page_eq] at h1 h2
  have hpos : 0 < 2 ^ (16 - s1) := Nat.two_pow_pos _
  have hp : 2 ^ (16 - s1 + 1) = 2 * 2 ^ (16 - s1) := by rw [Nat.pow_succ]; omega
  obtain ⟨sp1, n, hl, hn1, _⟩ := split_loop_succeeds g hg 64 sp c.m_page (16 - s1)
    (by omega) (by omega) (by omega) hn hex (by omega)
  obtain ⟨sp3, hw, _⟩ := write_state_succeeds sp1 n page_state.OCCUPIED hn1
  unfold take_page
  rw [hsp]
  simp only
  rw [if_neg (by rw [hv]; decide)]
  refine ⟨(sps.set c.m_superpage sp3, ⟨c.m_superpage, n⟩, get_addr sp3 n), ?_⟩
  show (do
    let r ← split_loop g 64 sp c.m_page
    let sp3 ← change_state_vacant_to_occupied r.1 r.2
    Except.ok (sps.set c.m_superpage sp3, (⟨c.m_superpage, r.2⟩ : page_ref),
      get_addr sp3 r.2)) = _
  rw [hl]
  show (do
    let sp3 ← change_state_vacant_to_occupied sp1 n
    Except.ok (sps.set c.m_superpage sp3, (⟨c.m_superpage, n⟩ : page_ref),
      get_addr sp3 n)) = _
  unfold change_state_vacant_to_occupied
  rw [hw]
  rfl

/-- In a resource whose superpages have the shape the constructor gives,
`do_allocate` returns or throws `std::bad_alloc`: it writes no state outside
an array. -/
theorem do_allocate_page_total (upstream : Nat → Option Nat) (sps : List superpage)
    (size alignment : Nat) (hwf : well_formed sps) :
    (∃ r, do_allocate_page upstream sps size alignment = Except.ok r) ∨
      do_allocate_page upstream sps size alignment = Except.error failure.bad_alloc := by
  have key : ∀ (s : List superpage) (c : page_ref), well_formed s →
      find_free_page s (goal size) = some c →
      ∃ r, take_page s (goal size) c = Except.ok r := by
    intro s c hs h
    obtain ⟨s1, _, sp, hsp, _, h1, h2, hv⟩ := find_free_page_some h
    have := well_formed_pages hs (List.getElem?_mem hsp)
    exact take_page_succeeds (goal_ge size) hsp (by omega) hv h1 h2
  unfold do_allocate_page
  cases h1 : find_free_page sps (goal size) with
  | some c => exact Or.inl (key sps c hwf h1)
  | none =>
    simp only
    cases h2 : allocate_upstream upstream sps (goal size) with
    | error e =>
      right
      unfold allocate_upstream at h2
      cases hu : upstream (1 <<< max (goal size) new_page_size) with
      | none => rw [hu] at h2; simp only at h2; rw [← h2]
      | some mem => rw [hu] at h2; simp only at h2; cases h2
    | ok sps1 =>
      simp only
      obtain ⟨mem, _, rfl⟩ := allocate_upstream_ok h2
      obtain ⟨c, hc⟩ := find_free_page_after_growth sps size mem
      rw [hc]
      exact Or.inl (key _ c (well_formed_append hwf _ _) hc)
/-- In a resource whose superpages have the shape the constructor gives,
`do_deallocate` returns for every address that lies in a superpage. -/
theorem do_deallocate_total (sps : List superpage) (p s alignment : Nat)
    (hwf : well_formed sps) (hin : in_some_superpage sps p) :
    ∃ s2, do_deallocate sps p s alignment = Except.ok s2 := by
  obtain ⟨k, hk⟩ := find_superpage_of_mem hin
  obtain ⟨sp, hsp, h1, h2⟩ := find_superpage_some hk
  obtain ⟨ho, hn⟩ := hwf sp (List.getElem?_mem hsp)
  have hlt := deallocate_index_lt (s := s) ho hn h1 h2
  obtain ⟨sp1, hw, _⟩ := write_state_succeeds sp _ page_state.VACANT hlt
  refine ⟨sps.set k sp1, ?_⟩
  unfold do_deallocate
  rw [hk]
  simp only
  rw [hsp]
  simp only
  unfold change_state_occupied_to_vacant
  rw [hw]

/-- An address that lies in a superpage still does after a superpage has been
replaced by one of the same order and memory. -/
theorem in_some_superpage_set {sps : List superpage} {k : Nat} {a b : superpage} {p : Nat}
    (ha : sps[k]? = some a) (f : same_frame a b) (h : in_some_superpage sps p) :
    in_some_superpage (sps.set k b) p := by
  obtain ⟨x, hx, h1, h2⟩ := h
  obtain ⟨j, hj⟩ := List.mem_iff_getElem?.mp hx
  obtain ⟨y, hy, fy⟩ := frame_set sps k a b ha f j x hj
  refine ⟨y, List.getElem?_mem hy, ?_, ?_⟩
  · rw [fy.2.2]; exact h1
  · rw [fy.2.2, fy.1]; exact h2

/-- After `do_allocate` the address returned lies in a superpage, and so does
every address that did before. -/
theorem in_some_superpage_allocate {upstream : Nat → Option Nat} {sps s1 : List superpage}
    {size alignment addr : Nat} (hwf : well_formed sps)
    (h : do_allocate upstream sps size alignment = Except.ok (s1, addr)) :
    in_some_superpage s1 addr ∧ ∀ p, in_some_superpage sps p → in_some_superpage s1 p := by
  obtain ⟨r, hr⟩ := do_allocate_ok h
  constructor
  · have h16 : ∀ sp ∈ sps, 16 ≤ sp.m_size := by
      intro sp hsp
      have := (hwf sp hsp).1
      simp only [new_page_size] at this
      omega
    obtain ⟨sp, hsp, h1, h2⟩ :=
      block_inside_superpage_for_goal upstream sps s1 size alignment addr r h16 hr
    have hpos : 0 < 2 ^ goal size := Nat.two_pow_pos _
    exact ⟨sp, List.getElem?_mem hsp, h1, by omega⟩
  · intro p hp
    obtain ⟨sps0, sp, sp3, h0, hsp, hs1, f, _⟩ := do_allocate_page_ok hr
    have hp0 : in_some_superpage sps0 p := by
      obtain ⟨x, hx, hx1, hx2⟩ := hp
      obtain ⟨j, hj⟩ := List.mem_iff_getElem?.mp hx
      exact ⟨x, List.getElem?_mem (prefix_extended h0 j x hj), hx1, hx2⟩
    rw [hs1]
    exact in_some_superpage_set hsp f hp0

/-- After `do_deallocate` every address that lay in a superpage still does. -/
theorem in_some_superpage_deallocate {sps s2 : List superpage} {p s alignment q : Nat}
    (h : do_deallocate sps p s alignment = Except.ok s2) (hq : in_some_superpage sps q) :
    in_some_superpage s2 q := by
  obtain ⟨k, sp, sp1, _, hsp, hw, hs2⟩ := do_deallocate_ok h
  rw [hs2]
  exact in_some_superpage_set hsp (write_state_ok hw).2.1 hq

/-- From a state whose superpages have the shape the constructor gives and
whose live allocations lie in superpages, every sequence of calls with
matching deallocations runs to its end. -/
theorem run_total (upstream : Nat → Nat → Option Nat) :
    ∀ (calls : List binary_page_memory_resource.call)
      (st : List superpage × List (Nat × Nat)),
      well_formed st.1 → (∀ x ∈ st.2, in_some_superpage st.1 x.1) →
      binary_page_memory_resource.matching upstream st calls = true →
      ∃ st1, binary_page_memory_resource.run upstream st calls = Except.ok st1 ∧
        well_formed st1.1 := by
  intro calls
  induction calls with
  | nil => intro st hwf _ _; exact ⟨st, rfl, hwf⟩
  | cons c rest ih =>
    intro st hwf hlive hm
    unfold binary_page_memory_resource.matching at hm
    rw [Bool.and_eq_true] at hm
    obtain ⟨hm1, hm2⟩ := hm
    unfold binary_page_memory_resource.run
    cases c with
    | allocate size alignment =>
      have hstep : binary_page_memory_resource.step upstream st
            (binary_page_memory_resource.call.allocate size alignment) =
          match do_allocate (upstream st.1.length) st.1 size alignment with
          | .ok r => .ok (r.1, (r.2, size) :: st.2)
          | .error failure.bad_alloc => .ok st
          | .error e => .error e := rfl
      rcases do_allocate_page_total (upstream st.1.length) st.1 size alignment hwf with
        ⟨r, hr⟩ | hr
      · have hd : do_allocate (upstream st.1.length) st.1 size alignment =
            Except.ok (r.1, r.2.2) := by
          unfold do_allocate; rw [hr]
        rw [hd] at hstep
        simp only at hstep
        rw [hstep] at hm2 ⊢
        simp only at hm2 ⊢
        obtain ⟨hin, hkeep⟩ := in_some_superpage_allocate hwf hd
        refine ih _ ((well_formed_kept st.1 hwf).1 _ _ _ _ _ hd) ?_ hm2
        intro x hx
        rcases List.mem_cons.mp hx with e | e
        · rw [e]; exact hin
        · exact hkeep _ (hlive x e)
      · have hd : do_allocate (upstream st.1.length) st.1 size alignment =
            Except.error failure.bad_alloc := by
          unfold do_allocate; rw [hr]
        rw [hd] at hstep
        simp only at hstep
        rw [hstep] at hm2 ⊢
        simp only at hm2 ⊢
        exact ih st hwf hlive hm2
    | deallocate p s alignment =>
      have hstep : binary_page_memory_resource.step upstream st
            (binary_page_memory_resource.call.deallocate p s alignment) =
          match do_deallocate st.1 p s alignment with
          | .ok sps => .ok (sps, st.2.erase (p, s))
          | .error e => .error e := rfl
      simp only [decide_eq_true_eq] at hm1
      obtain ⟨s2, hd⟩ := do_deallocate_total st.1 p s alignment hwf (hlive _ hm1)
      rw [hd] at hstep
      simp only at hstep
      rw [hstep] at hm2 ⊢
      simp only at hm2 ⊢
      refine ih _ ((well_formed_kept st.1 hwf).2 _ _ _ _ hd) ?_ hm2
      intro x hx
      exact in_some_superpage_deallocate hd (hlive x (List.mem_of_mem_erase hx))

/-- C34: the bounds of the state arrays.  A write of a state succeeds exactly
when the index is smaller than the number of pages of the superpage, and
fails as undefined behaviour otherwise.  Starting from the empty resource,
every sequence of calls of `allocate` and of matching calls of `deallocate`
runs to its end, whatever the upstream answers: no call writes a state
outside an array (nor reads an empty `std::optional`), be it the candidate,
the children written by `split` or the page `deallocate` computes. -/
theorem C34_state_writes_stay_inside_the_arrays
    (upstream : Nat → Nat → Option Nat) (calls : List binary_page_memory_resource.call)
    (hm : binary_page_memory_resource.matching upstream ([], []) calls = true) :
    (∀ (sp : superpage) (i : Nat) (s : page_state),
      (∃ sp1, write_state sp i s = Except.ok sp1) ↔ i < sp.m_num_pages) ∧
    (∀ (sp : superpage) (i : Nat) (s : page_state),
      ¬ i < sp.m_num_pages → write_state sp i s = Except.error failure.undefined) ∧
    ∃ st, binary_page_memory_resource.run upstream ([], []) calls = Except.ok st := by
  refine ⟨fun sp i s => ⟨?_, ?_⟩, ?_, ?_⟩
  · rintro ⟨sp1, h⟩
    exact (write_state_ok h).1
  · intro h
    obtain ⟨sp1, h1, _⟩ := write_state_succeeds sp i s h
    exact ⟨sp1, h1⟩
  · intro sp i s h
    unfold write_state
    rw [if_neg h]
  · obtain ⟨st, h, _⟩ := run_total upstream calls ([], []) well_formed_nil
      (fun x hx => by cases hx) hm
    exact ⟨st, h⟩

/-- C34 (witness): the calls `allocate(16384) = 1081344`,
`deallocate(1081344, 16384)`, three times `allocate(16384)`,
`deallocate(1064960, 16384)` and `allocate(2097152)`, which appends a second
superpage, on a resource whose upstream returns the addresses `1048576` and
`4194304`. -/
theorem C34_state_writes_witness :
    binary_page_memory_resource.matching (fun k _ => some (1048576 * (3 * k + 1))) ([], [])
      [.allocate 16384 1, .deallocate 1081344 16384 1, .allocate 16384 1, .allocate 16384 1,
        .allocate 16384 1, .deallocate 1064960 16384 1, .allocate 2097152 1] = true ∧
    ∃ st, binary_page_memory_resource.run (fun k _ => some (1048576 * (3 * k + 1))) ([], [])
      [.allocate 16384 1, .deallocate 1081344 16384 1, .allocate 16384 1, .allocate 16384 1,
        .allocate 16384 1, .deallocate 1064960 16384 1, .allocate 2097152 1] = Except.ok st :=
  ⟨by decide,
    (C34_state_writes_stay_inside_the_arrays (fun k _ => some (1048576 * (3 * k + 1)))
      [.allocate 16384 1, .deallocate 1081344 16384 1, .allocate 16384 1, .allocate 16384 1,
        .allocate 16384 1, .deallocate 1064960 16384 1, .allocate 2097152 1]
      (by decide)).2.2⟩

end vecmem
